import Mathlib

/-!
Exynos-SnapShot (drivers/trace/exynos-ss.c): a shallow embedding.

The definitions below follow the C source function by function.  Machine
integers are `Nat`/`Int` with the wrap-around written out where it can occur,
pointers are `Nat` addresses, C strings are `String`s read as the characters
before their terminating NUL, and the module's global variables are gathered
in one explicit state that every operation takes and returns.
-/

namespace ExynosSS

/-! ## Event tag dictionary (CONFIG_SEC_EVENT_LOG) -/

/-- The C `struct event_log_tag_t`: a numeric tag and its name. -/
structure event_log_tag_t where
  nTagNum : Int
  event_msg : String
  deriving DecidableEq, Repr

/-- The static table `event_tags[]`, entry for entry as in the source. -/
def event_tags : List event_log_tag_t := [
  event_log_tag_t.mk 42 "answer",
  event_log_tag_t.mk 314 "pi",
  event_log_tag_t.mk 1003 "auditd",
  event_log_tag_t.mk 2718 "e",
  event_log_tag_t.mk 2719 "configuration_changed",
  event_log_tag_t.mk 2720 "sync",
  event_log_tag_t.mk 2721 "cpu",
  event_log_tag_t.mk 2722 "battery_level",
  event_log_tag_t.mk 2723 "battery_status",
  event_log_tag_t.mk 2724 "power_sleep_requested",
  event_log_tag_t.mk 2725 "power_screen_broadcast_send",
  event_log_tag_t.mk 2726 "power_screen_broadcast_done",
  event_log_tag_t.mk 2727 "power_screen_broadcast_stop",
  event_log_tag_t.mk 2728 "power_screen_state",
  event_log_tag_t.mk 2729 "power_partial_wake_state",
  event_log_tag_t.mk 2730 "battery_discharge",
  event_log_tag_t.mk 2740 "location_controller",
  event_log_tag_t.mk 2741 "force_gc",
  event_log_tag_t.mk 2742 "tickle",
  event_log_tag_t.mk 2744 "free_storage_changed",
  event_log_tag_t.mk 2745 "low_storage",
  event_log_tag_t.mk 2746 "free_storage_left",
  event_log_tag_t.mk 2747 "contacts_aggregation",
  event_log_tag_t.mk 2748 "cache_file_deleted",
  event_log_tag_t.mk 2750 "notification_enqueue",
  event_log_tag_t.mk 2751 "notification_cancel",
  event_log_tag_t.mk 2752 "notification_cancel_all",
  event_log_tag_t.mk 2753 "idle_maintenance_window_start",
  event_log_tag_t.mk 2754 "idle_maintenance_window_finish",
  event_log_tag_t.mk 2755 "fstrim_start",
  event_log_tag_t.mk 2756 "fstrim_finish",
  event_log_tag_t.mk 2802 "watchdog",
  event_log_tag_t.mk 2803 "watchdog_proc_pss",
  event_log_tag_t.mk 2804 "watchdog_soft_reset",
  event_log_tag_t.mk 2805 "watchdog_hard_reset",
  event_log_tag_t.mk 2806 "watchdog_pss_stats",
  event_log_tag_t.mk 2807 "watchdog_proc_stats",
  event_log_tag_t.mk 2808 "watchdog_scheduled_reboot",
  event_log_tag_t.mk 2809 "watchdog_meminfo",
  event_log_tag_t.mk 2810 "watchdog_vmstat",
  event_log_tag_t.mk 2811 "watchdog_requested_reboot",
  event_log_tag_t.mk 2820 "backup_data_changed",
  event_log_tag_t.mk 2821 "backup_start",
  event_log_tag_t.mk 2822 "backup_transport_failure",
  event_log_tag_t.mk 2823 "backup_agent_failure",
  event_log_tag_t.mk 2824 "backup_package",
  event_log_tag_t.mk 2825 "backup_success",
  event_log_tag_t.mk 2826 "backup_reset",
  event_log_tag_t.mk 2827 "backup_initialize",
  event_log_tag_t.mk 2830 "restore_start",
  event_log_tag_t.mk 2831 "restore_transport_failure",
  event_log_tag_t.mk 2832 "restore_agent_failure",
  event_log_tag_t.mk 2833 "restore_package",
  event_log_tag_t.mk 2834 "restore_success",
  event_log_tag_t.mk 2840 "full_backup_package",
  event_log_tag_t.mk 2841 "full_backup_agent_failure",
  event_log_tag_t.mk 2842 "full_backup_transport_failure",
  event_log_tag_t.mk 2843 "full_backup_success",
  event_log_tag_t.mk 2844 "full_restore_package",
  event_log_tag_t.mk 2850 "backup_transport_lifecycle",
  event_log_tag_t.mk 3000 "boot_progress_start",
  event_log_tag_t.mk 3010 "boot_progress_system_run",
  event_log_tag_t.mk 3020 "boot_progress_preload_start",
  event_log_tag_t.mk 3030 "boot_progress_preload_end",
  event_log_tag_t.mk 3040 "boot_progress_ams_ready",
  event_log_tag_t.mk 3050 "boot_progress_enable_screen",
  event_log_tag_t.mk 3060 "boot_progress_pms_start",
  event_log_tag_t.mk 3070 "boot_progress_pms_system_scan_start",
  event_log_tag_t.mk 3080 "boot_progress_pms_data_scan_start",
  event_log_tag_t.mk 3090 "boot_progress_pms_scan_end",
  event_log_tag_t.mk 3100 "boot_progress_pms_ready",
  event_log_tag_t.mk 3110 "unknown_sources_enabled",
  event_log_tag_t.mk 3120 "pm_critical_info",
  event_log_tag_t.mk 4000 "calendar_upgrade_receiver",
  event_log_tag_t.mk 4100 "contacts_upgrade_receiver",
  event_log_tag_t.mk 20003 "dvm_lock_sample",
  event_log_tag_t.mk 27500 "notification_panel_revealed",
  event_log_tag_t.mk 27501 "notification_panel_hidden",
  event_log_tag_t.mk 27510 "notification_visibility_changed",
  event_log_tag_t.mk 27511 "notification_expansion",
  event_log_tag_t.mk 27520 "notification_clicked",
  event_log_tag_t.mk 27530 "notification_canceled",
  event_log_tag_t.mk 27531 "notification_visibility",
  event_log_tag_t.mk 30001 "am_finish_activity",
  event_log_tag_t.mk 30002 "am_task_to_front",
  event_log_tag_t.mk 30003 "am_new_intent",
  event_log_tag_t.mk 30004 "am_create_task",
  event_log_tag_t.mk 30005 "am_create_activity",
  event_log_tag_t.mk 30006 "am_restart_activity",
  event_log_tag_t.mk 30007 "am_resume_activity",
  event_log_tag_t.mk 30008 "am_anr",
  event_log_tag_t.mk 30009 "am_activity_launch_time",
  event_log_tag_t.mk 30010 "am_proc_bound",
  event_log_tag_t.mk 30011 "am_proc_died",
  event_log_tag_t.mk 30012 "am_failed_to_pause",
  event_log_tag_t.mk 30013 "am_pause_activity",
  event_log_tag_t.mk 30014 "am_proc_start",
  event_log_tag_t.mk 30015 "am_proc_bad",
  event_log_tag_t.mk 30016 "am_proc_good",
  event_log_tag_t.mk 30017 "am_low_memory",
  event_log_tag_t.mk 30018 "am_destroy_activity",
  event_log_tag_t.mk 30019 "am_relaunch_resume_activity",
  event_log_tag_t.mk 30020 "am_relaunch_activity",
  event_log_tag_t.mk 30021 "am_on_paused_called",
  event_log_tag_t.mk 30022 "am_on_resume_called",
  event_log_tag_t.mk 30023 "am_kill",
  event_log_tag_t.mk 30024 "am_broadcast_discard_filter",
  event_log_tag_t.mk 30025 "am_broadcast_discard_app",
  event_log_tag_t.mk 30030 "am_create_service",
  event_log_tag_t.mk 30031 "am_destroy_service",
  event_log_tag_t.mk 30032 "am_process_crashed_too_much",
  event_log_tag_t.mk 30033 "am_drop_process",
  event_log_tag_t.mk 30034 "am_service_crashed_too_much",
  event_log_tag_t.mk 30035 "am_schedule_service_restart",
  event_log_tag_t.mk 30036 "am_provider_lost_process",
  event_log_tag_t.mk 30037 "am_process_start_timeout",
  event_log_tag_t.mk 30039 "am_crash",
  event_log_tag_t.mk 30040 "am_wtf",
  event_log_tag_t.mk 30041 "am_switch_user",
  event_log_tag_t.mk 30042 "am_activity_fully_drawn_time",
  event_log_tag_t.mk 30043 "am_focused_activity",
  event_log_tag_t.mk 30044 "am_focused_stack",
  event_log_tag_t.mk 30045 "am_pre_boot",
  event_log_tag_t.mk 30046 "am_meminfo",
  event_log_tag_t.mk 30047 "am_pss",
  event_log_tag_t.mk 30048 "am_stop_activity",
  event_log_tag_t.mk 30049 "am_on_stop_called",
  event_log_tag_t.mk 30050 "am_mem_factor",
  event_log_tag_t.mk 31000 "wm_no_surface_memory",
  event_log_tag_t.mk 31001 "wm_task_created",
  event_log_tag_t.mk 31002 "wm_task_moved",
  event_log_tag_t.mk 31003 "wm_task_removed",
  event_log_tag_t.mk 31004 "wm_stack_created",
  event_log_tag_t.mk 31005 "wm_home_stack_moved",
  event_log_tag_t.mk 31006 "wm_stack_removed",
  event_log_tag_t.mk 31007 "boot_progress_enable_screen",
  event_log_tag_t.mk 32000 "imf_force_reconnect_ime",
  event_log_tag_t.mk 36000 "sysui_statusbar_touch",
  event_log_tag_t.mk 36001 "sysui_heads_up_status",
  event_log_tag_t.mk 36004 "sysui_status_bar_state",
  event_log_tag_t.mk 36010 "sysui_panelbar_touch",
  event_log_tag_t.mk 36020 "sysui_notificationpanel_touch",
  event_log_tag_t.mk 36030 "sysui_quickpanel_touch",
  event_log_tag_t.mk 36040 "sysui_panelholder_touch",
  event_log_tag_t.mk 36050 "sysui_searchpanel_touch",
  event_log_tag_t.mk 40000 "volume_changed",
  event_log_tag_t.mk 40001 "stream_devices_changed",
  event_log_tag_t.mk 50000 "menu_item_selected",
  event_log_tag_t.mk 50001 "menu_opened",
  event_log_tag_t.mk 50020 "connectivity_state_changed",
  event_log_tag_t.mk 50021 "wifi_state_changed",
  event_log_tag_t.mk 50022 "wifi_event_handled",
  event_log_tag_t.mk 50023 "wifi_supplicant_state_changed",
  event_log_tag_t.mk 50100 "pdp_bad_dns_address",
  event_log_tag_t.mk 50101 "pdp_radio_reset_countdown_triggered",
  event_log_tag_t.mk 50102 "pdp_radio_reset",
  event_log_tag_t.mk 50103 "pdp_context_reset",
  event_log_tag_t.mk 50104 "pdp_reregister_network",
  event_log_tag_t.mk 50105 "pdp_setup_fail",
  event_log_tag_t.mk 50106 "call_drop",
  event_log_tag_t.mk 50107 "data_network_registration_fail",
  event_log_tag_t.mk 50108 "data_network_status_on_radio_off",
  event_log_tag_t.mk 50109 "pdp_network_drop",
  event_log_tag_t.mk 50110 "cdma_data_setup_failed",
  event_log_tag_t.mk 50111 "cdma_data_drop",
  event_log_tag_t.mk 50112 "gsm_rat_switched",
  event_log_tag_t.mk 50113 "gsm_data_state_change",
  event_log_tag_t.mk 50114 "gsm_service_state_change",
  event_log_tag_t.mk 50115 "cdma_data_state_change",
  event_log_tag_t.mk 50116 "cdma_service_state_change",
  event_log_tag_t.mk 50117 "bad_ip_address",
  event_log_tag_t.mk 50118 "data_stall_recovery_get_data_call_list",
  event_log_tag_t.mk 50119 "data_stall_recovery_cleanup",
  event_log_tag_t.mk 50120 "data_stall_recovery_reregister",
  event_log_tag_t.mk 50121 "data_stall_recovery_radio_restart",
  event_log_tag_t.mk 50122 "data_stall_recovery_radio_restart_with_prop",
  event_log_tag_t.mk 50123 "gsm_rat_switched_new",
  event_log_tag_t.mk 50125 "exp_det_sms_denied_by_user",
  event_log_tag_t.mk 50128 "exp_det_sms_sent_by_user",
  event_log_tag_t.mk 51100 "netstats_mobile_sample",
  event_log_tag_t.mk 51101 "netstats_wifi_sample",
  event_log_tag_t.mk 51200 "lockdown_vpn_connecting",
  event_log_tag_t.mk 51201 "lockdown_vpn_connected",
  event_log_tag_t.mk 51202 "lockdown_vpn_error",
  event_log_tag_t.mk 51300 "config_install_failed",
  event_log_tag_t.mk 51400 "ifw_intent_matched",
  event_log_tag_t.mk 52000 "db_sample",
  event_log_tag_t.mk 52001 "http_stats",
  event_log_tag_t.mk 52002 "content_query_sample",
  event_log_tag_t.mk 52003 "content_update_sample",
  event_log_tag_t.mk 52004 "binder_sample",
  event_log_tag_t.mk 60000 "viewroot_draw",
  event_log_tag_t.mk 60001 "viewroot_layout",
  event_log_tag_t.mk 60002 "view_build_drawing_cache",
  event_log_tag_t.mk 60003 "view_use_drawing_cache",
  event_log_tag_t.mk 60100 "sf_frame_dur",
  event_log_tag_t.mk 60110 "sf_stop_bootanim",
  event_log_tag_t.mk 65537 "exp_det_netlink_failure",
  event_log_tag_t.mk 70000 "screen_toggled",
  event_log_tag_t.mk 70101 "browser_zoom_level_change",
  event_log_tag_t.mk 70102 "browser_double_tap_duration",
  event_log_tag_t.mk 70103 "browser_bookmark_added",
  event_log_tag_t.mk 70104 "browser_page_loaded",
  event_log_tag_t.mk 70105 "browser_timeonpage",
  event_log_tag_t.mk 70150 "browser_snap_center",
  event_log_tag_t.mk 70151 "exp_det_attempt_to_call_object_getclass",
  event_log_tag_t.mk 70200 "aggregation",
  event_log_tag_t.mk 70201 "aggregation_test",
  event_log_tag_t.mk 70300 "telephony_event",
  event_log_tag_t.mk 70301 "phone_ui_enter",
  event_log_tag_t.mk 70302 "phone_ui_exit",
  event_log_tag_t.mk 70303 "phone_ui_button_click",
  event_log_tag_t.mk 70304 "phone_ui_ringer_query_elapsed",
  event_log_tag_t.mk 70305 "phone_ui_multiple_query",
  event_log_tag_t.mk 70310 "telecom_event",
  event_log_tag_t.mk 70311 "telecom_service",
  event_log_tag_t.mk 71001 "qsb_start",
  event_log_tag_t.mk 71002 "qsb_click",
  event_log_tag_t.mk 71003 "qsb_search",
  event_log_tag_t.mk 71004 "qsb_voice_search",
  event_log_tag_t.mk 71005 "qsb_exit",
  event_log_tag_t.mk 71006 "qsb_latency",
  event_log_tag_t.mk 73001 "input_dispatcher_slow_event_processing",
  event_log_tag_t.mk 73002 "input_dispatcher_stale_event",
  event_log_tag_t.mk 73100 "looper_slow_lap_time",
  event_log_tag_t.mk 73200 "choreographer_frame_skip",
  event_log_tag_t.mk 75000 "sqlite_mem_alarm_current",
  event_log_tag_t.mk 75001 "sqlite_mem_alarm_max",
  event_log_tag_t.mk 75002 "sqlite_mem_alarm_alloc_attempt",
  event_log_tag_t.mk 75003 "sqlite_mem_released",
  event_log_tag_t.mk 75004 "sqlite_db_corrupt",
  event_log_tag_t.mk 76001 "tts_speak_success",
  event_log_tag_t.mk 76002 "tts_speak_failure",
  event_log_tag_t.mk 76003 "tts_v2_speak_success",
  event_log_tag_t.mk 76004 "tts_v2_speak_failure",
  event_log_tag_t.mk 78001 "exp_det_dispatchCommand_overflow",
  event_log_tag_t.mk 80100 "bionic_event_memcpy_buffer_overflow",
  event_log_tag_t.mk 80105 "bionic_event_strcat_buffer_overflow",
  event_log_tag_t.mk 80110 "bionic_event_memmov_buffer_overflow",
  event_log_tag_t.mk 80115 "bionic_event_strncat_buffer_overflow",
  event_log_tag_t.mk 80120 "bionic_event_strncpy_buffer_overflow",
  event_log_tag_t.mk 80125 "bionic_event_memset_buffer_overflow",
  event_log_tag_t.mk 80130 "bionic_event_strcpy_buffer_overflow",
  event_log_tag_t.mk 80200 "bionic_event_strcat_integer_overflow",
  event_log_tag_t.mk 80205 "bionic_event_strncat_integer_overflow",
  event_log_tag_t.mk 80300 "bionic_event_resolver_old_response",
  event_log_tag_t.mk 80305 "bionic_event_resolver_wrong_server",
  event_log_tag_t.mk 80310 "bionic_event_resolver_wrong_query",
  event_log_tag_t.mk 90100 "exp_det_cert_pin_failure",
  event_log_tag_t.mk 90200 "lock_screen_type",
  event_log_tag_t.mk 90201 "exp_det_device_admin_activated_by_user",
  event_log_tag_t.mk 90202 "exp_det_device_admin_declined_by_user",
  event_log_tag_t.mk 90300 "install_package_attempt",
  event_log_tag_t.mk 201001 "system_update",
  event_log_tag_t.mk 201002 "system_update_user",
  event_log_tag_t.mk 202001 "vending_reconstruct",
  event_log_tag_t.mk 202901 "transaction_event",
  event_log_tag_t.mk 203001 "sync_details",
  event_log_tag_t.mk 203002 "google_http_request",
  event_log_tag_t.mk 204001 "gtalkservice",
  event_log_tag_t.mk 204002 "gtalk_connection",
  event_log_tag_t.mk 204003 "gtalk_conn_close",
  event_log_tag_t.mk 204004 "gtalk_heartbeat_reset",
  event_log_tag_t.mk 204005 "c2dm",
  event_log_tag_t.mk 205001 "setup_server_timeout",
  event_log_tag_t.mk 205002 "setup_required_captcha",
  event_log_tag_t.mk 205003 "setup_io_error",
  event_log_tag_t.mk 205004 "setup_server_error",
  event_log_tag_t.mk 205005 "setup_retries_exhausted",
  event_log_tag_t.mk 205006 "setup_no_data_network",
  event_log_tag_t.mk 205007 "setup_completed",
  event_log_tag_t.mk 205008 "gls_account_tried",
  event_log_tag_t.mk 205009 "gls_account_saved",
  event_log_tag_t.mk 205010 "gls_authenticate",
  event_log_tag_t.mk 205011 "google_mail_switch",
  event_log_tag_t.mk 206001 "snet",
  event_log_tag_t.mk 206003 "exp_det_snet",
  event_log_tag_t.mk 1050101 "nitz_information",
  event_log_tag_t.mk 1230000 "am_create_stack",
  event_log_tag_t.mk 1230001 "am_remove_stack",
  event_log_tag_t.mk 1230002 "am_move_task_to_stack",
  event_log_tag_t.mk 1230003 "am_exchange_task_to_stack",
  event_log_tag_t.mk 1230004 "am_create_task_to_stack",
  event_log_tag_t.mk 1230005 "am_focus_stack",
  event_log_tag_t.mk 1260001 "vs_move_task_to_display",
  event_log_tag_t.mk 1260002 "vs_create_display",
  event_log_tag_t.mk 1260003 "vs_remove_display",
  event_log_tag_t.mk 1261000 "am_start_user ",
  event_log_tag_t.mk 1261001 "am_stop_user ",
  event_log_tag_t.mk 1397638484 "snet_event_log"]

/-- The `while (l <= r)` loop of `find_tag_name_from_id`.  One unit of fuel is
spent per iteration; `none` means the fuel ran out or the loop indexed outside
the table, `some none` is the C `NULL`, `some (some msg)` a found name.
`Int.tdiv` is C's truncating division. -/
def find_tag_loop (tags : List event_log_tag_t) (id : Int) :
    Nat → Int → Int → Option (Option String)
  | 0, _, _ => none
  | fuel + 1, l, r =>
    if l ≤ r then
      let mid := (l + r).tdiv 2
      if mid < 0 then none
      else
        match tags[mid.toNat]? with
        | none => none
        | some e =>
          if e.nTagNum = id then some (some e.event_msg)
          else if e.nTagNum < id then find_tag_loop tags id fuel (mid + 1) r
          else find_tag_loop tags id fuel l (mid - 1)
    else some none

/-- The C `find_tag_name_from_id`: `l = 0`, `r = ARRAY_SIZE(event_tags) - 1`,
then the loop.  The fuel is one more than the table length. -/
def find_tag_name_from_id (id : Int) : Option (Option String) :=
  find_tag_loop event_tags id (event_tags.length + 1) 0 ((event_tags.length : Int) - 1)

/-- The reference lookup of the specification: scan the table from the front
and return the name of the entry whose `nTagNum` equals `id`, or `none`
(not found) when there is no such entry. -/
def linear_tag_lookup (tags : List event_log_tag_t) (id : Int) : Option String :=
  (tags.find? (fun e => decide (e.nTagNum = id))).map (fun e => e.event_msg)

/-! ## Machine arithmetic and C strings -/

/-- The value an `int` holds after two's-complement wrap-around to 32 bits. -/
def int32_wrap (x : Int) : Int := (x + 2 ^ 31) % 2 ^ 32 - 2 ^ 31

/-- Conversion of an integer to `unsigned int` (32 bits). -/
def to_u32 (x : Int) : Nat := (x % 2 ^ 32).toNat

/-- Conversion of an integer to `unsigned long` / `size_t` / `unsigned long long`
(all 64 bits on arm64, the only architecture the file builds for). -/
def to_u64 (x : Int) : Nat := (x % 2 ^ 64).toNat

/-- Subtraction of two 64-bit unsigned values, modulo `2 ^ 64`. -/
def u64_sub (a b : Nat) : Nat := to_u64 ((a : Int) - (b : Int))

/-- Addition of 64-bit unsigned values (also pointer plus offset), modulo `2 ^ 64`. -/
def u64_add (a b : Nat) : Nat := (a + b) % 2 ^ 64

/-- The bytes of a C string: the character codes before the first NUL. -/
def cstr (s : String) : List Nat :=
  (s.data.map Char.toNat).takeWhile (fun c => decide (c ≠ 0))

/-- The C `strlen`. -/
def strlen (s : String) : Nat := (cstr s).length

/-- The C `strncmp` on the bytes of two strings; reading past the end of a
string yields its terminating NUL. -/
def strncmp_bytes : List Nat → List Nat → Nat → Int
  | _, _, 0 => 0
  | a, b, n + 1 =>
    let c1 := a.headD 0
    let c2 := b.headD 0
    if c1 ≠ c2 then (c1 : Int) - (c2 : Int)
    else if c1 = 0 then 0
    else strncmp_bytes a.tail b.tail n

/-- The C `strncmp(a, b, n)`. -/
def strncmp (a b : String) (n : Nat) : Int := strncmp_bytes (cstr a) (cstr b) n

/-- The string `name` is an initial segment of the string `s`. -/
def starts (s name : String) : Prop := cstr name <+: cstr s

instance (s name : String) : Decidable (starts s name) := by
  unfold starts; infer_instance

/-! ## Size constants -/

def SZ_32 : Nat := 0x20
def SZ_256 : Nat := 0x100
def SZ_512 : Nat := 0x200
def SZ_1K : Nat := 0x400
def SZ_2K : Nat := 0x800
def SZ_4K : Nat := 0x1000
def SZ_32K : Nat := 0x8000
def SZ_2M : Nat := 0x200000
def SZ_4M : Nat := 0x400000
def SZ_8M : Nat := 0x800000

def ESS_KEEP_HEADER_SZ : Nat := SZ_256 * 3
def ESS_HEADER_SZ : Nat := SZ_4K
def ESS_MMU_REG_SZ : Nat := SZ_4K
def ESS_CORE_REG_SZ : Nat := SZ_4K
def ESS_HEADER_TOTAL_SZ : Nat := ESS_HEADER_SZ + ESS_MMU_REG_SZ + ESS_CORE_REG_SZ
def ESS_HEADER_ALLOC_SZ : Nat := SZ_2M
def ESS_LOG_STRING_LENGTH : Nat := 0x80
def ESS_MMU_REG_OFFSET : Nat := SZ_512
def ESS_CORE_REG_OFFSET : Nat := SZ_512
def ESS_LOG_MAX_NUM : Nat := SZ_1K
def ESS_API_MAX_NUM : Nat := SZ_2K
def ESS_CALLSTACK_MAX_NUM : Nat := 4

def ESS_SIGN_SCRATCH : Nat := 0xD
def ESS_OFFSET_SCRATCH : Nat := 0x100
def ESS_OFFSET_LAST_LOGBUF : Nat := 0x200
def ESS_OFFSET_EMERGENCY_REASON : Nat := 0x300

/-- Constants of the kernel build that the file uses but does not define. -/
structure Platform where
  /-- The value of `NR_CPUS` (`ESS_NR_CPUS`). -/
  NR_CPUS : Nat
  /-- The value of `PAGE_OFFSET`. -/
  PAGE_OFFSET : Nat
  /-- The value of `VMALLOC_START`. -/
  VMALLOC_START : Nat
  /-- The value of `SEC_LKMSG_MAGICKEY`. -/
  SEC_LKMSG_MAGICKEY : Nat
  /-- The value of `CONFIG_EXYNOS_SNAPSHOT_CALLSTACK`. -/
  CALLSTACK : Nat

/-- Readings of the running kernel that a call takes from its context. -/
structure Env where
  /-- The value of `raw_smp_processor_id()`. -/
  cpu : Nat
  /-- The value of `cpu_clock(cpu)` / `local_clock()`, a 64-bit nanosecond count. -/
  clock : Nat
  /-- The value of `num_online_cpus()`. -/
  num_online_cpus : Nat
  /-- The value of `preempt_count()`. -/
  preempt_count : Nat
  /-- The value of `jiffies_64`. -/
  jiffies_64 : Nat
  /-- The value of `get_current()`. -/
  current : Nat
  /-- The address of `task->comm` for a task pointer. -/
  comm : Nat → Nat
  /-- The value of `return_address(j)`. -/
  return_address : Nat → Nat

/-! ## The category registry -/

/-- The C `struct exynos_ss_base`, fields in declaration order. -/
structure exynos_ss_base where
  size : Nat
  vaddr : Nat
  paddr : Nat
  persist : Nat
  enabled : Nat
  enabled_init : Nat
  deriving DecidableEq, Repr

/-- The C `struct exynos_ss_item`; `head_ptr` and `curr_ptr` are addresses,
`0` is `NULL`. -/
structure exynos_ss_item where
  name : String
  entry : exynos_ss_base
  head_ptr : Nat
  curr_ptr : Nat
  time : Nat
  deriving DecidableEq, Repr

/-- The static initialiser of `ess_items[]` with every optional entry present
(not the minimized mode; logger hook, SFR dump, ETR and pstore configured). -/
def ess_items : List exynos_ss_item := [
  { name := "log_kevents", entry := ⟨SZ_8M, 0, 0, 0, 1, 1⟩, head_ptr := 0, curr_ptr := 0, time := 0 },
  { name := "log_kernel", entry := ⟨SZ_2M, 0, 0, 0, 1, 1⟩, head_ptr := 0, curr_ptr := 0, time := 0 },
  { name := "log_platform", entry := ⟨SZ_4M, 0, 0, 0, 1, 1⟩, head_ptr := 0, curr_ptr := 0, time := 0 },
  { name := "log_sfr", entry := ⟨SZ_4M, 0, 0, 0, 1, 1⟩, head_ptr := 0, curr_ptr := 0, time := 0 },
  { name := "log_etm", entry := ⟨SZ_8M, 0, 0, 1, 1, 1⟩, head_ptr := 0, curr_ptr := 0, time := 0 },
  { name := "log_pstore", entry := ⟨SZ_32K, 0, 0, 1, 1, 1⟩, head_ptr := 0, curr_ptr := 0, time := 0 }]

/-- The fields of `struct exynos_ss_desc` the modelled code uses. -/
structure exynos_ss_desc where
  kevents_num : Nat
  log_kernel_num : Nat
  log_platform_num : Nat
  log_sfr_num : Nat
  log_pstore_num : Nat
  log_etm_num : Nat
  need_header : Bool
  callstack : Nat
  hardlockup : Int
  no_wdt_dev : Int
  vm_phys_addr : Nat
  vm_addr : Nat
  vm_size : Nat
  deriving DecidableEq, Repr

/-! ## The event log `struct exynos_ss_log` and its counters

Each ring is a function from the slot index (and, for per-cpu rings, from the
cpu number first) to the slot.  Pointers are addresses, `0` is `NULL`. -/

structure task_log where
  time : Nat
  task : Nat
  task_comm : Nat
  deriving DecidableEq, Repr

structure work_log where
  time : Nat
  worker : Nat
  work : Nat
  fn : Nat
  en : Int
  deriving DecidableEq, Repr

structure cpuidle_log where
  time : Nat
  index : Int
  state : Nat
  num_online_cpus : Nat
  delta : Int
  en : Int
  deriving DecidableEq, Repr

structure suspend_log where
  time : Nat
  fn : Nat
  dev : Nat
  en : Int
  deriving DecidableEq, Repr

structure irq_log where
  time : Nat
  irq : Int
  fn : Nat
  preempt : Nat
  val : Nat
  en : Int
  deriving DecidableEq, Repr

structure irq_exit_log where
  time : Nat
  end_time : Nat
  latency : Nat
  irq : Int
  deriving DecidableEq, Repr

structure spinlock_log where
  time : Nat
  jiffies : Nat
  owner : Nat
  task_comm : Nat
  owner_cpu : Nat
  en : Int
  caller : Nat → Nat

structure irqs_disabled_log where
  time : Nat
  index : Nat
  task : Nat
  task_comm : Nat
  caller : Nat → Nat

structure clk_log where
  time : Nat
  clk : Nat
  f_name : Nat
  mode : Int
  deriving DecidableEq, Repr

structure freq_log where
  time : Nat
  cpu : Int
  freq_name : String
  old_freq : Nat
  target_freq : Nat
  en : Int
  deriving DecidableEq, Repr

structure hrtimer_log where
  time : Nat
  now : Nat
  timer : Nat
  fn : Nat
  en : Int
  deriving DecidableEq, Repr

structure mailbox_log where
  time : Nat
  buf : Nat → Nat
  mode : Int
  cpu : Int
  name : Nat
  atl_vol : Nat
  apo_vol : Nat
  g3d_vol : Nat
  mif_vol : Nat

structure clockevent_log where
  time : Nat
  clc : Nat
  delta : Int
  next_event : Int
  deriving DecidableEq, Repr

structure printkl_log where
  time : Nat
  cpu : Int
  msg : Nat
  val : Nat
  caller : Nat → Nat

structure printk_log where
  time : Nat
  cpu : Int
  log : Nat → Nat
  caller : Nat → Nat

structure i2c_clk_log where
  time : Nat
  bus_id : Int
  clk_enable : Int
  en : Int
  deriving DecidableEq, Repr

/-- The C `struct exynos_ss_log` with every optional ring configured. -/
structure exynos_ss_log where
  task : Nat → Nat → task_log
  work : Nat → Nat → work_log
  cpuidle : Nat → Nat → cpuidle_log
  suspend : Nat → Nat → suspend_log
  irq : Nat → Nat → irq_log
  irq_exit : Nat → Nat → irq_exit_log
  spinlock : Nat → Nat → spinlock_log
  irqs_disabled : Nat → Nat → irqs_disabled_log
  clk : Nat → clk_log
  freq : Nat → freq_log
  hrtimers : Nat → Nat → hrtimer_log
  mailbox : Nat → mailbox_log
  clockevent : Nat → Nat → clockevent_log
  printkl : Nat → printkl_log
  printk : Nat → printk_log
  i2c_clk : Nat → i2c_clk_log

/-- The all-zero content of `struct exynos_ss_log`. -/
def exynos_ss_log_zero : exynos_ss_log where
  task := fun _ _ => ⟨0, 0, 0⟩
  work := fun _ _ => ⟨0, 0, 0, 0, 0⟩
  cpuidle := fun _ _ => ⟨0, 0, 0, 0, 0, 0⟩
  suspend := fun _ _ => ⟨0, 0, 0, 0⟩
  irq := fun _ _ => ⟨0, 0, 0, 0, 0, 0⟩
  irq_exit := fun _ _ => ⟨0, 0, 0, 0⟩
  spinlock := fun _ _ => ⟨0, 0, 0, 0, 0, 0, fun _ => 0⟩
  irqs_disabled := fun _ _ => ⟨0, 0, 0, 0, fun _ => 0⟩
  clk := fun _ => ⟨0, 0, 0, 0⟩
  freq := fun _ => ⟨0, 0, "", 0, 0, 0⟩
  hrtimers := fun _ _ => ⟨0, 0, 0, 0, 0⟩
  mailbox := fun _ => ⟨0, fun _ => 0, 0, 0, 0, 0, 0, 0, 0⟩
  clockevent := fun _ _ => ⟨0, 0, 0, 0⟩
  printkl := fun _ => ⟨0, 0, 0, 0, fun _ => 0⟩
  printk := fun _ => ⟨0, 0, fun _ => 0, fun _ => 0⟩
  i2c_clk := fun _ => ⟨0, 0, 0, 0⟩

/-- The C `struct exynos_ss_log_idx`: the `atomic_t` counters, per cpu where
the ring is per cpu. -/
structure exynos_ss_log_idx where
  task_log_idx : Nat → Int
  work_log_idx : Nat → Int
  cpuidle_log_idx : Nat → Int
  suspend_log_idx : Nat → Int
  irq_log_idx : Nat → Int
  spinlock_log_idx : Nat → Int
  irqs_disabled_log_idx : Nat → Int
  irq_exit_log_idx : Nat → Int
  hrtimer_log_idx : Nat → Int
  clk_log_idx : Int
  freq_log_idx : Int
  mailbox_log_idx : Int
  clockevent_log_idx : Nat → Int
  printkl_log_idx : Int
  printk_log_idx : Int
  i2c_clk_log_idx : Int

/-- The global variables of the module.  `ess_log` is the structure the
pointer `ess_log_ptr` refers to; `mem` is the byte content of every other
address; `info_event` and `info_log` are the fields of `ess_info`. -/
structure State where
  ess_items : List exynos_ss_item
  ess_irqlog_exlist : List Int
  ess_irqexit_exlist : List Int
  ess_irqexit_threshold : Nat
  ess_base : exynos_ss_base
  ess_idx : exynos_ss_log_idx
  ess_log_ptr : Nat
  ess_log : exynos_ss_log
  ess_desc : exynos_ss_desc
  info_event : Nat
  info_log : Nat → exynos_ss_item
  ess_mmu_reg : Nat → Nat
  ess_core_reg : Nat → Nat
  mem : Nat → Nat
  debug_curr_ptr : Nat
  debug_buf : Nat → Nat
  debug_size : Nat
  sec_log_full : Bool

/-- The name table `ess_freq_name[]`. -/
def ess_freq_name : List String := ["APL", "ATL", "INT", "MIF", "ISP", "DISP"]

/-- The state of the module's variables as the C initialisers give it, before
any function has run. -/
def State.initial : State where
  ess_items := ExynosSS.ess_items
  ess_irqlog_exlist := [-1]
  ess_irqexit_exlist := [-1]
  ess_irqexit_threshold := 0
  ess_base := ⟨0, 0, 0, 0, 0, 0⟩
  ess_idx := ⟨fun _ => 0, fun _ => 0, fun _ => 0, fun _ => 0, fun _ => 0, fun _ => 0,
    fun _ => 0, fun _ => 0, fun _ => 0, 0, 0, 0, fun _ => 0, 0, 0, 0⟩
  ess_log_ptr := 0
  ess_log := exynos_ss_log_zero
  ess_desc := ⟨0, 0, 0, 0, 0, 0, false, 0, 0, 0, 0, 0, 0⟩
  info_event := 0
  info_log := fun _ => ⟨"", ⟨0, 0, 0, 0, 0, 0⟩, 0, 0, 0⟩
  ess_mmu_reg := fun _ => 0
  ess_core_reg := fun _ => 0
  mem := fun _ => 0
  debug_curr_ptr := 0
  debug_buf := fun _ => 0
  debug_size := 0
  sec_log_full := false

/-- Array element assignment `a[i] = v`. -/
def upd {α : Type} (a : Nat → α) (i : Nat) (v : α) : Nat → α :=
  fun j => if j = i then v else a j

/-- Array element assignment `a[c][i] = v`. -/
def upd2 {α : Type} (a : Nat → Nat → α) (c i : Nat) (v : α) : Nat → Nat → α :=
  fun c1 j => if c1 = c then (if j = i then v else a c1 j) else a c1 j

/-- The C `atomic_inc_return`: add one with 32-bit wrap-around. -/
def atomic_inc_return (v : Int) : Int := int32_wrap (v + 1)

/-- The C `atomic_dec`: subtract one with 32-bit wrap-around. -/
def atomic_dec (v : Int) : Int := int32_wrap (v - 1)

/-- The slot index `counter & (capacity - 1)`: the `int` counter is converted
to `unsigned long` before the bitwise and. -/
def ring_index (counter : Int) (capacity : Nat) : Nat :=
  to_u64 counter &&& (capacity - 1)

/-! ## Memory access -/

/-- The C `memcpy(dst, src, n)`; `src` gives the source bytes by offset. -/
def memcpy (mem : Nat → Nat) (dst : Nat) (src : Nat → Nat) (n : Nat) : Nat → Nat :=
  fun a => if dst ≤ a ∧ a < dst + n then src (a - dst) else mem a

/-- The C `memset(dst, c, n)`. -/
def memset (mem : Nat → Nat) (dst : Nat) (c : Nat) (n : Nat) : Nat → Nat :=
  fun a => if dst ≤ a ∧ a < dst + n then c else mem a

/-- Byte `k` of the little-endian representation of `v`. -/
def le_byte (v : Nat) (k : Nat) : Nat := (v / 256 ^ k) % 256

/-- The C `__raw_writel(val, addr)`: a 32-bit little-endian store. -/
def raw_writel (mem : Nat → Nat) (val : Nat) (addr : Nat) : Nat → Nat :=
  memcpy mem addr (le_byte (val % 2 ^ 32)) 4

/-- The C `__raw_readl(addr)`: a 32-bit little-endian load. -/
def raw_readl (mem : Nat → Nat) (addr : Nat) : Nat :=
  mem addr % 256 + 256 * (mem (addr + 1) % 256) + 65536 * (mem (addr + 2) % 256)
    + 16777216 * (mem (addr + 3) % 256)

/-- A 64-bit little-endian store, `*(unsigned long long *)addr = val`. -/
def write_u64 (mem : Nat → Nat) (val : Nat) (addr : Nat) : Nat → Nat :=
  memcpy mem addr (le_byte (val % 2 ^ 64)) 8

/-! ## Registry lookups and the enable flags -/

/-- The search loop every registry function runs,
`for (i = start; i < ARRAY_SIZE(ess_items); i++)
   if (!strncmp(ess_items[i].name, name, strlen(name))) ... break;`
as the first index from `i` on whose entry the comparison accepts, with that
entry.  The list is the part of the table from index `i` on. -/
def find_item_loop (name : String) : List exynos_ss_item → Nat → Option (Nat × exynos_ss_item)
  | [], _ => none
  | it :: rest, i =>
    if strncmp it.name name (strlen name) = 0 then some (i, it)
    else find_item_loop name rest (i + 1)

/-- The search loop over `ess_items` starting at index `start`. -/
def find_item (items : List exynos_ss_item) (name : String) (start : Nat) :
    Option (Nat × exynos_ss_item) :=
  find_item_loop name (items.drop start) start

/-- The C `exynos_ss_get_base_vaddr`. -/
def exynos_ss_get_base_vaddr (s : State) : Nat := s.ess_base.vaddr

/-- The C `exynos_ss_get_base_paddr`. -/
def exynos_ss_get_base_paddr (s : State) : Nat := s.ess_base.paddr

/-- The C `exynos_ss_get_item_size`; the result is an `unsigned int`. -/
def exynos_ss_get_item_size (s : State) (name : String) : Nat :=
  match find_item s.ess_items name 0 with
  | some (_, item) => item.entry.size % 2 ^ 32
  | none => 0

/-- The C `exynos_ss_get_item_paddr`; the result is an `unsigned int`. -/
def exynos_ss_get_item_paddr (s : State) (name : String) : Nat :=
  match find_item s.ess_items name 0 with
  | some (_, item) => item.entry.paddr % 2 ^ 32
  | none => 0

/-- The C `exynos_ss_set_enable`: the new state and the returned `int`.
`env.clock` is the value of `local_clock()`. -/
def exynos_ss_set_enable (env : Env) (s : State) (name : String) (en : Int) : State × Int :=
  if strncmp name "base" (strlen name) = 0 then
    ({ s with ess_base := { s.ess_base with enabled := to_u32 en } }, 0)
  else
    match find_item s.ess_items name 0 with
    | some (i, item) =>
      let item1 : exynos_ss_item :=
        { item with entry := { item.entry with enabled := to_u32 en }, time := env.clock }
      ({ s with ess_items := s.ess_items.set i item1 }, 0)
    | none => (s, 0)

/-- The C `exynos_ss_get_enable`. -/
def exynos_ss_get_enable (s : State) (name : String) (init : Bool) : Int :=
  if strncmp name "base" (strlen name) = 0 then int32_wrap s.ess_base.enabled
  else
    match find_item s.ess_items name 0 with
    | some (_, item) =>
      if init then int32_wrap item.entry.enabled_init else int32_wrap item.entry.enabled
    | none => -1

/-- The C `exynos_ss_try_enable`: the new state and the returned `int`.
`env.clock` is the value of `local_clock()`; the elapsed time is an
`unsigned long long` difference. -/
def exynos_ss_try_enable (env : Env) (s : State) (name : String) (duration : Nat) :
    State × Int :=
  if s.ess_base.enabled = 0 ∨ exynos_ss_get_enable s "log_kevents" true = 0 then (s, -1)
  else
    match find_item s.ess_items name 0 with
    | some (i, item) =>
      if item.entry.enabled = 0 then
        if u64_sub env.clock item.time > duration then
          let item1 : exynos_ss_item := { item with entry := { item.entry with enabled := 1 } }
          ({ s with ess_items := s.ess_items.set i item1 }, 1)
        else (s, 0)
      else (s, -1)
    | none => (s, -1)

/-! ## Byte-stream appends -/

/-- The C `exynos_ss_check_eob`: `-1` when the record would pass the end of the
buffer, else `0`. -/
def exynos_ss_check_eob (item : exynos_ss_item) (size : Nat) : Int :=
  if u64_add item.curr_ptr size > u64_add item.head_ptr item.entry.size then -1 else 0

/-- The C `exynos_ss_hook_logger`; `buf` gives the bytes of the record by offset. -/
def exynos_ss_hook_logger (s : State) (name : String) (buf : Nat → Nat) (size : Nat) : State :=
  match find_item s.ess_items name s.ess_desc.log_platform_num with
  | none => s
  | some (i, item) =>
    if s.ess_base.enabled = 1 ∧ item.entry.enabled = 1 then
      let curr := if exynos_ss_check_eob item size ≠ 0 then item.head_ptr else item.curr_ptr
      { s with
        debug_curr_ptr := curr,
        debug_buf := buf,
        debug_size := size,
        mem := memcpy s.mem curr buf size,
        ess_items := s.ess_items.set i ({ item with curr_ptr := u64_add curr size }) }
    else s

/-- The C `exynos_ss_hook_logbuf(const char *buf, size_t size)` (kernels after
3.5, with CONFIG_SEC_PM_DEBUG). -/
def exynos_ss_hook_logbuf (cfg : Platform) (s : State) (buf : Nat → Nat) (size : Nat) : State :=
  match s.ess_items[s.ess_desc.log_kernel_num]? with
  | none => s
  | some item =>
    if s.ess_base.enabled = 1 ∧ item.entry.enabled = 1 then
      let eob := exynos_ss_check_eob item size ≠ 0
      let curr := if eob then item.head_ptr else item.curr_ptr
      let mem1 := if eob then
          write_u64 s.mem cfg.SEC_LKMSG_MAGICKEY
            (u64_sub (u64_add item.head_ptr item.entry.size) 0x08)
        else s.mem
      let mem2 := memcpy mem1 curr buf size
      let last_buf := u64_add curr size
      { s with
        sec_log_full := if eob then true else s.sec_log_full,
        mem := raw_writel mem2 (u64_add item.entry.paddr (u64_sub last_buf item.entry.vaddr))
          (exynos_ss_get_base_vaddr s + ESS_OFFSET_LAST_LOGBUF),
        ess_items := s.ess_items.set s.ess_desc.log_kernel_num ({ item with curr_ptr := last_buf }) }
    else s

/-! ## The event recording functions -/

/-- The entry `ess_items[ess_desc.kevents_num]` the recording functions test;
an index outside the table reads as an all-zero entry. -/
def kevents_item (s : State) : exynos_ss_item :=
  s.ess_items.getD s.ess_desc.kevents_num ⟨"", ⟨0, 0, 0, 0, 0, 0⟩, 0, 0, 0⟩

/-- The test every recording function starts with,
`!ess_base.enabled || !item->entry.enabled || !item->entry.enabled_init`. -/
def kevents_off (s : State) : Prop :=
  s.ess_base.enabled = 0 ∨ (kevents_item s).entry.enabled = 0 ∨
    (kevents_item s).entry.enabled_init = 0

instance (s : State) : Decidable (kevents_off s) := by
  unfold kevents_off; infer_instance

/-- The loop `for (j = 0; j < ess_desc.callstack; j++) caller[j] = f(j)`. -/
def fill_callers (depth : Nat) (f : Nat → Nat) (caller : Nat → Nat) : Nat → Nat :=
  fun j => if j < depth then f j else caller j

/-- The C `exynos_ss_task`. -/
def exynos_ss_task (env : Env) (s : State) (cpu : Nat) (v_task : Nat) : State :=
  if kevents_off s then s
  else
    let c := atomic_inc_return (s.ess_idx.task_log_idx cpu)
    let i := ring_index c ESS_LOG_MAX_NUM
    let slot : task_log := ⟨env.clock, v_task, env.comm v_task⟩
    { s with
      ess_idx := { s.ess_idx with task_log_idx := upd s.ess_idx.task_log_idx cpu c },
      ess_log := { s.ess_log with task := upd2 s.ess_log.task cpu i slot } }

/-- The C `exynos_ss_work`. -/
def exynos_ss_work (env : Env) (s : State) (worker work fn : Nat) (en : Int) : State :=
  if kevents_off s then s
  else
    let cpu := env.cpu
    let c := atomic_inc_return (s.ess_idx.work_log_idx cpu)
    let i := ring_index c ESS_LOG_MAX_NUM
    let slot : work_log := ⟨env.clock, worker, work, fn, en⟩
    { s with
      ess_idx := { s.ess_idx with work_log_idx := upd s.ess_idx.work_log_idx cpu c },
      ess_log := { s.ess_log with work := upd2 s.ess_log.work cpu i slot } }

/-- The C `exynos_ss_cpuidle`. -/
def exynos_ss_cpuidle (env : Env) (s : State) (index : Int) (state : Nat) (diff : Int)
    (en : Int) : State :=
  if kevents_off s then s
  else
    let cpu := env.cpu
    let c := atomic_inc_return (s.ess_idx.cpuidle_log_idx cpu)
    let i := ring_index c ESS_LOG_MAX_NUM
    let slot : cpuidle_log := ⟨env.clock, index, state, env.num_online_cpus, diff, en⟩
    { s with
      ess_idx := { s.ess_idx with cpuidle_log_idx := upd s.ess_idx.cpuidle_log_idx cpu c },
      ess_log := { s.ess_log with cpuidle := upd2 s.ess_log.cpuidle cpu i slot } }

/-- The C `exynos_ss_suspend`. -/
def exynos_ss_suspend (env : Env) (s : State) (fn dev : Nat) (en : Int) : State :=
  if kevents_off s then s
  else
    let cpu := env.cpu
    let c := atomic_inc_return (s.ess_idx.suspend_log_idx cpu)
    let i := ring_index c ESS_LOG_MAX_NUM
    let slot : suspend_log := ⟨env.clock, fn, dev, en⟩
    { s with
      ess_idx := { s.ess_idx with suspend_log_idx := upd s.ess_idx.suspend_log_idx cpu c },
      ess_log := { s.ess_log with suspend := upd2 s.ess_log.suspend cpu i slot } }

/-- The C `exynos_ss_mailbox`; `msg_data` and `volt_data` are the `u32` arrays
the two pointer arguments refer to. -/
def exynos_ss_mailbox (env : Env) (s : State) (msg_data : Nat → Nat) (mode : Int)
    (f_name : Nat) (volt_data : Nat → Nat) : State :=
  if kevents_off s then s
  else
    let cpu := env.cpu
    let c := atomic_inc_return s.ess_idx.mailbox_log_idx
    let i := ring_index c ESS_LOG_MAX_NUM
    let old := s.ess_log.mailbox i
    let slot : mailbox_log :=
      { time := env.clock, mode := mode, cpu := cpu, name := f_name,
        atl_vol := volt_data 0, apo_vol := volt_data 1, g3d_vol := volt_data 2,
        mif_vol := volt_data 3, buf := fill_callers 4 msg_data old.buf }
    { s with
      ess_idx := { s.ess_idx with mailbox_log_idx := c },
      ess_log := { s.ess_log with mailbox := upd s.ess_log.mailbox i slot } }

/-- The C `exynos_ss_irq`. -/
def exynos_ss_irq (env : Env) (s : State) (irq : Int) (fn : Nat) (val : Nat) (en : Int) :
    State :=
  if kevents_off s then s
  else
    let cpu := env.cpu
    if s.ess_irqlog_exlist.any (fun x => decide (irq = x)) then s
    else
      let c := atomic_inc_return (s.ess_idx.irq_log_idx cpu)
      let i := ring_index c (ESS_LOG_MAX_NUM * 2)
      let slot : irq_log := ⟨env.clock, irq, fn, env.preempt_count, val, en⟩
      { s with
        ess_idx := { s.ess_idx with irq_log_idx := upd s.ess_idx.irq_log_idx cpu c },
        ess_log := { s.ess_log with irq := upd2 s.ess_log.irq cpu i slot } }

/-- The C `exynos_ss_irq_exit`.  `irq` is an `unsigned int`, so the `int`
entries of the exclusion list are converted to unsigned for the comparison, and
the product `ess_irqexit_threshold * 1000` is an `unsigned int` product. -/
def exynos_ss_irq_exit (env : Env) (s : State) (irq : Nat) (start_time : Nat) : State :=
  if kevents_off s then s
  else if s.ess_irqexit_exlist.any (fun x => decide (irq = 0 ∨ irq = to_u32 x)) then s
  else
    let cpu := env.cpu
    let c := atomic_inc_return (s.ess_idx.irq_exit_log_idx cpu)
    let i := ring_index c ESS_LOG_MAX_NUM
    let time := env.clock
    let latency := u64_sub time start_time
    let old := s.ess_log.irq_exit cpu i
    if latency > (s.ess_irqexit_threshold * 1000) % 2 ^ 32 then
      let slot : irq_exit_log :=
        { old with latency := latency, end_time := time, time := start_time,
                   irq := int32_wrap irq }
      { s with
        ess_idx := { s.ess_idx with irq_exit_log_idx := upd s.ess_idx.irq_exit_log_idx cpu c },
        ess_log := { s.ess_log with irq_exit := upd2 s.ess_log.irq_exit cpu i slot } }
    else
      let idx1 := upd s.ess_idx.irq_exit_log_idx cpu (atomic_dec c)
      { s with ess_idx := { s.ess_idx with irq_exit_log_idx := idx1 } }

/-- The C `exynos_ss_spinlock` (with CONFIG_ARM_ARCH_TIMER); `owner` and
`owner_cpu` are the fields read from the lock. -/
def exynos_ss_spinlock (env : Env) (s : State) (owner owner_cpu : Nat) (en : Int) : State :=
  if kevents_off s then s
  else
    let cpu := env.cpu
    let c := atomic_inc_return (s.ess_idx.spinlock_log_idx cpu)
    let index := to_u32 c
    let i := index &&& (ESS_LOG_MAX_NUM - 1)
    let old := s.ess_log.spinlock cpu i
    let slot : spinlock_log :=
      { time := env.clock, jiffies := env.jiffies_64, owner := owner,
        task_comm := env.comm owner, owner_cpu := owner_cpu, en := en,
        caller := fill_callers s.ess_desc.callstack
          (fun j => env.return_address (j + 1)) old.caller }
    { s with
      ess_idx := { s.ess_idx with spinlock_log_idx := upd s.ess_idx.spinlock_log_idx cpu c },
      ess_log := { s.ess_log with spinlock := upd2 s.ess_log.spinlock cpu i slot } }

/-- The C `exynos_ss_irqs_disabled`. -/
def exynos_ss_irqs_disabled (env : Env) (s : State) (flags : Nat) : State :=
  let cpu := env.cpu
  if kevents_off s then s
  else if flags ≠ 0 then
    let old := s.ess_log.irqs_disabled cpu 0
    let slot : irqs_disabled_log :=
      { time := 0, index := 0, task := 0, task_comm := 0,
        caller := fill_callers s.ess_desc.callstack (fun _ => 0) old.caller }
    let idx1 := upd s.ess_idx.irqs_disabled_log_idx cpu (-1)
    { s with
      ess_idx := { s.ess_idx with irqs_disabled_log_idx := idx1 },
      ess_log := { s.ess_log with irqs_disabled := upd2 s.ess_log.irqs_disabled cpu 0 slot } }
  else
    let c := atomic_inc_return (s.ess_idx.irqs_disabled_log_idx cpu)
    let index := to_u32 c
    let i := index % SZ_32
    let old0 := s.ess_log.irqs_disabled cpu 0
    let ring1 := upd2 s.ess_log.irqs_disabled cpu 0 ({ old0 with time := env.jiffies_64 })
    let old := ring1 cpu i
    let slot : irqs_disabled_log :=
      { old with index := index, task := env.current, task_comm := env.comm env.current,
                 caller := fill_callers s.ess_desc.callstack
                   (fun j => env.return_address (j + 1)) old.caller }
    let idx1 := upd s.ess_idx.irqs_disabled_log_idx cpu c
    { s with
      ess_idx := { s.ess_idx with irqs_disabled_log_idx := idx1 },
      ess_log := { s.ess_log with irqs_disabled := upd2 ring1 cpu i slot } }

/-- The C `exynos_ss_clk`. -/
def exynos_ss_clk (env : Env) (s : State) (clock : Nat) (func_name : Nat) (mode : Int) : State :=
  if kevents_off s then s
  else
    let c := atomic_inc_return s.ess_idx.clk_log_idx
    let i := ring_index c ESS_LOG_MAX_NUM
    let slot : clk_log := { time := env.clock, mode := mode, clk := clock, f_name := func_name }
    { s with
      ess_idx := { s.ess_idx with clk_log_idx := c },
      ess_log := { s.ess_log with clk := upd s.ess_log.clk i slot } }

/-- The C `exynos_ss_freq`; `type` indexes `ess_freq_name`. -/
def exynos_ss_freq (env : Env) (s : State) (type : Nat) (old_freq target_freq : Nat)
    (en : Int) : State :=
  if kevents_off s then s
  else
    let cpu := env.cpu
    let c := atomic_inc_return s.ess_idx.freq_log_idx
    let i := ring_index c ESS_LOG_MAX_NUM
    let slot : freq_log :=
      { time := env.clock, cpu := cpu, freq_name := ess_freq_name.getD type "",
        old_freq := old_freq, target_freq := target_freq, en := en }
    { s with
      ess_idx := { s.ess_idx with freq_log_idx := c },
      ess_log := { s.ess_log with freq := upd s.ess_log.freq i slot } }

/-- The C `exynos_ss_i2c_clk`; `enable_count` is the field read from `clk`. -/
def exynos_ss_i2c_clk (env : Env) (s : State) (enable_count : Int) (bus_id : Int) (en : Int) :
    State :=
  if bus_id ≠ 0 then s
  else if kevents_off s then s
  else
    let c := atomic_inc_return s.ess_idx.i2c_clk_log_idx
    let i := ring_index c ESS_LOG_MAX_NUM
    let slot : i2c_clk_log :=
      { time := env.clock, bus_id := bus_id, clk_enable := enable_count, en := en }
    { s with
      ess_idx := { s.ess_idx with i2c_clk_log_idx := c },
      ess_log := { s.ess_log with i2c_clk := upd s.ess_log.i2c_clk i slot } }

/-- The C `exynos_ss_hrtimer`; `now` is the value the pointer argument refers to. -/
def exynos_ss_hrtimer (env : Env) (s : State) (timer : Nat) (now : Nat) (fn : Nat) (en : Int) :
    State :=
  if kevents_off s then s
  else
    let cpu := env.cpu
    let c := atomic_inc_return (s.ess_idx.hrtimer_log_idx cpu)
    let i := ring_index c ESS_LOG_MAX_NUM
    let slot : hrtimer_log :=
      { time := env.clock, now := now, timer := timer, fn := fn, en := en }
    { s with
      ess_idx := { s.ess_idx with hrtimer_log_idx := upd s.ess_idx.hrtimer_log_idx cpu c },
      ess_log := { s.ess_log with hrtimers := upd2 s.ess_log.hrtimers cpu i slot } }

/-- The C `exynos_ss_clockevent`; `next_event` is the `ktime_t` value the
pointer argument refers to.  The slot index is an `unsigned`. -/
def exynos_ss_clockevent (env : Env) (s : State) (clc : Nat) (delta : Int) (next_event : Int) :
    State :=
  if kevents_off s then s
  else
    let cpu := env.cpu
    let c := atomic_inc_return (s.ess_idx.clockevent_log_idx cpu)
    let i := ring_index c ESS_LOG_MAX_NUM % 2 ^ 32
    let slot : clockevent_log :=
      { time := env.clock, clc := clc, delta := delta, next_event := next_event }
    { s with
      ess_idx := { s.ess_idx with clockevent_log_idx := upd s.ess_idx.clockevent_log_idx cpu c },
      ess_log := { s.ess_log with clockevent := upd2 s.ess_log.clockevent cpu i slot } }

/-- The bytes `vsnprintf` leaves in a buffer of `size` bytes for the formatted
text `text`: as much of the text as fits, then a NUL; later bytes stay. -/
def vsnprintf (old : Nat → Nat) (size : Nat) (text : List Nat) : Nat → Nat :=
  fun k =>
    if size = 0 then old k
    else if k < min text.length (size - 1) then text.getD k 0
    else if k = min text.length (size - 1) then 0
    else old k

/-- The C `exynos_ss_printk`; `text` is the text the format and its arguments
expand to. -/
def exynos_ss_printk (env : Env) (s : State) (text : List Nat) : State :=
  if kevents_off s then s
  else
    let cpu := env.cpu
    let c := atomic_inc_return s.ess_idx.printk_log_idx
    let i := ring_index c ESS_API_MAX_NUM
    let old := s.ess_log.printk i
    let slot : printk_log :=
      { log := vsnprintf old.log ESS_LOG_STRING_LENGTH text, time := env.clock, cpu := cpu,
        caller := fill_callers s.ess_desc.callstack env.return_address old.caller }
    { s with
      ess_idx := { s.ess_idx with printk_log_idx := c },
      ess_log := { s.ess_log with printk := upd s.ess_log.printk i slot } }

/-- The C `exynos_ss_printkl`. -/
def exynos_ss_printkl (env : Env) (s : State) (msg val : Nat) : State :=
  if kevents_off s then s
  else
    let cpu := env.cpu
    let c := atomic_inc_return s.ess_idx.printkl_log_idx
    let i := ring_index c ESS_API_MAX_NUM
    let old := s.ess_log.printkl i
    let slot : printkl_log :=
      { time := env.clock, cpu := cpu, msg := msg, val := val,
        caller := fill_callers s.ess_desc.callstack env.return_address old.caller }
    { s with
      ess_idx := { s.ess_idx with printkl_log_idx := c },
      ess_log := { s.ess_log with printkl := upd s.ess_log.printkl i slot } }

/-- One call of an event recording function with its arguments.
`exynos_ss_thermal` has no case: it uses a counter `ess_idx.thermal_log_idx`
that `struct exynos_ss_log_idx` does not declare, so no configuration that
compiles contains it. -/
inductive RecordCall where
  | task (cpu v_task : Nat)
  | work (worker work fn : Nat) (en : Int)
  | cpuidle (index : Int) (state : Nat) (diff en : Int)
  | suspend (fn dev : Nat) (en : Int)
  | mailbox (msg_data : Nat → Nat) (mode : Int) (f_name : Nat) (volt_data : Nat → Nat)
  | irq (irq : Int) (fn val : Nat) (en : Int)
  | irq_exit (irq start_time : Nat)
  | spinlock (owner owner_cpu : Nat) (en : Int)
  | irqs_disabled (flags : Nat)
  | clk (clock func_name : Nat) (mode : Int)
  | freq (type old_freq target_freq : Nat) (en : Int)
  | i2c_clk (enable_count bus_id en : Int)
  | hrtimer (timer now fn : Nat) (en : Int)
  | clockevent (clc : Nat) (delta next_event : Int)
  | printk (text : List Nat)
  | printkl (msg val : Nat)

/-- The effect of one recording call. -/
def record (env : Env) (s : State) : RecordCall → State
  | .task cpu v_task => exynos_ss_task env s cpu v_task
  | .work worker work fn en => exynos_ss_work env s worker work fn en
  | .cpuidle index state diff en => exynos_ss_cpuidle env s index state diff en
  | .suspend fn dev en => exynos_ss_suspend env s fn dev en
  | .mailbox msg_data mode f_name volt_data => exynos_ss_mailbox env s msg_data mode f_name volt_data
  | .irq irq fn val en => exynos_ss_irq env s irq fn val en
  | .irq_exit irq start_time => exynos_ss_irq_exit env s irq start_time
  | .spinlock owner owner_cpu en => exynos_ss_spinlock env s owner owner_cpu en
  | .irqs_disabled flags => exynos_ss_irqs_disabled env s flags
  | .clk clock func_name mode => exynos_ss_clk env s clock func_name mode
  | .freq type old_freq target_freq en => exynos_ss_freq env s type old_freq target_freq en
  | .i2c_clk enable_count bus_id en => exynos_ss_i2c_clk env s enable_count bus_id en
  | .hrtimer timer now fn en => exynos_ss_hrtimer env s timer now fn en
  | .clockevent clc delta next_event => exynos_ss_clockevent env s clc delta next_event
  | .printk text => exynos_ss_printk env s text
  | .printkl msg val => exynos_ss_printkl env s msg val

/-- A run of recording calls, each with the readings of its own context. -/
def record_all (s : State) (calls : List (Env × RecordCall)) : State :=
  calls.foldl (fun st c => record c.1 st c.2) s

/-! ## Header initialisation -/

/-- The bytes of a `struct exynos_ss_base` object in memory (little-endian
LP64): three 8-byte `size_t` fields, three 4-byte `unsigned int` fields and
four bytes of padding, which are zero in the static object `ess_base`. -/
def exynos_ss_base_bytes (b : exynos_ss_base) : Nat → Nat :=
  fun k =>
    if k < 8 then le_byte (b.size % 2 ^ 64) k
    else if k < 16 then le_byte (b.vaddr % 2 ^ 64) (k - 8)
    else if k < 24 then le_byte (b.paddr % 2 ^ 64) (k - 16)
    else if k < 28 then le_byte (b.persist % 2 ^ 32) (k - 24)
    else if k < 32 then le_byte (b.enabled % 2 ^ 32) (k - 28)
    else if k < 36 then le_byte (b.enabled_init % 2 ^ 32) (k - 32)
    else 0

/-- The value of `sizeof(struct exynos_ss_base)`. -/
def sizeof_exynos_ss_base : Nat := 40

/-- The counters after the `atomic_set(..., -1)` statements of
`exynos_ss_fixmap_header`: the per-cpu ones for every `i < NR_CPUS`; the
statement for `i2c_clk_log_idx` stands inside the loop over the cpus. -/
def reset_log_idx (nr_cpus : Nat) (idx : exynos_ss_log_idx) : exynos_ss_log_idx :=
  let percpu := fun (f : Nat → Int) (i : Nat) => if i < nr_cpus then (-1 : Int) else f i
  { printk_log_idx := -1
    printkl_log_idx := -1
    mailbox_log_idx := -1
    freq_log_idx := -1
    clk_log_idx := -1
    task_log_idx := percpu idx.task_log_idx
    work_log_idx := percpu idx.work_log_idx
    clockevent_log_idx := percpu idx.clockevent_log_idx
    cpuidle_log_idx := percpu idx.cpuidle_log_idx
    suspend_log_idx := percpu idx.suspend_log_idx
    irq_log_idx := percpu idx.irq_log_idx
    spinlock_log_idx := percpu idx.spinlock_log_idx
    irqs_disabled_log_idx := percpu idx.irqs_disabled_log_idx
    irq_exit_log_idx := percpu idx.irq_exit_log_idx
    hrtimer_log_idx := percpu idx.hrtimer_log_idx
    i2c_clk_log_idx := if 0 < nr_cpus then -1 else idx.i2c_clk_log_idx }

/-- The C `exynos_ss_fixmap_header`.  The final `memset` clears the bytes from
`vaddr + ESS_KEEP_HEADER_SZ` to the end of the log_kevents area; the structure
`ess_log` points at (`vaddr + ESS_HEADER_TOTAL_SZ`) lies in that range, so its
content becomes all zero as well. -/
def exynos_ss_fixmap_header (cfg : Platform) (s : State) : State :=
  let vaddr := (kevents_item s).entry.vaddr
  let paddr := (kevents_item s).entry.paddr
  let size := (kevents_item s).entry.size
  let s1 : State :=
    { s with
      mem := memcpy s.mem vaddr (exynos_ss_base_bytes s.ess_base) sizeof_exynos_ss_base,
      ess_mmu_reg := fun i =>
        if i < cfg.NR_CPUS then u64_add vaddr (ESS_HEADER_SZ + i * ESS_MMU_REG_OFFSET)
        else s.ess_mmu_reg i,
      ess_core_reg := fun i =>
        if i < cfg.NR_CPUS then
          u64_add vaddr (ESS_HEADER_SZ + ESS_MMU_REG_SZ + i * ESS_CORE_REG_OFFSET)
        else s.ess_core_reg i }
  if exynos_ss_get_enable s1 "log_kevents" true = 0 then s1
  else
    { s1 with
      ess_log_ptr := u64_add vaddr ESS_HEADER_TOTAL_SZ,
      info_event := cfg.PAGE_OFFSET ||| (0x0FFFFFFF &&& u64_add paddr ESS_HEADER_TOTAL_SZ),
      ess_idx := reset_log_idx cfg.NR_CPUS s1.ess_idx,
      mem := memset s1.mem (u64_add vaddr ESS_KEEP_HEADER_SZ) 0 (u64_sub size ESS_KEEP_HEADER_SZ),
      ess_log := exynos_ss_log_zero }

/-- A run of `exynos_ss_task` calls on one cpu, each with the readings of its
own context and its task pointer. -/
def task_run (s : State) (cpu : Nat) (calls : List (Env × Nat)) : State :=
  calls.foldl (fun st c => exynos_ss_task c.1 st cpu c.2) s

/-! ## Boot-time layout -/

/-- The loop of `exynos_ss_init_desc` over `ess_items`, from index `i` on: each
entry's name is compared, over its own length, with the six known names in
turn, and the first that matches records the index. -/
def init_desc_loop : List exynos_ss_item → Nat → exynos_ss_desc → exynos_ss_desc
  | [], _, d => d
  | it :: rest, i, d =>
    let len := strlen it.name
    let d1 : exynos_ss_desc :=
      if strncmp it.name "log_kevents" len = 0 then { d with kevents_num := i }
      else if strncmp it.name "log_kernel" len = 0 then { d with log_kernel_num := i }
      else if strncmp it.name "log_platform" len = 0 then { d with log_platform_num := i }
      else if strncmp it.name "log_sfr" len = 0 then { d with log_sfr_num := i }
      else if strncmp it.name "log_pstore" len = 0 then { d with log_pstore_num := i }
      else if strncmp it.name "log_etm" len = 0 then { d with log_etm_num := i }
      else d
    init_desc_loop rest (i + 1) d1

/-- The C `exynos_ss_init_desc` (with CONFIG_S3C2410_WATCHDOG). -/
def exynos_ss_init_desc (cfg : Platform) (s : State) : State :=
  let d0 : exynos_ss_desc :=
    { kevents_num := 0, log_kernel_num := 0, log_platform_num := 0, log_sfr_num := 0,
      log_pstore_num := 0, log_etm_num := 0, need_header := false, callstack := cfg.CALLSTACK,
      hardlockup := 0, no_wdt_dev := 0, vm_phys_addr := 0, vm_addr := 0, vm_size := 0 }
  let d1 := init_desc_loop s.ess_items 0 d0
  let kev := s.ess_items.getD d1.kevents_num ⟨"", ⟨0, 0, 0, 0, 0, 0⟩, 0, 0, 0⟩
  let d2 : exynos_ss_desc :=
    if kev.entry.enabled_init = 0 then { d1 with need_header := true } else d1
  { s with ess_desc := d2 }

/-- The address assignment loop of `exynos_ss_remap`, from index `i` on, with
the running `pre_vaddr`, `pre_paddr` and `enabled_count`. -/
def remap_loop (kevents_num : Nat) (need_header : Bool) :
    List exynos_ss_item → Nat → Nat → Nat → Nat → List exynos_ss_item × Nat
  | [], _, _, _, count => ([], count)
  | it :: rest, i, pre_vaddr, pre_paddr, count =>
    if i = kevents_num ∨ it.entry.enabled_init ≠ 0 then
      let item_size :=
        if i = kevents_num ∧ need_header = true then ESS_HEADER_ALLOC_SZ else it.entry.size
      let it1 : exynos_ss_item :=
        { it with entry := { it.entry with vaddr := pre_vaddr, paddr := pre_paddr },
                  head_ptr := pre_vaddr, curr_ptr := pre_vaddr }
      let r := remap_loop kevents_num need_header rest (i + 1)
        (u64_add pre_vaddr item_size) (u64_add pre_paddr item_size) ((count + 1) % 2 ^ 32)
      (it1 :: r.1, r.2)
    else
      let r := remap_loop kevents_num need_header rest (i + 1) pre_vaddr pre_paddr count
      (it :: r.1, r.2)

/-- The C `exynos_ss_remap`: the new state and the returned `size_t`.
`map_ret` is the value `map_vm_area` returns; `-ENOMEM` is `-12`. -/
def exynos_ss_remap (map_ret : Int) (s : State) : State × Nat :=
  if map_ret ≠ 0 then (s, to_u64 (-12))
  else
    let r := remap_loop s.ess_desc.kevents_num s.ess_desc.need_header s.ess_items 0
      s.ess_base.vaddr s.ess_base.paddr 0
    ({ s with ess_items := r.1 }, if r.2 ≠ 0 then exynos_ss_get_base_vaddr s else 0)

/-- The size loop of `exynos_ss_setup`: `size += entry.size` for every entry
enabled at init, in `size_t` arithmetic. -/
def setup_size_loop : List exynos_ss_item → Nat → Nat
  | [], size => size
  | it :: rest, size =>
    setup_size_loop rest (if it.entry.enabled_init ≠ 0 then u64_add size it.entry.size else size)

/-- The value of `ESS_FIXED_VIRT_BASE`, `VMALLOC_START + 0xF6000000`. -/
def ESS_FIXED_VIRT_BASE (cfg : Platform) : Nat := u64_add cfg.VMALLOC_START 0xF6000000

/-- The C `exynos_ss_setup` (with CONFIG_SEC_DEBUG and CONFIG_NO_BOOTMEM): the
new state and the returned `int`.  `sec_debug_fail` is the truth value of
`sec_debug_setup()`, `parsed` the number `kstrtoul` reads from the argument
(`none` when it fails) and `reserve base size` tells whether
`!memblock_is_region_reserved(base, size) && !memblock_reserve(base, size)`
holds. -/
def exynos_ss_setup (cfg : Platform) (sec_debug_fail : Bool) (parsed : Option Nat)
    (reserve : Nat → Nat → Bool) (s : State) : State × Int :=
  if sec_debug_fail then (s, -1)
  else
    match parsed with
    | none => (s, -1)
    | some base =>
      let s1 := exynos_ss_init_desc cfg s
      let size0 := setup_size_loop s1.ess_items 0
      let size := if s1.ess_desc.need_header then u64_add size0 ESS_HEADER_ALLOC_SZ else size0
      if reserve base size then
        let b1 : exynos_ss_base :=
          { s1.ess_base with paddr := base, vaddr := ESS_FIXED_VIRT_BASE cfg, size := size,
                             enabled := 0 }
        let d1 : exynos_ss_desc :=
          { s1.ess_desc with vm_phys_addr := base, vm_addr := ESS_FIXED_VIRT_BASE cfg,
                             vm_size := size }
        ({ s1 with ess_base := b1, ess_desc := d1 }, 0)
      else (s1, -1)

/-- The body of the loop of `exynos_ss_fixmap` for an entry that is enabled at
init: the entry and the memory afterwards.  The persisted last-write pointer
is read with `__raw_readl` from `base_vaddr + ESS_OFFSET_LAST_LOGBUF`. -/
def fixmap_item (base_vaddr : Nat) (mem : Nat → Nat) (it : exynos_ss_item) :
    exynos_ss_item × (Nat → Nat) :=
  let paddr := it.entry.paddr
  let vaddr := it.entry.vaddr
  let size := it.entry.size
  if strncmp it.name "log_kernel" (strlen it.name) = 0 then
    let last_buf := raw_readl mem (base_vaddr + ESS_OFFSET_LAST_LOGBUF)
    if last_buf ≥ paddr ∧ last_buf ≤ u64_add paddr size then
      ({ it with curr_ptr := u64_add vaddr (u64_sub last_buf paddr) }, mem)
    else
      ({ it with curr_ptr := vaddr }, memset mem vaddr 0 size)
  else if it.entry.persist = 0 then (it, memset mem vaddr 0 size)
  else (it, mem)

/-- The entries, the memory and `ess_info.info_log` while the loop of
`exynos_ss_fixmap` runs. -/
structure FixmapAcc where
  items : List exynos_ss_item
  mem : Nat → Nat
  info_log : Nat → exynos_ss_item

/-- The loop `for (i = 1; i < ARRAY_SIZE(ess_items); i++)` of `exynos_ss_fixmap`
over the entries from index `i` on. -/
def fixmap_loop (base_vaddr : Nat) :
    List exynos_ss_item → Nat → (Nat → Nat) → (Nat → exynos_ss_item) → FixmapAcc
  | [], _, mem, info => ⟨[], mem, info⟩
  | it :: rest, i, mem, info =>
    if it.entry.enabled_init = 0 then
      let r := fixmap_loop base_vaddr rest (i + 1) mem info
      ⟨it :: r.items, r.mem, r.info_log⟩
    else
      let step := fixmap_item base_vaddr mem it
      let old := info (i - 1)
      let rec1 : exynos_ss_item :=
        { old with name := it.name, head_ptr := it.entry.vaddr, curr_ptr := 0,
                   entry := { old.entry with size := it.entry.size } }
      let r := fixmap_loop base_vaddr rest (i + 1) step.2 (upd info (i - 1) rec1)
      ⟨step.1 :: r.items, r.mem, r.info_log⟩

/-- The C `exynos_ss_fixmap`: the new state and the returned `int`. -/
def exynos_ss_fixmap (cfg : Platform) (s : State) : State × Int :=
  let s1 := exynos_ss_fixmap_header cfg s
  let r := fixmap_loop (exynos_ss_get_base_vaddr s1) (s1.ess_items.drop 1) 1 s1.mem s1.info_log
  ({ s1 with ess_items := s1.ess_items.take 1 ++ r.items, mem := r.mem, info_log := r.info_log },
   0)

/-- The C `exynos_ss_scratch_reg`. -/
def exynos_ss_scratch_reg (s : State) (val : Nat) : State :=
  if exynos_ss_get_enable s "log_kevents" true ≠ 0 ∨ s.ess_desc.need_header = true then
    { s with mem := raw_writel s.mem val (exynos_ss_get_base_vaddr s + ESS_OFFSET_SCRATCH) }
  else s

/-- The C `exynos_ss_init`: the new state and the returned `int`.  `map_ret` is
the value `map_vm_area` returns inside `exynos_ss_remap`; the value
`exynos_ss_remap` returns is not used.  The device-tree parsing and the
registration of the hooks touch none of the modelled variables. -/
def exynos_ss_init (cfg : Platform) (env : Env) (map_ret : Int) (s : State) : State × Int :=
  if s.ess_base.vaddr ≠ 0 ∧ s.ess_base.paddr ≠ 0 ∧ s.ess_base.size ≠ 0 then
    let s1 := (exynos_ss_remap map_ret s).1
    let s2 := (exynos_ss_fixmap cfg s1).1
    let s3 := exynos_ss_scratch_reg s2 ESS_SIGN_SCRATCH
    ((exynos_ss_set_enable env s3 "base" 1).1, 0)
  else (s, 0)

/-! ## Conditions and example states used in the statements -/

/-- The names of a category table can be told apart by the search loop: no
entry's name is an initial segment of the name of an entry before it, and no
entry's name is an initial segment of "base". -/
def registry_names_ok (items : List exynos_ss_item) : Prop :=
  items.Pairwise (fun a b => ¬ starts a.name b.name) ∧
    ∀ it ∈ items, ¬ starts "base" it.name

/-- A context with the given cpu number and clock reading, every other
reading zero. -/
def env_at (cpu clock : Nat) : Env :=
  { cpu := cpu, clock := clock, num_online_cpus := 0, preempt_count := 0, jiffies_64 := 0,
    current := 0, comm := fun t => t, return_address := fun _ => 0 }

/-- The initial state with the engine switched on (`ess_base.enabled = 1`). -/
def engine_on_state : State :=
  { State.initial with ess_base := { State.initial.ess_base with enabled := 1 } }

/-- The engine switched on and log_kernel disabled at clock value 100. -/
def quiet_state : State :=
  (exynos_ss_set_enable (env_at 0 100) engine_on_state "log_kernel" 0).1

/-- A platform with eight cpus; the other constants are set to zero. -/
def platform8 : Platform :=
  { NR_CPUS := 8, PAGE_OFFSET := 0, VMALLOC_START := 0, SEC_LKMSG_MAGICKEY := 0, CALLSTACK := 4 }

/-- The state after header initialisation and `exynos_ss_set_enable("base", true)`,
as `exynos_ss_init` leaves it, from the initial values of the variables. -/
def boot_state : State :=
  (exynos_ss_set_enable (env_at 0 0) (exynos_ss_fixmap_header platform8 State.initial) "base" 1).1

/-- A booted engine: the descriptor initialised, a region of 26 MiB + 32 KiB
recorded in `ess_base` at physical `0x46000000` and virtual
`0xffffff80f6000000`, the categories laid out by `exynos_ss_remap`, and
"base" enabled. -/
def stream_state : State :=
  let s1 := exynos_ss_init_desc platform8 State.initial
  let s2 : State :=
    { s1 with ess_base := ⟨0x1a08000, 0xffffff80f6000000, 0x46000000, 0, 0, 0⟩ }
  (exynos_ss_set_enable (env_at 0 0) (exynos_ss_remap 0 s2).1 "base" 1).1

/-- The cursor bound of the specification for a byte-stream category:
`head_ptr ≤ curr_ptr < head_ptr + entry.size`. -/
def cursor_in_range (it : exynos_ss_item) : Prop :=
  it.head_ptr ≤ it.curr_ptr ∧ it.curr_ptr < it.head_ptr + it.entry.size

instance (it : exynos_ss_item) : Decidable (cursor_in_range it) := by
  unfold cursor_in_range; infer_instance

/-- The cursor bound with the end of the buffer included:
`head_ptr ≤ curr_ptr ≤ head_ptr + entry.size`. -/
def cursor_within (it : exynos_ss_item) : Prop :=
  it.head_ptr ≤ it.curr_ptr ∧ it.curr_ptr ≤ it.head_ptr + it.entry.size

instance (it : exynos_ss_item) : Decidable (cursor_within it) := by
  unfold cursor_within; infer_instance

/-- The number of bytes `exynos_ss_remap` advances by for the entry at index
`i`: nothing for an entry it skips, `ESS_HEADER_ALLOC_SZ` for the kevents entry
when the header needs room of its own, the entry's size otherwise. -/
def item_alloc (kn : Nat) (nh : Bool) (i : Nat) (it : exynos_ss_item) : Nat :=
  if i = kn ∨ it.entry.enabled_init ≠ 0 then
    if i = kn ∧ nh = true then ESS_HEADER_ALLOC_SZ else it.entry.size
  else 0

/-- The bytes allotted to the first `k` entries of a table that starts at
index `i`. -/
def alloc_before (kn : Nat) (nh : Bool) : List exynos_ss_item → Nat → Nat → Nat
  | [], _, _ => 0
  | _ :: _, _, 0 => 0
  | it :: rest, i, k + 1 => item_alloc kn nh i it + alloc_before kn nh rest (i + 1) k

/-- The sum of the capacities of the categories enabled at init. -/
def enabled_capacity : List exynos_ss_item → Nat
  | [] => 0
  | it :: rest =>
    (if it.entry.enabled_init ≠ 0 then it.entry.size else 0) + enabled_capacity rest

/-- The entry `exynos_ss_remap` leaves for an entry it assigns at offset `off`
from the base addresses `pv` and `pp`. -/
def placed (it : exynos_ss_item) (pv pp off : Nat) : exynos_ss_item :=
  { it with entry := { it.entry with vaddr := u64_add pv off, paddr := u64_add pp off },
            head_ptr := u64_add pv off, curr_ptr := u64_add pv off }

/-- The state after `exynos_ss_setup` has reserved the region at physical
`0x46000000` for the initial table. -/
def reserved_state : State :=
  (exynos_ss_setup platform8 false (some 0x46000000) (fun _ _ => true) State.initial).1

/-- The end of the block header initialisation writes: the kept header
(`ESS_KEEP_HEADER_SZ` bytes) when log_kevents is not enabled at init, the whole
log_kevents area otherwise. -/
def header_end (s : State) : Nat :=
  s.ess_base.vaddr +
    (if exynos_ss_get_enable s "log_kevents" true = 0 then ESS_KEEP_HEADER_SZ
     else (kevents_item s).entry.size)

/-- The virtual layout `exynos_ss_fixmap` relies on: the kevents entry starts
at the region's virtual base and holds at least the kept header, and the
entries after the first that are enabled at init lie above the header block,
in table order, without overlap. -/
def boot_layout (s : State) : Prop :=
  (kevents_item s).entry.vaddr = s.ess_base.vaddr ∧
  s.ess_base.vaddr + ESS_KEEP_HEADER_SZ < 2 ^ 64 ∧
  (exynos_ss_get_enable s "log_kevents" true ≠ 0 →
    ESS_KEEP_HEADER_SZ ≤ (kevents_item s).entry.size) ∧
  (∀ it ∈ s.ess_items.drop 1, it.entry.enabled_init ≠ 0 → header_end s ≤ it.entry.vaddr) ∧
  ((s.ess_items.drop 1).filter (fun it => decide (it.entry.enabled_init ≠ 0))).Pairwise
    (fun a b => a.entry.vaddr + a.entry.size ≤ b.entry.vaddr)

instance (s : State) : Decidable (boot_layout s) := by
  unfold boot_layout; infer_instance

/-- The state after `exynos_ss_setup` and `exynos_ss_remap` for the initial
table, with the previous session's last-write pointer `0x46800010` (16 bytes
into log_kernel) at `ESS_OFFSET_LAST_LOGBUF`, the byte `0x41` at the start of
the log_kernel buffer and the byte `0x42` at the start of the log_etm buffer;
every other byte is zero. -/
def resumed_state : State :=
  { (exynos_ss_remap 0 reserved_state).1 with
    mem := raw_writel
      (fun a => if a = 0xF6800000 then 0x41 else if a = 0xF7200000 then 0x42 else 0)
      0x46800010 (0xF6000000 + ESS_OFFSET_LAST_LOGBUF) }

/-- The state after `exynos_ss_setup` and `exynos_ss_remap` for the initial
table, with all memory zero (no previous session). -/
def cold_state : State := (exynos_ss_remap 0 reserved_state).1

/-- The state `s` with the words `sig` and `reason` stored (as `__raw_writel`
does) at the offsets `ESS_OFFSET_SCRATCH` and `ESS_OFFSET_EMERGENCY_REASON` of
the header, where the signatures are kept. -/
def with_signature (s : State) (sig reason : Nat) : State :=
  { s with
    mem := raw_writel (raw_writel s.mem sig (s.ess_base.vaddr + ESS_OFFSET_SCRATCH)) reason
      (s.ess_base.vaddr + ESS_OFFSET_EMERGENCY_REASON) }

/-- A 64-bit little-endian load, `*(size_t *)addr`: the machine word a reader
of the region finds at `addr`. -/
def read_u64 (mem : Nat → Nat) (addr : Nat) : Nat :=
  raw_readl mem addr + 4294967296 * raw_readl mem (addr + 4)

/-- The state after a boot that succeeds: `exynos_ss_setup` with base
`0x46000000`, then `exynos_ss_init` with `map_vm_area` returning 0. -/
def running_state : State := (exynos_ss_init platform8 (env_at 0 0) 0 reserved_state).1

/-- The engine switched on, with the irq-exit threshold set to 4294968
microseconds (as `ess_irqexit_threshold_store` sets it for the input
"4294968"). -/
def wide_threshold_state : State :=
  { engine_on_state with ess_irqexit_threshold := 4294968 }

/-! ## The pmsg decoder (CONFIG_EXYNOS_SNAPSHOT_PSTORE, CONFIG_SEC_EVENT_LOG) -/

def ESS_LOGGER_LEVEL_HEADER : Nat := 1
def ESS_LOGGER_LEVEL_PREFIX : Nat := 2
def ESS_LOGGER_LEVEL_TEXT : Nat := 3
def ESS_LOGGER_SKIP_COUNT : Nat := 4
def ESS_LOGGER_STRING_PAD : Nat := 1
def ESS_LOGGER_HEADER_SIZE : Nat := 68
def ESS_LOG_ID_EVENTS : Nat := 2

def EVENT_TYPE_INT : Nat := 0
def EVENT_TYPE_LONG : Nat := 1
def EVENT_TYPE_STRING : Nat := 2
def EVENT_TYPE_LIST : Nat := 3
def EVENT_TYPE_FLOAT : Nat := 4

/-- The C `struct ess_logger` (the variable `logger`), without the function
pointer: the hook `exynos_ss_init` registers is `exynos_ss_hook_logger`.  The
struct is packed and its member `char msg[0]` has no size, so `msg` and the
next member `buffer` have the same offset: `logger.msg[0]` is the byte at the
lowest address of the pointer `buffer`, on little-endian arm64 its low byte
(see `logger_msg0`). -/
structure ess_logger where
  len : Nat
  id : Nat
  pid : Nat
  tid : Nat
  uid : Nat
  level : Nat
  tv_sec : Int
  tv_nsec : Int
  buffer : Nat
  deriving DecidableEq, Repr

/-- The value read as `logger.msg[0]` (an `unsigned char` read). -/
def logger_msg0 (l : ess_logger) : Nat := l.buffer % 256

/-- The assignment `logger.msg[0] = b`. -/
def logger_set_msg0 (l : ess_logger) (b : Nat) : ess_logger :=
  { l with buffer := l.buffer / 256 * 256 + b % 256 }

/-- The value of `*(int *)(buffer + pos)`. -/
def read_int (buffer : Nat → Nat) (pos : Nat) : Int := int32_wrap (raw_readl buffer pos)

/-- The value of `*(long long *)(buffer + pos)`. -/
def read_long_long (buffer : Nat → Nat) (pos : Nat) : Int :=
  ((read_u64 buffer pos : Int) + 2 ^ 63) % 2 ^ 64 - 2 ^ 63

/-- The value of a little-endian `uint16_t` member at offset `pos` of a packed
header. -/
def read_u16 (buffer : Nat → Nat) (pos : Nat) : Nat :=
  buffer pos % 256 + 256 * (buffer (pos + 1) % 256)

/-- The digits of `n`, most significant first, as character codes; `fuel`
bounds their number. -/
def decimal_digits_loop : Nat → Nat → List Nat → List Nat
  | 0, _, acc => acc
  | fuel + 1, n, acc =>
    if n / 10 = 0 then (48 + n % 10) :: acc
    else decimal_digits_loop fuel (n / 10) ((48 + n % 10) :: acc)

/-- Modelled from the spec: the text the kernel's `snprintf` (lib/vsprintf.c,
not among the source files) produces for `%d` and `%lld`: the decimal digits
of the value, after a minus sign when it is negative.  Twenty digits cover
every 64-bit value. -/
def decimal_text (v : Int) : List Nat :=
  if v < 0 then 45 :: decimal_digits_loop 20 v.natAbs [] else decimal_digits_loop 20 v.toNat []

/-- Modelled from the spec: the characters `snprintf(buf, size, ...)` stores
before the terminating NUL when the formatted text is `text`; the value it
returns is `text.length`, the length of the text before truncation. -/
def snprintf_stored (size : Nat) (text : List Nat) : List Nat := text.take (size - 1)

/-- A zero-initialised character array holding `text` from its start. -/
def char_buf (text : List Nat) : Nat → Nat := fun k => text.getD k 0

/-- The C `parse_buffer`: the state after the call to the logger hook and the
returned cursor.  `buffer` gives the bytes of the record by offset and `pos`
is the offset the C pointer `buffer` stands at. -/
def parse_buffer (s : State) (buffer : Nat → Nat) (pos : Nat) (type : Nat) : State × Nat :=
  if type = EVENT_TYPE_INT then
    let text := decimal_text (read_int buffer pos)
    (exynos_ss_hook_logger s "log_platform" (char_buf (snprintf_stored 64 text)) text.length,
     pos + 4)
  else if type = EVENT_TYPE_LONG then
    let text := decimal_text (read_long_long buffer pos)
    (exynos_ss_hook_logger s "log_platform" (char_buf (snprintf_stored 64 text)) text.length,
     pos + 8)
  else if type = EVENT_TYPE_FLOAT then (s, pos + 4)
  else if type = EVENT_TYPE_STRING then
    let len0 := raw_readl buffer pos
    let len := if len0 ≥ 64 then 63 else len0
    (exynos_ss_hook_logger s "log_platform"
       (fun k => if k < len then buffer (pos + 4 + k) else 0) len,
     pos + 4 + len0)
  else (s, pos)

/-- The loop `for (; i < items; ++i)` of `exynos_ss_combine_pmsg` over the
items of a list value; the first argument counts the items still to come. -/
def parse_list (buffer : Nat → Nat) : Nat → State → Nat → State × Nat
  | 0, s, pos => (s, pos)
  | n + 1, s, pos =>
    let r := parse_buffer s buffer (pos + 1) (buffer pos % 256)
    parse_list buffer n (exynos_ss_hook_logger r.1 "log_platform" (char_buf [58]) 1) r.2

/-- The characters of `kPrioChars`, "!.VDIWEFS". -/
def kPrioChars : List Nat := [33, 46, 86, 68, 73, 87, 69, 70, 83]

/-- The C `exynos_ss_combine_pmsg` (with CONFIG_SEC_EVENT_LOG): the logger, the
state and the returned `int`.  `fmt` gives the text the header format produces
for the saved header fields (it also depends on the clock, the cpu and the
current task); the decode buffer `logger.buffer` is part of `mem`.  The
CONFIG_SEC_EXT code after the free-text append touches the caller's buffer and
the kernel log only. -/
def exynos_ss_combine_pmsg (fmt : ess_logger → List Nat) (l : ess_logger) (s : State)
    (buffer : Nat → Nat) (count : Nat) (level : Nat) : ess_logger × State × Int :=
  let logbuf := l.buffer
  if logbuf = 0 then (l, s, -12)
  else if level = ESS_LOGGER_LEVEL_HEADER then
    let text := fmt l
    let stored := snprintf_stored ESS_LOGGER_HEADER_SIZE text
    let s1 : State := { s with mem := memcpy s.mem logbuf (char_buf stored) (stored.length + 1) }
    let logbuf_len := text.length % 2 ^ 32
    (l, exynos_ss_hook_logger s1 "log_platform" (fun k => s1.mem (logbuf + k))
          ((logbuf_len + 2 ^ 32 - 1) % 2 ^ 32), 0)
  else if level = ESS_LOGGER_LEVEL_PREFIX then
    let prio := logger_msg0 l
    if l.id = ESS_LOG_ID_EVENTS then (l, s, 0)
    else
      let c := if prio < kPrioChars.length then kPrioChars.getD prio 0 else 63
      let s1 : State := { s with mem := memcpy s.mem logbuf (char_buf [c, 32]) 2 }
      (logger_set_msg0 l 0xff,
       exynos_ss_hook_logger s1 "log_platform" (fun k => s1.mem (logbuf + k))
         ESS_LOGGER_LEVEL_PREFIX, 0)
  else if level = ESS_LOGGER_LEVEL_TEXT then
    if l.id = ESS_LOG_ID_EVENTS then
      let tag_id := read_int buffer 0
      match (if count = 4 then (find_tag_name_from_id tag_id).getD none else none) with
      | some tag_name =>
        let text := [35, 32] ++ cstr tag_name ++ [32]
        (l, exynos_ss_hook_logger s "log_platform" (char_buf (snprintf_stored 64 text))
              text.length, 0)
      | none =>
        let m := logger_msg0 l
        let s1 :=
          if m = EVENT_TYPE_LONG ∨ m = EVENT_TYPE_INT ∨ m = EVENT_TYPE_FLOAT then
            (parse_buffer s buffer 0 m).1
          else if count > 6 then
            if buffer 0 % 256 = EVENT_TYPE_LIST then
              let s2 := exynos_ss_hook_logger s "log_platform" (char_buf [91]) 1
              let r := parse_list buffer (buffer 1 % 256) s2 2
              exynos_ss_hook_logger r.1 "log_platform" (char_buf [93]) 1
            else if buffer 0 % 256 = EVENT_TYPE_STRING then
              (parse_buffer s buffer 1 EVENT_TYPE_STRING).1
            else s
          else s
        (logger_set_msg0 l 0xff, s1, 0)
    else if count = ESS_LOGGER_SKIP_COUNT ∧
        buffer (u64_sub count ESS_LOGGER_STRING_PAD) % 256 ≠ 0 then (l, s, 0)
    else (l, exynos_ss_hook_logger s "log_platform" buffer (u64_sub count 1), 0)
  else (l, s, 0)

/-- The C `exynos_ss_hook_pmsg`: the logger, the state and the returned `int`.
The two headers are packed structs of 7 and 11 bytes; `'l'` is 108. -/
def exynos_ss_hook_pmsg (fmt : ess_logger → List Nat) (l : ess_logger) (s : State)
    (buffer : Nat → Nat) (count : Nat) : ess_logger × State × Int :=
  if l.buffer = 0 then (l, s, -12)
  else if count = 7 then
    if buffer 0 % 256 ≠ 108 then
      let r := exynos_ss_combine_pmsg fmt l s buffer count ESS_LOGGER_LEVEL_TEXT
      (r.1, r.2.1, 0)
    else
      ({ l with pid := read_u16 buffer 5, uid := read_u16 buffer 3, len := read_u16 buffer 1 },
       s, 0)
  else if count = 11 then
    let l1 : ess_logger :=
      { l with id := buffer 0 % 256, tid := read_u16 buffer 1, tv_sec := read_int buffer 3,
               tv_nsec := read_int buffer 7 }
    let r := exynos_ss_combine_pmsg fmt l1 s buffer count
      (if l1.id > 7 then ESS_LOGGER_LEVEL_TEXT else ESS_LOGGER_LEVEL_HEADER)
    (r.1, r.2.1, 0)
  else if count = 1 then
    let r := exynos_ss_combine_pmsg fmt (logger_set_msg0 l (buffer 0)) s buffer count
      ESS_LOGGER_LEVEL_PREFIX
    (r.1, r.2.1, 0)
  else
    let r := exynos_ss_combine_pmsg fmt l s buffer count ESS_LOGGER_LEVEL_TEXT
    (r.1, r.2.1, 0)

/-- A record of four bytes holding the 32-bit value `v`, little-endian. -/
def int_record (v : Int) : Nat → Nat := fun k => if k < 4 then le_byte (to_u32 v) k else 0

/-- A logger on the event stream (`id == ESS_LOG_ID_EVENTS`) with the pending
type byte `EVENT_TYPE_INT` and an allocated decode buffer. -/
def event_logger : ess_logger := ⟨0, 2, 0, 0, 0, 0, 0, 0, 0xffffff8008000000⟩

/-- A logger on the main stream (`id == ESS_LOG_ID_MAIN`) with an allocated
decode buffer. -/
def text_logger : ess_logger := ⟨0, 0, 0, 0, 0, 0, 0, 0, 0xffffff8008000000⟩

/-- A header text as the header format produces it. -/
def sample_header (_ : ess_logger) : List Nat :=
  cstr "\n[    1.000000][0:         swapper] 01-01 00:00:01.000     1     1  "

/-- The search loop of the exclusion-list store functions,
`for (i = 0; i < ARRAY_SIZE(list); i++) if (list[i] == 0) break;`: the index
`i` after the loop, counted from `i`. -/
def exlist_scan : List Int → Nat → Nat
  | [], i => i
  | x :: rest, i => if x = 0 then i else exlist_scan rest (i + 1)

/-- The C `ess_irqlog_exlist_store`: the new state and the returned `ssize_t`.
`irq` is the number `simple_strtoul` reads from the text; it is stored into an
`int` array. -/
def ess_irqlog_exlist_store (s : State) (irq : Nat) (count : Nat) : State × Nat :=
  let i := exlist_scan s.ess_irqlog_exlist 0
  if i = s.ess_irqlog_exlist.length then (s, count)
  else if irq ≠ 0 then
    ({ s with ess_irqlog_exlist := s.ess_irqlog_exlist.set i (int32_wrap irq) }, count)
  else (s, count)

/-- The environment of a call on cpu 0 while `jiffies_64` is 7777. -/
def jiffies_env : Env := { env_at 0 0 with jiffies_64 := 7777 }

/-- The address an append of `size` bytes to the entry `it` starts at: the
cursor when the record fits before the end of the buffer, the head of the
buffer otherwise. -/
def append_start (it : exynos_ss_item) (size : Nat) : Nat :=
  if it.curr_ptr + size ≤ it.head_ptr + it.entry.size then it.curr_ptr else it.head_ptr

/-- The state `s1` is the state `s` after the bytes `text` were appended to the
entry `it` at index `i` of the table: the entry's cursor stands `text.length`
bytes after the start `p = append_start it text.length` of the append (the old
cursor, or the head of the buffer when the record did not fit before the end),
the other entries are as in `s`, the bytes of memory at `[p, p + text.length)`
are `text`, in order, and every other byte of memory is as in `s`. -/
def appended (s s1 : State) (i : Nat) (it : exynos_ss_item) (text : List Nat) : Prop :=
  s1.ess_items[i]? =
    some { it with curr_ptr := append_start it text.length + text.length } ∧
  (∀ j, j ≠ i → s1.ess_items[j]? = s.ess_items[j]?) ∧
  (List.range text.length).map (fun k => s1.mem (append_start it text.length + k)) = text ∧
  (∀ a, a < append_start it text.length ∨ append_start it text.length + text.length ≤ a →
    s1.mem a = s.mem a)

/-- A string value of 70 bytes: the length field 70, then the letters "a" to
"z" over and over. -/
def long_string_record : Nat → Nat :=
  fun k => if k = 0 then 70 else if k < 4 then 0 else 97 + (k - 4) % 26

/-- Adjacent entries of a tag table are in strictly increasing `nTagNum` order. -/
def tags_ascending : List event_log_tag_t → Bool
  | [] => true
  | [_] => true
  | a :: b :: rest => decide (a.nTagNum < b.nTagNum) && tags_ascending (b :: rest)

theorem tags_ascending_pairwise :
    ∀ (tags : List event_log_tag_t), tags_ascending tags = true →
      tags.Pairwise (fun a b => a.nTagNum < b.nTagNum)
  | [], _ => List.Pairwise.nil
  | [_], _ => List.pairwise_singleton _ _
  | a :: b :: rest, h => by
    simp only [tags_ascending, Bool.and_eq_true, decide_eq_true_eq] at h
    have ih := tags_ascending_pairwise (b :: rest) h.2
    refine List.Pairwise.cons ?_ ih
    intro c hc
    rcases List.mem_cons.1 hc with rfl | hc
    · exact h.1
    · exact lt_trans h.1 (List.rel_of_pairwise_cons ih hc)

set_option maxRecDepth 100000 in
theorem event_tags_ascending : tags_ascending event_tags = true := by decide

theorem event_tags_pairwise :
    event_tags.Pairwise (fun a b => a.nTagNum < b.nTagNum) :=
  tags_ascending_pairwise event_tags event_tags_ascending

theorem linear_tag_lookup_of_mem (tags : List event_log_tag_t) (id : Int)
    (hs : tags.Pairwise (fun a b => a.nTagNum < b.nTagNum))
    (e : event_log_tag_t) (he : e ∈ tags) (hid : e.nTagNum = id) :
    linear_tag_lookup tags id = some e.event_msg := by
  induction tags with
  | nil => cases he
  | cons a t ih =>
    rw [List.pairwise_cons] at hs
    unfold linear_tag_lookup at ih ⊢
    by_cases ha : a.nTagNum = id
    · have hae : e = a := by
        rcases List.mem_cons.1 he with h | h
        · exact h
        · have := hs.1 e h
          omega
      simp [List.find?, ha, hae]
    · have het : e ∈ t := by
        rcases List.mem_cons.1 he with h | h
        · exact absurd (h ▸ hid) ha
        · exact h
      simpa [List.find?, ha] using ih hs.2 het

theorem linear_tag_lookup_of_not_mem (tags : List event_log_tag_t) (id : Int)
    (h : ∀ e ∈ tags, e.nTagNum ≠ id) : linear_tag_lookup tags id = none := by
  unfold linear_tag_lookup
  rw [List.find?_eq_none.2]
  · rfl
  · intro e he
    simpa using h e he

theorem find_tag_loop_eq (tags : List event_log_tag_t) (id : Int)
    (hs : tags.Pairwise (fun a b => a.nTagNum < b.nTagNum)) :
    ∀ (fuel : Nat) (l r : Int), 0 ≤ l → l ≤ r + 1 → r < tags.length →
      r + 1 - l < fuel →
      (∀ (i : Nat) (h : i < tags.length), (i : Int) < l → tags[i].nTagNum < id) →
      (∀ (i : Nat) (h : i < tags.length), r < (i : Int) → id < tags[i].nTagNum) →
      find_tag_loop tags id fuel l r = some (linear_tag_lookup tags id) := by
  have hget := List.pairwise_iff_getElem.1 hs
  intro fuel
  induction fuel with
  | zero => intro l r h0 h1 h2 h3; omega
  | succ fuel ih =>
    intro l r h0 h1 h2 h3 hlo hhi
    unfold find_tag_loop
    by_cases hlr : l ≤ r
    · have hmid : (l + r).tdiv 2 = (l + r) / 2 :=
        Int.tdiv_eq_ediv (by omega) (by norm_num)
      have hm1 : l ≤ (l + r) / 2 := by omega
      have hm2 : (l + r) / 2 ≤ r := by omega
      have hmlt : ((l + r) / 2).toNat < tags.length := by omega
      have hmcast : (((l + r) / 2).toNat : Int) = (l + r) / 2 := by omega
      simp only [hlr, if_true, hmid, List.getElem?_eq_getElem hmlt,
        show ¬ ((l + r) / 2 < 0) by omega, if_false]
      by_cases heq : tags[((l + r) / 2).toNat].nTagNum = id
      · rw [if_pos heq,
          linear_tag_lookup_of_mem tags id hs _ (List.getElem_mem hmlt) heq]
      · rw [if_neg heq]
        by_cases hlt : tags[((l + r) / 2).toNat].nTagNum < id
        · rw [if_pos hlt]
          refine ih _ _ (by omega) (by omega) h2 (by omega) ?_ hhi
          intro i hi hil
          by_cases him : i = ((l + r) / 2).toNat
          · subst him; exact hlt
          · have := hget i ((l + r) / 2).toNat hi hmlt (by omega)
            omega
        · rw [if_neg hlt]
          refine ih _ _ h0 (by omega) (by omega) (by omega) hlo ?_
          intro i hi hil
          by_cases him : i = ((l + r) / 2).toNat
          · subst him; omega
          · have := hget ((l + r) / 2).toNat i hmlt hi (by omega)
            omega
    · rw [if_neg hlr, linear_tag_lookup_of_not_mem]
      intro e he
      obtain ⟨i, hi, rfl⟩ := List.getElem_of_mem he
      by_cases hil : (i : Int) < l
      · have := hlo i hi hil
        omega
      · have := hhi i hi (by omega)
        omega

/-- C1: for every integer id, `find_tag_name_from_id` returns (the loop ends,
within the fuel of the model) exactly what the linear reference lookup over
`event_tags` gives: the `event_msg` of the entry whose `nTagNum` is `id`, and
`NULL` when no entry has that id. -/
theorem find_tag_name_from_id_eq_linear (id : Int) :
    find_tag_name_from_id id = some (linear_tag_lookup event_tags id) := by
  unfold find_tag_name_from_id
  refine find_tag_loop_eq event_tags id event_tags_pairwise _ _ _
    (le_refl 0) (by omega) (by omega) (by push_cast; omega) ?_ ?_
  · intro i _ hi; omega
  · intro i h hi; omega

/-- C2: `event_tags` is sorted strictly ascending by `nTagNum`: for all indices
`i < j` of the table, entry `i` has a smaller tag number than entry `j`. -/
theorem event_tags_strictly_ascending (i j : Nat) (a b : event_log_tag_t) (hij : i < j)
    (ha : event_tags[i]? = some a) (hb : event_tags[j]? = some b) :
    a.nTagNum < b.nTagNum := by
  obtain ⟨hi, rfl⟩ := List.getElem?_eq_some.1 ha
  obtain ⟨hj, rfl⟩ := List.getElem?_eq_some.1 hb
  exact List.pairwise_iff_getElem.1 event_tags_pairwise i j hi hj hij

set_option maxRecDepth 100000 in
theorem event_tags_strictly_ascending_witness :
    (event_log_tag_t.mk 42 "answer").nTagNum < (event_log_tag_t.mk 314 "pi").nTagNum :=
  event_tags_strictly_ascending 0 1 _ _ (by decide) (by decide) (by decide)

/-! ## C strings and the registry search -/

theorem cstr_ne_zero (s : String) : ∀ c ∈ cstr s, c ≠ 0 := by
  intro c hc
  have := List.mem_takeWhile_imp hc
  simpa using this

theorem strncmp_bytes_left (b : List Nat) (hb : ∀ c ∈ b, c ≠ 0) :
    ∀ a : List Nat, strncmp_bytes a b b.length = 0 ↔ b <+: a := by
  induction b with
  | nil => intro a; simp [strncmp_bytes]
  | cons x t ih =>
    intro a
    have hx : x ≠ 0 := hb x (List.mem_cons_self _ _)
    have ht : ∀ c ∈ t, c ≠ 0 := fun c hc => hb c (List.mem_cons_of_mem _ hc)
    cases a with
    | nil =>
      simp only [List.length_cons, strncmp_bytes, List.headD_nil, List.headD_cons]
      have : (0 : Nat) ≠ x := fun h => hx h.symm
      simp [this]
      omega
    | cons y u =>
      simp only [List.length_cons, strncmp_bytes, List.headD_cons, List.tail_cons]
      by_cases hyx : y = x
      · subst hyx
        simp [hx, ih ht u, List.cons_prefix_cons]
      · simp only [ne_eq, hyx, not_false_eq_true, if_true, List.cons_prefix_cons, false_and,
          iff_false]
        omega

theorem strncmp_bytes_right (b : List Nat) (hb : ∀ c ∈ b, c ≠ 0) :
    ∀ a : List Nat, strncmp_bytes b a b.length = 0 ↔ b <+: a := by
  induction b with
  | nil => intro a; simp [strncmp_bytes]
  | cons x t ih =>
    intro a
    have hx : x ≠ 0 := hb x (List.mem_cons_self _ _)
    have ht : ∀ c ∈ t, c ≠ 0 := fun c hc => hb c (List.mem_cons_of_mem _ hc)
    cases a with
    | nil =>
      simp only [List.length_cons, strncmp_bytes, List.headD_nil, List.headD_cons]
      simp [hx]
    | cons y u =>
      simp only [List.length_cons, strncmp_bytes, List.headD_cons, List.tail_cons]
      by_cases hyx : x = y
      · subst hyx
        simp [hx, ih ht u, List.cons_prefix_cons]
      · simp only [ne_eq, hyx, not_false_eq_true, if_true, List.cons_prefix_cons, false_and,
          iff_false]
        omega

theorem strncmp_item_name (a name : String) :
    strncmp a name (strlen name) = 0 ↔ starts a name :=
  strncmp_bytes_left (cstr name) (cstr_ne_zero name) (cstr a)

theorem strncmp_name_first (a name : String) :
    strncmp name a (strlen name) = 0 ↔ starts a name :=
  strncmp_bytes_right (cstr name) (cstr_ne_zero name) (cstr a)

theorem starts_self (a : String) : starts a a := List.prefix_refl _

theorem find_item_loop_none (name : String) :
    ∀ (l : List exynos_ss_item) (i : Nat), (∀ it ∈ l, ¬ starts it.name name) →
      find_item_loop name l i = none := by
  intro l
  induction l with
  | nil => intro i _; rfl
  | cons a t ih =>
    intro i h
    have ha : ¬ strncmp a.name name (strlen name) = 0 := by
      rw [strncmp_item_name]; exact h a (List.mem_cons_self _ _)
    simp only [find_item_loop, ha, if_false]
    exact ih (i + 1) (fun it hit => h it (List.mem_cons_of_mem _ hit))

theorem find_item_loop_registered :
    ∀ (l : List exynos_ss_item) (i j : Nat) (it : exynos_ss_item),
      l.Pairwise (fun a b => ¬ starts a.name b.name) → l[j]? = some it →
      find_item_loop it.name l i = some (i + j, it) := by
  intro l
  induction l with
  | nil => intro i j it _ h; simp at h
  | cons a t ih =>
    intro i j it hp hj
    rw [List.pairwise_cons] at hp
    cases j with
    | zero =>
      simp only [List.getElem?_cons_zero, Option.some.injEq] at hj
      subst hj
      simp [find_item_loop, (strncmp_item_name a.name a.name).2 (starts_self _)]
    | succ j =>
      simp only [List.getElem?_cons_succ] at hj
      have hmem : it ∈ t := List.getElem?_mem hj
      have ha : ¬ strncmp a.name it.name (strlen it.name) = 0 := by
        rw [strncmp_item_name]; exact hp.1 it hmem
      simp only [find_item_loop, ha, if_false]
      rw [ih (i + 1) j it hp.2 hj]
      congr 2
      omega

theorem find_item_registered (items : List exynos_ss_item) (j : Nat) (it : exynos_ss_item)
    (hreg : registry_names_ok items) (hj : items[j]? = some it) :
    find_item items it.name 0 = some (j, it) := by
  unfold find_item
  rw [List.drop_zero, find_item_loop_registered items 0 j it hreg.1 hj, Nat.zero_add]

theorem find_item_unknown (items : List exynos_ss_item) (name : String)
    (h : ∀ it ∈ items, ¬ starts it.name name) : find_item items name 0 = none := by
  unfold find_item
  rw [List.drop_zero]
  exact find_item_loop_none name items 0 h

/-! ## Lookups by name -/

/-- C6 (as stated, refuted): the empty string and "log" are neither "base" nor
the name of an entry of `ess_items`, yet the lookups find something for them:
`exynos_ss_get_enable` returns the engine flag (0 here) for the empty string
and 1 for "log", and `exynos_ss_get_item_size` returns the size of
log_kevents for both. -/
theorem lookup_accepts_initial_segments :
    ("" ≠ "base" ∧ ∀ it ∈ ess_items, it.name ≠ "") ∧
    ("log" ≠ "base" ∧ ∀ it ∈ ess_items, it.name ≠ "log") ∧
    exynos_ss_get_enable State.initial "" true = 0 ∧
    exynos_ss_get_enable State.initial "" false = 0 ∧
    exynos_ss_get_enable State.initial "log" true = 1 ∧
    exynos_ss_get_enable State.initial "log" false = 1 ∧
    exynos_ss_get_item_size State.initial "" = 0x800000 ∧
    exynos_ss_get_item_size State.initial "log" = 0x800000 := by
  decide

/-- C6 (amended): for every name that is not an initial segment of "base" and
not an initial segment of the name of any entry of `ess_items`, the lookups
report not found: `exynos_ss_get_enable` returns -1 for both values of `init`,
`exynos_ss_get_item_size` returns 0 and `exynos_ss_get_item_paddr` returns 0. -/
theorem lookup_unknown_name (s : State) (name : String)
    (hbase : ¬ starts "base" name)
    (hitems : ∀ it ∈ s.ess_items, ¬ starts it.name name) :
    (∀ init : Bool, exynos_ss_get_enable s name init = -1) ∧
    exynos_ss_get_item_size s name = 0 ∧
    exynos_ss_get_item_paddr s name = 0 := by
  have hb : ¬ strncmp name "base" (strlen name) = 0 := by
    rw [strncmp_name_first]; exact hbase
  have hf := find_item_unknown s.ess_items name hitems
  refine ⟨fun init => ?_, ?_, ?_⟩
  · simp [exynos_ss_get_enable, hb, hf]
  · simp [exynos_ss_get_item_size, hf]
  · simp [exynos_ss_get_item_paddr, hf]

theorem lookup_unknown_name_witness :
    (∀ init : Bool, exynos_ss_get_enable State.initial "log_x" init = -1) ∧
    exynos_ss_get_item_size State.initial "log_x" = 0 ∧
    exynos_ss_get_item_paddr State.initial "log_x" = 0 :=
  lookup_unknown_name State.initial "log_x" (by decide) (by decide)

theorem map_name_set (items : List exynos_ss_item) (j : Nat) (it it1 : exynos_ss_item)
    (hj : items[j]? = some it) (hn : it1.name = it.name) :
    (items.set j it1).map (fun x => x.name) = items.map (fun x => x.name) := by
  apply List.ext_getElem?
  intro k
  rw [List.map_set, List.getElem?_set]
  by_cases hjk : j = k
  · subst hjk
    obtain ⟨hlt, hit⟩ := List.getElem?_eq_some.1 hj
    simp [hj, hn, hlt, hit]
  · simp [hjk]

theorem registry_names_ok_iff (items : List exynos_ss_item) :
    registry_names_ok items ↔
      (items.map (fun x => x.name)).Pairwise (fun a b => ¬ starts a b) ∧
        ∀ n ∈ items.map (fun x => x.name), ¬ starts "base" n := by
  unfold registry_names_ok
  rw [List.pairwise_map]
  simp

theorem registry_names_ok_set (items : List exynos_ss_item) (j : Nat)
    (it it1 : exynos_ss_item) (h : registry_names_ok items)
    (hj : items[j]? = some it) (hn : it1.name = it.name) :
    registry_names_ok (items.set j it1) := by
  rw [registry_names_ok_iff] at h ⊢
  rw [map_name_set items j it it1 hj hn]
  exact h

theorem getElem?_set_some (items : List exynos_ss_item) (j : Nat)
    (it it1 : exynos_ss_item) (hj : items[j]? = some it) :
    (items.set j it1)[j]? = some it1 := by
  obtain ⟨hlt, _⟩ := List.getElem?_eq_some.1 hj
  simp [List.getElem?_set_self hlt]

/-! ## The enable flags -/

/-- C7: on a table whose names the search tells apart (as those of `ess_items`
are), for every registered category, named by its exact name, and `en` in
{0, 1}: after `exynos_ss_set_enable(n, en)`, `exynos_ss_get_enable(n, false)`
returns `en`, `ess_base` is unchanged, every other category is unchanged and
every category keeps its name and its `enabled_init` flag; and after
`exynos_ss_set_enable("base", en)`, `exynos_ss_get_enable("base", init)`
returns `en` for both values of `init` and the category table is unchanged. -/
theorem set_enable_then_get_enable (env : Env) (s : State) (j : Nat) (it : exynos_ss_item)
    (en : Int) (hreg : registry_names_ok s.ess_items) (hj : s.ess_items[j]? = some it)
    (hen : en = 0 ∨ en = 1) :
    (exynos_ss_get_enable (exynos_ss_set_enable env s it.name en).1 it.name false = en ∧
      (exynos_ss_set_enable env s it.name en).1.ess_base = s.ess_base ∧
      (∀ (k : Nat) (it0 : exynos_ss_item), s.ess_items[k]? = some it0 →
        ∃ it1, (exynos_ss_set_enable env s it.name en).1.ess_items[k]? = some it1 ∧
          it1.name = it0.name ∧ it1.entry.enabled_init = it0.entry.enabled_init ∧
          (k ≠ j → it1 = it0))) ∧
    ((∀ init : Bool,
        exynos_ss_get_enable (exynos_ss_set_enable env s "base" en).1 "base" init = en) ∧
      (exynos_ss_set_enable env s "base" en).1.ess_items = s.ess_items) := by
  have hmem : it ∈ s.ess_items := List.getElem?_mem hj
  have hb : ¬ strncmp it.name "base" (strlen it.name) = 0 := by
    rw [strncmp_name_first]; exact hreg.2 it hmem
  have hf := find_item_registered s.ess_items j it hreg hj
  have hwrap : int32_wrap (to_u32 en : Nat) = en := by
    rcases hen with h | h <;> subst h <;> decide
  have hbb : strncmp "base" "base" (strlen "base") = 0 := by decide
  refine ⟨⟨?_, ?_, ?_⟩, ?_, ?_⟩
  · simp only [exynos_ss_set_enable, hb, if_false, hf, exynos_ss_get_enable]
    have hreg1 := registry_names_ok_set s.ess_items j it
      { it with entry := { it.entry with enabled := to_u32 en }, time := env.clock } hreg hj rfl
    have hj1 := getElem?_set_some s.ess_items j it
      { it with entry := { it.entry with enabled := to_u32 en }, time := env.clock } hj
    have hf1 := find_item_registered _ j _ hreg1 hj1
    simp only [] at hf1
    simp [hf1, hwrap]
  · simp [exynos_ss_set_enable, hb, hf]
  · intro k it0 hk
    simp only [exynos_ss_set_enable, hb, if_false, hf]
    by_cases hjk : j = k
    · subst hjk
      rw [hj] at hk
      cases hk
      exact ⟨_, getElem?_set_some s.ess_items j it _ hj, rfl, rfl, fun h => absurd rfl h⟩
    · refine ⟨it0, ?_, rfl, rfl, fun _ => rfl⟩
      simp [List.getElem?_set_ne hjk, hk]
  · intro init
    simp [exynos_ss_set_enable, exynos_ss_get_enable, hbb, hwrap]
  · simp [exynos_ss_set_enable, hbb]

theorem set_enable_then_get_enable_witness :
    (exynos_ss_get_enable
        (exynos_ss_set_enable (env_at 0 7) State.initial "log_kernel" 0).1 "log_kernel" false = 0 ∧
      (exynos_ss_set_enable (env_at 0 7) State.initial "log_kernel" 0).1.ess_base
        = State.initial.ess_base ∧
      (∀ (k : Nat) (it0 : exynos_ss_item), State.initial.ess_items[k]? = some it0 →
        ∃ it1, (exynos_ss_set_enable (env_at 0 7) State.initial "log_kernel" 0).1.ess_items[k]?
            = some it1 ∧
          it1.name = it0.name ∧ it1.entry.enabled_init = it0.entry.enabled_init ∧
          (k ≠ 1 → it1 = it0))) ∧
    ((∀ init : Bool,
        exynos_ss_get_enable (exynos_ss_set_enable (env_at 0 7) State.initial "base" 0).1
          "base" init = 0) ∧
      (exynos_ss_set_enable (env_at 0 7) State.initial "base" 0).1.ess_items
        = State.initial.ess_items) :=
  set_enable_then_get_enable (env_at 0 7) State.initial 1
    ⟨"log_kernel", ⟨SZ_2M, 0, 0, 0, 1, 1⟩, 0, 0, 0⟩ 0
    (by unfold registry_names_ok; decide) (by decide) (by decide)

/-- C8 (as stated, refuted): "nosuch" and "log" are neither "base" nor the name
of a registered category; `exynos_ss_set_enable` returns for "nosuch" the same
value, 0, that it returns for the registered "log_kernel", and called with
"log" it clears the enabled flag of log_kevents. -/
theorem set_enable_reports_nothing :
    ("nosuch" ≠ "base" ∧ ∀ it ∈ ess_items, it.name ≠ "nosuch") ∧
    ("log" ≠ "base" ∧ ∀ it ∈ ess_items, it.name ≠ "log") ∧
    (exynos_ss_set_enable (env_at 0 7) State.initial "nosuch" 1).2
      = (exynos_ss_set_enable (env_at 0 7) State.initial "log_kernel" 1).2 ∧
    exynos_ss_get_enable State.initial "log_kevents" false = 1 ∧
    exynos_ss_get_enable (exynos_ss_set_enable (env_at 0 7) State.initial "log" 0).1
      "log_kevents" false = 0 := by
  decide

/-- C8 (amended): `exynos_ss_set_enable` returns 0 for every name, found or
not; and when the name is not an initial segment of "base" nor of the name of
any entry of `ess_items`, the call changes nothing at all. -/
theorem set_enable_unknown_name (env : Env) (s : State) (name : String) (en : Int) :
    (exynos_ss_set_enable env s name en).2 = 0 ∧
    (¬ starts "base" name → (∀ it ∈ s.ess_items, ¬ starts it.name name) →
      (exynos_ss_set_enable env s name en).1 = s) := by
  constructor
  · unfold exynos_ss_set_enable
    split
    · rfl
    · split <;> rfl
  · intro hbase hitems
    have hb : ¬ strncmp name "base" (strlen name) = 0 := by
      rw [strncmp_name_first]; exact hbase
    simp [exynos_ss_set_enable, hb, find_item_unknown s.ess_items name hitems]

theorem set_enable_unknown_name_witness :
    (exynos_ss_set_enable (env_at 0 7) State.initial "nosuch" 1).2 = 0 ∧
    (exynos_ss_set_enable (env_at 0 7) State.initial "nosuch" 1).1 = State.initial :=
  ⟨(set_enable_unknown_name (env_at 0 7) State.initial "nosuch" 1).1,
   (set_enable_unknown_name (env_at 0 7) State.initial "nosuch" 1).2 (by decide) (by decide)⟩

/-- C9: with the engine enabled and log_kevents enabled at init, for a
registered category that is disabled and was last toggled at `t0 = it.time`:
`exynos_ss_try_enable(name, D)` called at clock value `t = env.clock` with
`t - t0 < D` returns 0 and changes nothing, so the category stays disabled. -/
theorem try_enable_still_quiet (env : Env) (s : State) (j : Nat) (it : exynos_ss_item)
    (D : Nat) (hbase : s.ess_base.enabled ≠ 0)
    (hinit : exynos_ss_get_enable s "log_kevents" true ≠ 0)
    (hreg : registry_names_ok s.ess_items) (hj : s.ess_items[j]? = some it)
    (hdis : it.entry.enabled = 0) (hmono : it.time ≤ env.clock) (hclk : env.clock < 2 ^ 64)
    (hq : env.clock - it.time < D) :
    (exynos_ss_try_enable env s it.name D).2 = 0 ∧
    (exynos_ss_try_enable env s it.name D).1 = s ∧
    exynos_ss_get_enable (exynos_ss_try_enable env s it.name D).1 it.name false = 0 := by
  have hf := find_item_registered s.ess_items j it hreg hj
  have hb : ¬ strncmp it.name "base" (strlen it.name) = 0 := by
    rw [strncmp_name_first]; exact hreg.2 it (List.getElem?_mem hj)
  have hsub : ¬ (D < u64_sub env.clock it.time) := by
    unfold u64_sub to_u64; omega
  have h1 : exynos_ss_try_enable env s it.name D = (s, 0) := by
    simp [exynos_ss_try_enable, hbase, hinit, hf, hdis, hsub]
  rw [h1]
  refine ⟨rfl, rfl, ?_⟩
  simp [exynos_ss_get_enable, hb, hf, hdis, int32_wrap]

theorem try_enable_still_quiet_witness :
    (exynos_ss_try_enable (env_at 0 149) quiet_state "log_kernel" 50).2 = 0 ∧
    (exynos_ss_try_enable (env_at 0 149) quiet_state "log_kernel" 50).1 = quiet_state ∧
    exynos_ss_get_enable (exynos_ss_try_enable (env_at 0 149) quiet_state "log_kernel" 50).1
      "log_kernel" false = 0 :=
  try_enable_still_quiet (env_at 0 149) quiet_state 1
    ⟨"log_kernel", ⟨SZ_2M, 0, 0, 0, 0, 1⟩, 0, 0, 100⟩ 50
    (by decide) (by decide) (by unfold registry_names_ok; decide) (by decide) (by decide)
    (by decide) (by decide) (by decide)

/-- C10 (as stated, refuted): log_kernel was disabled at clock value 100, the
engine and log_kevents are on; `exynos_ss_try_enable("log_kernel", 50)` called
at clock value 150, when exactly the duration 50 has elapsed, returns 0 and
leaves log_kernel disabled. -/
theorem try_enable_at_exact_duration :
    quiet_state.ess_base.enabled = 1 ∧
    exynos_ss_get_enable quiet_state "log_kevents" true = 1 ∧
    exynos_ss_get_enable quiet_state "log_kernel" false = 0 ∧
    quiet_state.ess_items[1]? = some ⟨"log_kernel", ⟨SZ_2M, 0, 0, 0, 0, 1⟩, 0, 0, 100⟩ ∧
    (150 : Nat) - 100 ≥ 50 ∧
    (exynos_ss_try_enable (env_at 0 150) quiet_state "log_kernel" 50).2 = 0 ∧
    exynos_ss_get_enable (exynos_ss_try_enable (env_at 0 150) quiet_state "log_kernel" 50).1
      "log_kernel" false = 0 := by
  decide

/-- C10 (amended): with the engine enabled and log_kevents enabled at init, for
a registered category that is disabled and was last toggled at `t0 = it.time`:
`exynos_ss_try_enable(name, D)` called at clock value `t = env.clock` with
`t - t0 > D` (strictly more than `D` elapsed) returns 1 and sets the enabled
flag of that category to 1, leaving the rest of the entry as it was. -/
theorem try_enable_rearms (env : Env) (s : State) (j : Nat) (it : exynos_ss_item)
    (D : Nat) (hbase : s.ess_base.enabled ≠ 0)
    (hinit : exynos_ss_get_enable s "log_kevents" true ≠ 0)
    (hreg : registry_names_ok s.ess_items) (hj : s.ess_items[j]? = some it)
    (hdis : it.entry.enabled = 0) (hmono : it.time ≤ env.clock) (hclk : env.clock < 2 ^ 64)
    (hq : D < env.clock - it.time) :
    (exynos_ss_try_enable env s it.name D).2 = 1 ∧
    (exynos_ss_try_enable env s it.name D).1.ess_items[j]?
      = some { it with entry := { it.entry with enabled := 1 } } ∧
    exynos_ss_get_enable (exynos_ss_try_enable env s it.name D).1 it.name false = 1 := by
  have hf := find_item_registered s.ess_items j it hreg hj
  have hb : ¬ strncmp it.name "base" (strlen it.name) = 0 := by
    rw [strncmp_name_first]; exact hreg.2 it (List.getElem?_mem hj)
  have hsub : D < u64_sub env.clock it.time := by
    unfold u64_sub to_u64; omega
  have h1 : exynos_ss_try_enable env s it.name D
      = ({ s with
           ess_items := s.ess_items.set j { it with entry := { it.entry with enabled := 1 } } },
         1) := by
    simp [exynos_ss_try_enable, hbase, hinit, hf, hdis, hsub]
  rw [h1]
  have hj1 := getElem?_set_some s.ess_items j it
    { it with entry := { it.entry with enabled := 1 } } hj
  have hreg1 := registry_names_ok_set s.ess_items j it
    { it with entry := { it.entry with enabled := 1 } } hreg hj rfl
  have hf1 := find_item_registered _ j _ hreg1 hj1
  simp only [] at hf1
  refine ⟨rfl, hj1, ?_⟩
  simp [exynos_ss_get_enable, hb, hf1, int32_wrap]

theorem try_enable_rearms_witness :
    (exynos_ss_try_enable (env_at 0 151) quiet_state "log_kernel" 50).2 = 1 ∧
    (exynos_ss_try_enable (env_at 0 151) quiet_state "log_kernel" 50).1.ess_items[1]?
      = some ⟨"log_kernel", ⟨SZ_2M, 0, 0, 0, 1, 1⟩, 0, 0, 100⟩ ∧
    exynos_ss_get_enable (exynos_ss_try_enable (env_at 0 151) quiet_state "log_kernel" 50).1
      "log_kernel" false = 1 :=
  try_enable_rearms (env_at 0 151) quiet_state 1
    ⟨"log_kernel", ⟨SZ_2M, 0, 0, 0, 0, 1⟩, 0, 0, 100⟩ 50
    (by decide) (by decide) (by unfold registry_names_ok; decide) (by decide) (by decide)
    (by decide) (by decide) (by decide)

/-! ## The enable test of the recording functions -/

theorem ring_index_1K (x : Int) : ring_index x ESS_LOG_MAX_NUM = (x % 1024).toNat := by
  unfold ring_index ESS_LOG_MAX_NUM SZ_1K
  have h : (0x400 - 1 : Nat) = 2 ^ 10 - 1 := by norm_num
  rw [h, Nat.and_pow_two_sub_one_eq_mod]
  unfold to_u64
  omega

theorem ring_index_2K (x : Int) : ring_index x (ESS_LOG_MAX_NUM * 2) = (x % 2048).toNat := by
  unfold ring_index ESS_LOG_MAX_NUM SZ_1K
  have h : (0x400 * 2 - 1 : Nat) = 2 ^ 11 - 1 := by norm_num
  rw [h, Nat.and_pow_two_sub_one_eq_mod]
  unfold to_u64
  omega

theorem ring_index_inc_1K (c : Int) :
    ring_index (atomic_inc_return c) ESS_LOG_MAX_NUM = ring_index (c + 1) ESS_LOG_MAX_NUM := by
  rw [ring_index_1K, ring_index_1K]; unfold atomic_inc_return int32_wrap; omega

theorem ring_index_inc_2K (c : Int) :
    ring_index (atomic_inc_return c) (ESS_LOG_MAX_NUM * 2)
      = ring_index (c + 1) (ESS_LOG_MAX_NUM * 2) := by
  rw [ring_index_2K, ring_index_2K]; unfold atomic_inc_return int32_wrap; omega

theorem upd_same {α : Type} (a : Nat → α) (i : Nat) (v : α) : upd a i v i = v := by
  simp [upd]

theorem upd2_same {α : Type} (a : Nat → Nat → α) (c i : Nat) (v : α) :
    upd2 a c i v c i = v := by
  simp [upd2]

theorem upd2_other {α : Type} (a : Nat → Nat → α) (c i j : Nat) (v : α) (h : j ≠ i) :
    upd2 a c i v c j = a c j := by
  simp [upd2, h]

theorem record_off (env : Env) (s : State) (call : RecordCall) (hoff : kevents_off s) :
    record env s call = s := by
  cases call <;>
    simp [record, exynos_ss_task, exynos_ss_work, exynos_ss_cpuidle, exynos_ss_suspend,
      exynos_ss_mailbox, exynos_ss_irq, exynos_ss_irq_exit, exynos_ss_spinlock,
      exynos_ss_irqs_disabled, exynos_ss_clk, exynos_ss_freq, exynos_ss_i2c_clk,
      exynos_ss_hrtimer, exynos_ss_clockevent, exynos_ss_printk, exynos_ss_printkl, hoff]

theorem record_all_off (s : State) (hoff : kevents_off s) :
    ∀ calls : List (Env × RecordCall), record_all s calls = s := by
  intro calls
  induction calls with
  | nil => rfl
  | cons c t ih =>
    unfold record_all at ih ⊢
    rw [List.foldl_cons, record_off c.1 s c.2 hoff]
    exact ih

theorem set_enable_kevents (env : Env) (s : State) (it : exynos_ss_item) (en : Int)
    (hreg : registry_names_ok s.ess_items)
    (hk : s.ess_items[s.ess_desc.kevents_num]? = some it) (hname : it.name = "log_kevents") :
    (exynos_ss_set_enable env s "log_kevents" en).1
      = { s with
          ess_items := s.ess_items.set s.ess_desc.kevents_num
            { it with entry := { it.entry with enabled := to_u32 en }, time := env.clock } } := by
  have hf := find_item_registered s.ess_items _ it hreg hk
  rw [hname] at hf
  have hb : ¬ strncmp "log_kevents" "base" (strlen "log_kevents") = 0 := by decide
  simp [exynos_ss_set_enable, hb, hf]

theorem kevents_item_eq (s : State) (it : exynos_ss_item)
    (hk : s.ess_items[s.ess_desc.kevents_num]? = some it) : kevents_item s = it := by
  simp [kevents_item, hk]

/-- C4: every recording function is a no-op when one of its flags is off: if
`ess_base.enabled` is zero, or the enabled flag of log_kevents is zero, or its
enabled_init flag is zero, a call of any recording function with any
arguments returns the state it was given, so no counter and no slot changes.
Consequently, from any state with the engine and the enabled_init flag on:
after `exynos_ss_set_enable("log_kevents", 0)`, any run of recording calls and
`exynos_ss_set_enable("log_kevents", 1)`, all counters and slots are those
from before the disable, and the next `exynos_ss_task`, `exynos_ss_work`,
`exynos_ss_cpuidle`, `exynos_ss_suspend` (capacity 1024) or `exynos_ss_irq`
(capacity 2048, irq not excluded) writes slot `(c + 1) & (capacity - 1)` of
its cpu, `c` being that ring's counter from before the disable. -/
theorem record_gated (env : Env) (s : State) (call : RecordCall) (hoff : kevents_off s) :
    record env s call = s ∧
    (∀ (s0 : State) (env_d env_e env_t : Env) (calls : List (Env × RecordCall))
        (it : exynos_ss_item),
      registry_names_ok s0.ess_items →
      s0.ess_items[s0.ess_desc.kevents_num]? = some it → it.name = "log_kevents" →
      s0.ess_base.enabled ≠ 0 → it.entry.enabled_init ≠ 0 →
      (record_all (exynos_ss_set_enable env_d s0 "log_kevents" 0).1 calls).ess_idx = s0.ess_idx ∧
      (record_all (exynos_ss_set_enable env_d s0 "log_kevents" 0).1 calls).ess_log = s0.ess_log ∧
      (exynos_ss_set_enable env_e
        (record_all (exynos_ss_set_enable env_d s0 "log_kevents" 0).1 calls)
        "log_kevents" 1).1.ess_idx = s0.ess_idx ∧
      (exynos_ss_set_enable env_e
        (record_all (exynos_ss_set_enable env_d s0 "log_kevents" 0).1 calls)
        "log_kevents" 1).1.ess_log = s0.ess_log ∧
      (∀ cpu v_task : Nat,
        (exynos_ss_task env_t (exynos_ss_set_enable env_e
            (record_all (exynos_ss_set_enable env_d s0 "log_kevents" 0).1 calls)
            "log_kevents" 1).1 cpu v_task).ess_log.task cpu
          (ring_index (s0.ess_idx.task_log_idx cpu + 1) ESS_LOG_MAX_NUM)
          = ⟨env_t.clock, v_task, env_t.comm v_task⟩) ∧
      (∀ (worker work fn : Nat) (en : Int),
        (exynos_ss_work env_t (exynos_ss_set_enable env_e
            (record_all (exynos_ss_set_enable env_d s0 "log_kevents" 0).1 calls)
            "log_kevents" 1).1 worker work fn en).ess_log.work env_t.cpu
          (ring_index (s0.ess_idx.work_log_idx env_t.cpu + 1) ESS_LOG_MAX_NUM)
          = ⟨env_t.clock, worker, work, fn, en⟩) ∧
      (∀ (index : Int) (state : Nat) (diff en : Int),
        (exynos_ss_cpuidle env_t (exynos_ss_set_enable env_e
            (record_all (exynos_ss_set_enable env_d s0 "log_kevents" 0).1 calls)
            "log_kevents" 1).1 index state diff en).ess_log.cpuidle env_t.cpu
          (ring_index (s0.ess_idx.cpuidle_log_idx env_t.cpu + 1) ESS_LOG_MAX_NUM)
          = ⟨env_t.clock, index, state, env_t.num_online_cpus, diff, en⟩) ∧
      (∀ (fn dev : Nat) (en : Int),
        (exynos_ss_suspend env_t (exynos_ss_set_enable env_e
            (record_all (exynos_ss_set_enable env_d s0 "log_kevents" 0).1 calls)
            "log_kevents" 1).1 fn dev en).ess_log.suspend env_t.cpu
          (ring_index (s0.ess_idx.suspend_log_idx env_t.cpu + 1) ESS_LOG_MAX_NUM)
          = ⟨env_t.clock, fn, dev, en⟩) ∧
      (∀ (irq : Int) (fn val : Nat) (en : Int),
        s0.ess_irqlog_exlist.any (fun x => decide (irq = x)) = false →
        (exynos_ss_irq env_t (exynos_ss_set_enable env_e
            (record_all (exynos_ss_set_enable env_d s0 "log_kevents" 0).1 calls)
            "log_kevents" 1).1 irq fn val en).ess_log.irq env_t.cpu
          (ring_index (s0.ess_idx.irq_log_idx env_t.cpu + 1) (ESS_LOG_MAX_NUM * 2))
          = ⟨env_t.clock, irq, fn, env_t.preempt_count, val, en⟩)) := by
  refine ⟨record_off env s call hoff, ?_⟩
  intro s0 env_d env_e env_t calls it hreg hk hname hbase hinit
  have h1 := set_enable_kevents env_d s0 it 0 hreg hk hname
  have hk1 := getElem?_set_some s0.ess_items s0.ess_desc.kevents_num it
    { it with entry := { it.entry with enabled := to_u32 0 }, time := env_d.clock } hk
  have hreg1 := registry_names_ok_set s0.ess_items s0.ess_desc.kevents_num it
    { it with entry := { it.entry with enabled := to_u32 0 }, time := env_d.clock } hreg hk rfl
  have hoff1 : kevents_off (exynos_ss_set_enable env_d s0 "log_kevents" 0).1 := by
    rw [h1]
    right; left
    rw [kevents_item_eq _ _ hk1]
    show to_u32 0 = 0
    decide
  rw [record_all_off _ hoff1 calls]
  rw [h1] at *
  have h3 := set_enable_kevents env_e
    { s0 with
      ess_items := s0.ess_items.set s0.ess_desc.kevents_num
        { it with entry := { it.entry with enabled := to_u32 0 }, time := env_d.clock } }
    { it with entry := { it.entry with enabled := to_u32 0 }, time := env_d.clock }
    1 hreg1 hk1 hname
  have hk3 := getElem?_set_some
    (s0.ess_items.set s0.ess_desc.kevents_num
      { it with entry := { it.entry with enabled := to_u32 0 }, time := env_d.clock })
    s0.ess_desc.kevents_num
    { it with entry := { it.entry with enabled := to_u32 0 }, time := env_d.clock }
    { it with entry := { it.entry with enabled := to_u32 1 }, time := env_e.clock } hk1
  simp only [List.set_set] at h3 hk3
  rw [h3]
  have hon : ¬ kevents_off { s0 with
      ess_items := s0.ess_items.set s0.ess_desc.kevents_num
        { it with entry := { it.entry with enabled := to_u32 1 }, time := env_e.clock } } := by
    unfold kevents_off
    rw [kevents_item_eq _ _ hk3]
    have : to_u32 1 ≠ 0 := by decide
    simp [hbase, hinit, this]
  refine ⟨rfl, rfl, rfl, rfl, ?_, ?_, ?_, ?_, ?_⟩
  · intro cpu v_task
    simp only [exynos_ss_task, hon, if_false, ring_index_inc_1K, upd2_same]
  · intro worker work fn en
    simp only [exynos_ss_work, hon, if_false, ring_index_inc_1K, upd2_same]
  · intro index state diff en
    simp only [exynos_ss_cpuidle, hon, if_false, ring_index_inc_1K, upd2_same]
  · intro fn dev en
    simp only [exynos_ss_suspend, hon, if_false, ring_index_inc_1K, upd2_same]
  · intro irq fn val en hex
    simp only [exynos_ss_irq, hon, if_false, hex, ring_index_inc_2K]
    exact upd2_same _ _ _ _

theorem record_gated_witness :
    kevents_off State.initial ∧
    record (env_at 0 5) State.initial (RecordCall.task 0 9) = State.initial ∧
    (exynos_ss_task (env_at 0 30) (exynos_ss_set_enable (env_at 0 20)
        (record_all (exynos_ss_set_enable (env_at 0 10) engine_on_state "log_kevents" 0).1
          [(env_at 0 11, RecordCall.task 0 9), (env_at 0 12, RecordCall.printkl 1 2)])
        "log_kevents" 1).1 0 77).ess_log.task 0
      (ring_index (engine_on_state.ess_idx.task_log_idx 0 + 1) ESS_LOG_MAX_NUM)
      = ⟨30, 77, 77⟩ :=
  ⟨by decide,
   (record_gated (env_at 0 5) State.initial (RecordCall.task 0 9) (by decide)).1,
   ((record_gated (env_at 0 5) State.initial (RecordCall.task 0 9) (by decide)).2
      engine_on_state (env_at 0 10) (env_at 0 20) (env_at 0 30)
      [(env_at 0 11, RecordCall.task 0 9), (env_at 0 12, RecordCall.printkl 1 2)]
      ⟨"log_kevents", ⟨SZ_8M, 0, 0, 0, 1, 1⟩, 0, 0, 0⟩
      (by unfold registry_names_ok; decide) (by decide) (by decide) (by decide)
      (by decide)).2.2.2.2.1 0 77⟩

/-! ## The task ring -/

theorem task_run_snoc (s : State) (cpu : Nat) (calls : List (Env × Nat)) (c : Env × Nat) :
    task_run s cpu (calls ++ [c]) = exynos_ss_task c.1 (task_run s cpu calls) cpu c.2 := by
  simp [task_run, List.foldl_append]

theorem exynos_ss_task_gate (env : Env) (s : State) (cpu v_task : Nat) :
    kevents_off (exynos_ss_task env s cpu v_task) ↔ kevents_off s := by
  unfold exynos_ss_task
  split
  · rfl
  · rfl

theorem task_run_invariant (s : State) (cpu : Nat) (hon : ¬ kevents_off s)
    (hc : s.ess_idx.task_log_idx cpu = -1) (calls : List (Env × Nat)) :
    ¬ kevents_off (task_run s cpu calls) ∧
    (task_run s cpu calls).ess_idx.task_log_idx cpu = int32_wrap ((calls.length : Int) - 1) ∧
    (∀ (i k : Nat) (e : Env) (t : Nat), calls[k]? = some (e, t) → k % 1024 = i →
      (∀ k1, k < k1 → k1 < calls.length → k1 % 1024 ≠ i) →
      (task_run s cpu calls).ess_log.task cpu i = ⟨e.clock, t, e.comm t⟩) ∧
    (∀ i : Nat, (∀ k, k < calls.length → k % 1024 ≠ i) →
      (task_run s cpu calls).ess_log.task cpu i = s.ess_log.task cpu i) := by
  induction calls using List.reverseRecOn with
  | nil =>
    refine ⟨hon, ?_, ?_, ?_⟩
    · simpa [task_run, int32_wrap] using hc
    · intro i k e t hk; simp at hk
    · intro i _; rfl
  | append_singleton calls c ih =>
    obtain ⟨ihon, ihc, ihA, ihB⟩ := ih
    rw [task_run_snoc]
    have hidx : ring_index (atomic_inc_return
        ((task_run s cpu calls).ess_idx.task_log_idx cpu)) ESS_LOG_MAX_NUM
        = calls.length % 1024 := by
      rw [ring_index_1K, ihc]; unfold atomic_inc_return int32_wrap; omega
    have hlog : (exynos_ss_task c.1 (task_run s cpu calls) cpu c.2).ess_log.task
        = upd2 (task_run s cpu calls).ess_log.task cpu (calls.length % 1024)
            ⟨c.1.clock, c.2, c.1.comm c.2⟩ := by
      simp only [exynos_ss_task, ihon, if_false, hidx]
    refine ⟨(exynos_ss_task_gate _ _ _ _).not.2 ihon, ?_, ?_, ?_⟩
    · simp only [exynos_ss_task, ihon, if_false, upd_same, ihc, List.length_append,
        List.length_singleton]
      unfold atomic_inc_return int32_wrap
      push_cast
      omega
    · intro i k e t hk hki hmax
      rw [hlog]
      rw [List.length_append, List.length_singleton] at hmax
      by_cases hkn : k < calls.length
      · rw [List.getElem?_append_left hkn] at hk
        have hne : i ≠ calls.length % 1024 := fun h =>
          hmax calls.length hkn (by omega) h.symm
        rw [upd2_other _ _ _ _ _ hne]
        exact ihA i k e t hk hki (fun k1 h1 h2 => hmax k1 h1 (by omega))
      · have hkeq : k = calls.length := by
          by_contra hne
          have : (calls ++ [c])[k]? = none := by
            apply List.getElem?_eq_none
            simp
            omega
          rw [this] at hk
          cases hk
        subst hkeq
        simp only [List.getElem?_concat_length, Option.some.injEq] at hk
        subst hk
        rw [← hki, upd2_same]
    · intro i hall
      rw [hlog]
      rw [List.length_append, List.length_singleton] at hall
      have hne : i ≠ calls.length % 1024 := fun h => hall calls.length (by omega) h.symm
      rw [upd2_other _ _ _ _ _ hne]
      exact ihB i (fun k hk => hall k (by omega))

theorem fixmap_header_resets_task (cfg : Platform) (s : State) (cpu : Nat)
    (hinit : exynos_ss_get_enable s "log_kevents" true ≠ 0) (hcpu : cpu < cfg.NR_CPUS) :
    (exynos_ss_fixmap_header cfg s).ess_idx.task_log_idx cpu = -1 ∧
    ∀ i, (exynos_ss_fixmap_header cfg s).ess_log.task cpu i = ⟨0, 0, 0⟩ := by
  have h : exynos_ss_get_enable
      { s with
        mem := memcpy s.mem (kevents_item s).entry.vaddr (exynos_ss_base_bytes s.ess_base)
          sizeof_exynos_ss_base,
        ess_mmu_reg := fun i =>
          if i < cfg.NR_CPUS then
            u64_add (kevents_item s).entry.vaddr (ESS_HEADER_SZ + i * ESS_MMU_REG_OFFSET)
          else s.ess_mmu_reg i,
        ess_core_reg := fun i =>
          if i < cfg.NR_CPUS then
            u64_add (kevents_item s).entry.vaddr
              (ESS_HEADER_SZ + ESS_MMU_REG_SZ + i * ESS_CORE_REG_OFFSET)
          else s.ess_core_reg i } "log_kevents" true ≠ 0 := hinit
  unfold exynos_ss_fixmap_header
  simp only [h, if_false]
  exact ⟨by simp [reset_log_idx, hcpu], fun i => rfl⟩

/-- C3: starting from a state as header initialisation leaves it (the task
counter of the cpu is -1 and its slots are zero) with the engine, log_kevents
and its enabled_init flag on, after the calls `exynos_ss_task(cpu, t_k)` for
`k = 0 .. N-1` in order: a slot `i < 1024` holds `t_k` for the largest `k < N`
with `k mod 1024 = i`, and is still zero when there is no such `k`.  Hence for
`N <= 1024` slot `k` holds write `k` for every `k < N`, and for `N > 1024`
each of the most recent 1024 writes `k` is held by slot `k mod 1024`. -/
theorem task_ring_contents (s : State) (cpu : Nat) (calls : List (Env × Nat))
    (hon : ¬ kevents_off s) (hc : s.ess_idx.task_log_idx cpu = -1)
    (hz : ∀ i, s.ess_log.task cpu i = ⟨0, 0, 0⟩) :
    (∀ (i k : Nat) (e : Env) (t : Nat), i < 1024 → calls[k]? = some (e, t) → k % 1024 = i →
      (∀ k1, k < k1 → k1 < calls.length → k1 % 1024 ≠ i) →
      ((task_run s cpu calls).ess_log.task cpu i).task = t) ∧
    (∀ i : Nat, i < 1024 → (∀ k, k < calls.length → k % 1024 ≠ i) →
      (task_run s cpu calls).ess_log.task cpu i = ⟨0, 0, 0⟩) ∧
    (calls.length ≤ 1024 → ∀ (k : Nat) (e : Env) (t : Nat), calls[k]? = some (e, t) →
      ((task_run s cpu calls).ess_log.task cpu k).task = t) ∧
    (1024 < calls.length → ∀ (k : Nat) (e : Env) (t : Nat), calls.length - 1024 ≤ k →
      calls[k]? = some (e, t) →
      ((task_run s cpu calls).ess_log.task cpu (k % 1024)).task = t) := by
  obtain ⟨_, _, hA, hB⟩ := task_run_invariant s cpu hon hc calls
  refine ⟨?_, ?_, ?_, ?_⟩
  · intro i k e t _ hk hki hmax
    rw [hA i k e t hk hki hmax]
  · intro i _ hall
    rw [hB i hall, hz]
  · intro hlen k e t hk
    have hklt : k < calls.length := (List.getElem?_eq_some.1 hk).1
    rw [hA k k e t hk (by omega) (fun k1 h1 h2 => by omega)]
  · intro hlen k e t hlo hk
    have hklt : k < calls.length := (List.getElem?_eq_some.1 hk).1
    rw [hA (k % 1024) k e t hk rfl (fun k1 h1 h2 => by omega)]

theorem task_ring_contents_witness :
    ¬ kevents_off boot_state ∧ boot_state.ess_idx.task_log_idx 0 = -1 ∧
    ((task_run boot_state 0 [(env_at 0 10, 501), (env_at 0 20, 502)]).ess_log.task 0 1).task
      = 502 :=
  ⟨by decide, by decide,
   (task_ring_contents boot_state 0 [(env_at 0 10, 501), (env_at 0 20, 502)]
      (by decide) (by decide)
      (fixmap_header_resets_task platform8 State.initial 0 (by decide) (by decide)).2).2.2.1
      (by decide) 1 (env_at 0 20) 502 rfl⟩

/-! ## The write cursor of the byte-stream categories -/

theorem find_item_loop_some (name : String) :
    ∀ (l : List exynos_ss_item) (i0 i : Nat) (it : exynos_ss_item),
      find_item_loop name l i0 = some (i, it) → i0 ≤ i ∧ l[i - i0]? = some it := by
  intro l
  induction l with
  | nil => intro i0 i it h; simp [find_item_loop] at h
  | cons a t ih =>
    intro i0 i it h
    unfold find_item_loop at h
    split at h
    · simp only [Option.some.injEq, Prod.mk.injEq] at h
      obtain ⟨rfl, rfl⟩ := h
      simp
    · obtain ⟨h1, h2⟩ := ih (i0 + 1) i it h
      refine ⟨by omega, ?_⟩
      have : i - i0 = (i - (i0 + 1)) + 1 := by omega
      rw [this, List.getElem?_cons_succ]
      exact h2

theorem find_item_some (items : List exynos_ss_item) (name : String) (start i : Nat)
    (it : exynos_ss_item) (h : find_item items name start = some (i, it)) :
    items[i]? = some it := by
  unfold find_item at h
  obtain ⟨h1, h2⟩ := find_item_loop_some name _ start i it h
  rw [List.getElem?_drop] at h2
  have : start + (i - start) = i := by omega
  rw [this] at h2
  exact h2

/-- C5 (as stated, refuted): in a booted engine log_platform and log_kernel
start with `curr_ptr = head_ptr`, inside the claimed bound.  A record of
exactly the capacity leaves `curr_ptr = head_ptr + entry.size`, which is not
below the end of the buffer (for `exynos_ss_hook_logger` and for
`exynos_ss_hook_logbuf`), and a record one byte longer than the capacity leaves
`curr_ptr = head_ptr + entry.size + 1`. -/
theorem append_cursor_leaves_range :
    stream_state.ess_base.enabled = 1 ∧
    stream_state.ess_items[2]? = some ⟨"log_platform",
      ⟨0x400000, 0xffffff80f6a00000, 0x46a00000, 0, 1, 1⟩,
      0xffffff80f6a00000, 0xffffff80f6a00000, 0⟩ ∧
    cursor_in_range ⟨"log_platform", ⟨0x400000, 0xffffff80f6a00000, 0x46a00000, 0, 1, 1⟩,
      0xffffff80f6a00000, 0xffffff80f6a00000, 0⟩ ∧
    (exynos_ss_hook_logger stream_state "log_platform" (fun _ => 65) 0x400000).ess_items[2]?
      = some ⟨"log_platform", ⟨0x400000, 0xffffff80f6a00000, 0x46a00000, 0, 1, 1⟩,
          0xffffff80f6a00000, 0xffffff80f6a00000 + 0x400000, 0⟩ ∧
    ¬ cursor_in_range ⟨"log_platform", ⟨0x400000, 0xffffff80f6a00000, 0x46a00000, 0, 1, 1⟩,
      0xffffff80f6a00000, 0xffffff80f6a00000 + 0x400000, 0⟩ ∧
    (exynos_ss_hook_logger stream_state "log_platform" (fun _ => 65) 0x400001).ess_items[2]?
      = some ⟨"log_platform", ⟨0x400000, 0xffffff80f6a00000, 0x46a00000, 0, 1, 1⟩,
          0xffffff80f6a00000, 0xffffff80f6a00000 + 0x400001, 0⟩ ∧
    stream_state.ess_items[1]? = some ⟨"log_kernel",
      ⟨0x200000, 0xffffff80f6800000, 0x46800000, 0, 1, 1⟩,
      0xffffff80f6800000, 0xffffff80f6800000, 0⟩ ∧
    cursor_in_range ⟨"log_kernel", ⟨0x200000, 0xffffff80f6800000, 0x46800000, 0, 1, 1⟩,
      0xffffff80f6800000, 0xffffff80f6800000, 0⟩ ∧
    (exynos_ss_hook_logbuf platform8 stream_state (fun _ => 65) 0x200000).ess_items[1]?
      = some ⟨"log_kernel", ⟨0x200000, 0xffffff80f6800000, 0x46800000, 0, 1, 1⟩,
          0xffffff80f6800000, 0xffffff80f6800000 + 0x200000, 0⟩ ∧
    ¬ cursor_in_range ⟨"log_kernel", ⟨0x200000, 0xffffff80f6800000, 0x46800000, 0, 1, 1⟩,
      0xffffff80f6800000, 0xffffff80f6800000 + 0x200000, 0⟩ := by
  decide

theorem appended_cursor_within (it : exynos_ss_item) (size : Nat)
    (hinv : cursor_within it) (hsize : size ≤ it.entry.size)
    (hfit : it.head_ptr + it.entry.size + size < 2 ^ 64) :
    cursor_within { it with
      curr_ptr := u64_add (if exynos_ss_check_eob it size ≠ 0 then it.head_ptr
        else it.curr_ptr) size } := by
  unfold cursor_within at hinv ⊢
  unfold exynos_ss_check_eob u64_add
  simp only []
  have h1 : (it.head_ptr + it.entry.size) % 2 ^ 64 = it.head_ptr + it.entry.size :=
    Nat.mod_eq_of_lt (by omega)
  have h2 : (it.curr_ptr + size) % 2 ^ 64 = it.curr_ptr + size :=
    Nat.mod_eq_of_lt (by omega)
  rw [h1, h2]
  by_cases hgt : it.curr_ptr + size > it.head_ptr + it.entry.size
  · simp only [hgt, if_true]
    have h3 : (it.head_ptr + size) % 2 ^ 64 = it.head_ptr + size :=
      Nat.mod_eq_of_lt (by omega)
    simp only [ne_eq, Int.reduceNeg, neg_eq_zero, one_ne_zero, not_false_eq_true, if_true, h3]
    omega
  · simp only [hgt, if_false, ne_eq, not_true_eq_false, h2]
    omega

/-- C5 (amended): for the byte-stream categories the cursor bound with the end
included, `head_ptr ≤ curr_ptr ≤ head_ptr + entry.size`, is preserved by every
append of a record no longer than the capacity (the addresses staying below
`2 ^ 64`): starting from an entry satisfying it, after
`exynos_ss_hook_logger(name, buf, size)` on the category the name selects, and
after `exynos_ss_hook_logbuf(buf, size)` on log_kernel, the entry has the same
`head_ptr` and `entry` and its `curr_ptr` satisfies the bound again. -/
theorem append_keeps_cursor_within (cfg : Platform) (s : State) (buf : Nat → Nat) (size : Nat)
    (it : exynos_ss_item) (hinv : cursor_within it) (hsize : size ≤ it.entry.size)
    (hfit : it.head_ptr + it.entry.size + size < 2 ^ 64) :
    (∀ (name : String) (i : Nat),
      find_item s.ess_items name s.ess_desc.log_platform_num = some (i, it) →
      ∃ it1, (exynos_ss_hook_logger s name buf size).ess_items[i]? = some it1 ∧
        it1.head_ptr = it.head_ptr ∧ it1.entry = it.entry ∧ cursor_within it1) ∧
    (s.ess_items[s.ess_desc.log_kernel_num]? = some it →
      ∃ it1, (exynos_ss_hook_logbuf cfg s buf size).ess_items[s.ess_desc.log_kernel_num]?
          = some it1 ∧
        it1.head_ptr = it.head_ptr ∧ it1.entry = it.entry ∧ cursor_within it1) := by
  have hnew := appended_cursor_within it size hinv hsize hfit
  constructor
  · intro name i hfind
    have hi := find_item_some _ _ _ _ _ hfind
    unfold exynos_ss_hook_logger
    rw [hfind]
    by_cases hen : s.ess_base.enabled = 1 ∧ it.entry.enabled = 1
    · simp only [hen, and_self, if_true]
      exact ⟨_, getElem?_set_some _ _ _ _ hi, rfl, rfl, hnew⟩
    · simp only [hen, if_false]
      exact ⟨it, hi, rfl, rfl, hinv⟩
  · intro hk
    unfold exynos_ss_hook_logbuf
    rw [hk]
    by_cases hen : s.ess_base.enabled = 1 ∧ it.entry.enabled = 1
    · simp only [hen, and_self, if_true]
      exact ⟨_, getElem?_set_some _ _ _ _ hk, rfl, rfl, hnew⟩
    · simp only [hen, if_false]
      exact ⟨it, hk, rfl, rfl, hinv⟩

theorem append_keeps_cursor_within_witness :
    (∃ it1, (exynos_ss_hook_logger stream_state "log_platform" (fun _ => 65) 0x400000).ess_items[2]?
        = some it1 ∧
      it1.head_ptr = 0xffffff80f6a00000 ∧
      it1.entry = ⟨0x400000, 0xffffff80f6a00000, 0x46a00000, 0, 1, 1⟩ ∧ cursor_within it1) :=
  (append_keeps_cursor_within platform8 stream_state (fun _ => 65) 0x400000
    ⟨"log_platform", ⟨0x400000, 0xffffff80f6a00000, 0x46a00000, 0, 1, 1⟩,
      0xffffff80f6a00000, 0xffffff80f6a00000, 0⟩
    (by decide) (by decide) (by decide)).1 "log_platform" 2 (by decide)

/-! ## The layout `exynos_ss_remap` assigns -/

theorem u64_add_zero (a : Nat) (h : a < 2 ^ 64) : u64_add a 0 = a := by
  unfold u64_add; omega

theorem u64_add_assoc (a b c : Nat) : u64_add (u64_add a b) c = u64_add a (b + c) := by
  unfold u64_add; omega

theorem u64_add_lt (a b : Nat) : u64_add a b < 2 ^ 64 := by
  unfold u64_add; omega

theorem remap_loop_get (kn : Nat) (nh : Bool) :
    ∀ (l : List exynos_ss_item) (i pv pp c k : Nat) (it : exynos_ss_item),
      pv < 2 ^ 64 → pp < 2 ^ 64 → l[k]? = some it →
      (remap_loop kn nh l i pv pp c).1[k]? = some
        (if i + k = kn ∨ it.entry.enabled_init ≠ 0 then
          placed it pv pp (alloc_before kn nh l i k)
        else it) := by
  intro l
  induction l with
  | nil => intro i pv pp c k it _ _ h; simp at h
  | cons a t ih =>
    intro i pv pp c k it hv hp hk
    cases k with
    | zero =>
      simp only [List.getElem?_cons_zero, Option.some.injEq] at hk
      subst hk
      unfold remap_loop
      by_cases hc : i = kn ∨ a.entry.enabled_init ≠ 0
      · simp only [hc, if_true, Nat.add_zero, List.getElem?_cons_zero, alloc_before, placed,
          u64_add_zero pv hv, u64_add_zero pp hp]
      · simp only [hc, if_false, Nat.add_zero, List.getElem?_cons_zero]
    | succ k =>
      simp only [List.getElem?_cons_succ] at hk
      have hidx : i + (k + 1) = i + 1 + k := by omega
      unfold remap_loop
      by_cases hc : i = kn ∨ a.entry.enabled_init ≠ 0
      · simp only [hc, if_true, List.getElem?_cons_succ]
        rw [ih (i + 1) _ _ _ k it (u64_add_lt _ _) (u64_add_lt _ _) hk, hidx]
        simp only [placed, u64_add_assoc, alloc_before, item_alloc, hc, if_true]
      · simp only [hc, if_false, List.getElem?_cons_succ]
        rw [ih (i + 1) pv pp c k it hv hp hk, hidx]
        simp only [alloc_before, item_alloc, hc, if_false, Nat.zero_add]

theorem alloc_before_succ (kn : Nat) (nh : Bool) :
    ∀ (l : List exynos_ss_item) (i k : Nat) (it : exynos_ss_item), l[k]? = some it →
      alloc_before kn nh l i (k + 1) = alloc_before kn nh l i k + item_alloc kn nh (i + k) it := by
  intro l
  induction l with
  | nil => intro i k it h; simp at h
  | cons a t ih =>
    intro i k it hk
    cases k with
    | zero =>
      simp only [List.getElem?_cons_zero, Option.some.injEq] at hk
      subst hk
      cases t <;> simp [alloc_before]
    | succ k =>
      simp only [List.getElem?_cons_succ] at hk
      have hidx : i + (k + 1) = i + 1 + k := by omega
      rw [alloc_before, ih (i + 1) k it hk, hidx]
      simp only [alloc_before]
      omega

theorem alloc_before_skip (kn : Nat) (nh : Bool) (l : List exynos_ss_item) (i0 i : Nat) :
    ∀ d : Nat, (∀ k c, i ≤ k → k < i + d → l[k]? = some c → item_alloc kn nh (i0 + k) c = 0) →
      i + d ≤ l.length →
      alloc_before kn nh l i0 (i + d) = alloc_before kn nh l i0 i := by
  intro d
  induction d with
  | zero => intro _ _; rfl
  | succ d ih =>
    intro h hlen
    have hlt : i + d < l.length := by omega
    have hget : l[i + d]? = some l[i + d] := List.getElem?_eq_getElem hlt
    have hstep := alloc_before_succ kn nh l i0 (i + d) _ hget
    have hz := h (i + d) _ (by omega) (by omega) hget
    have hprev := ih (fun k c h1 h2 h3 => h k c h1 (by omega) h3) (by omega)
    rw [show i + (d + 1) = i + d + 1 by omega, hstep, hz, hprev]
    omega

theorem alloc_before_mono (kn : Nat) (nh : Bool) (l : List exynos_ss_item) (i0 i : Nat) :
    ∀ d : Nat, i + d ≤ l.length →
      alloc_before kn nh l i0 i ≤ alloc_before kn nh l i0 (i + d) := by
  intro d
  induction d with
  | zero => intro _; exact le_refl _
  | succ d ih =>
    intro hlen
    have hlt : i + d < l.length := by omega
    have hget : l[i + d]? = some l[i + d] := List.getElem?_eq_getElem hlt
    have hstep := alloc_before_succ kn nh l i0 (i + d) _ hget
    have hprev := ih (by omega)
    rw [show i + (d + 1) = i + d + 1 by omega, hstep]
    omega

theorem remap_items_get (s : State) (hv : s.ess_base.vaddr < 2 ^ 64)
    (hp : s.ess_base.paddr < 2 ^ 64) (k : Nat) (it : exynos_ss_item)
    (hk : s.ess_items[k]? = some it) :
    (exynos_ss_remap 0 s).1.ess_items[k]? = some
      (if k = s.ess_desc.kevents_num ∨ it.entry.enabled_init ≠ 0 then
        placed it s.ess_base.vaddr s.ess_base.paddr
          (alloc_before s.ess_desc.kevents_num s.ess_desc.need_header s.ess_items 0 k)
      else it) := by
  have h := remap_loop_get s.ess_desc.kevents_num s.ess_desc.need_header s.ess_items 0
    s.ess_base.vaddr s.ess_base.paddr 0 k it hv hp hk
  simp only [Nat.zero_add] at h
  simpa [exynos_ss_remap] using h

/-- C11: after `exynos_ss_remap` (the mapping succeeding), on a table whose
first entry is log_kevents: two categories enabled at init with no category
enabled at init between them lie back to back, in 64-bit address arithmetic
`head_ptr(b) = head_ptr(a) + size(a)` and `paddr(b) = paddr(a) + size(a)`;
every assigned category has `curr_ptr = head_ptr = entry.vaddr` and the same
offset from `ess_base.vaddr` as from `ess_base.paddr`; and a category that is
neither enabled at init nor log_kevents is left exactly as it was (so with zero
addresses and NULL pointers, as the table initialises them). -/
theorem remap_layout (s : State) (hv : s.ess_base.vaddr < 2 ^ 64)
    (hp : s.ess_base.paddr < 2 ^ 64) (hk : s.ess_desc.kevents_num = 0)
    (hnh : s.ess_desc.need_header = true → (kevents_item s).entry.enabled_init = 0) :
    (∀ (i j : Nat) (a b a1 b1 : exynos_ss_item), i < j →
      s.ess_items[i]? = some a → s.ess_items[j]? = some b →
      a.entry.enabled_init ≠ 0 → b.entry.enabled_init ≠ 0 →
      (∀ k c, i < k → k < j → s.ess_items[k]? = some c → c.entry.enabled_init = 0) →
      (exynos_ss_remap 0 s).1.ess_items[i]? = some a1 →
      (exynos_ss_remap 0 s).1.ess_items[j]? = some b1 →
      b1.head_ptr = u64_add a1.head_ptr a.entry.size ∧
      b1.entry.paddr = u64_add a1.entry.paddr a.entry.size ∧
      a1.entry.size = a.entry.size) ∧
    (∀ (i : Nat) (a a1 : exynos_ss_item), s.ess_items[i]? = some a →
      (i = s.ess_desc.kevents_num ∨ a.entry.enabled_init ≠ 0) →
      (exynos_ss_remap 0 s).1.ess_items[i]? = some a1 →
      a1.curr_ptr = a1.head_ptr ∧ a1.head_ptr = a1.entry.vaddr ∧
      u64_sub a1.entry.vaddr s.ess_base.vaddr = u64_sub a1.entry.paddr s.ess_base.paddr) ∧
    (∀ (i : Nat) (a : exynos_ss_item), s.ess_items[i]? = some a →
      i ≠ s.ess_desc.kevents_num → a.entry.enabled_init = 0 →
      (exynos_ss_remap 0 s).1.ess_items[i]? = some a) := by
  refine ⟨?_, ?_, ?_⟩
  · intro i j a b a1 b1 hij ha hb hae hbe hbetween ha1 hb1
    rw [remap_items_get s hv hp i a ha] at ha1
    rw [remap_items_get s hv hp j b hb] at hb1
    simp only [hae, hbe, ne_eq, not_false_eq_true, or_true, if_true, Option.some.injEq] at ha1 hb1
    subst ha1
    subst hb1
    have hjlen : j < s.ess_items.length := (List.getElem?_eq_some.1 hb).1
    have hskip := alloc_before_skip s.ess_desc.kevents_num s.ess_desc.need_header s.ess_items 0
      (i + 1) (j - (i + 1)) (by
        intro k c h1 h2 h3
        have hc := hbetween k c (by omega) (by omega) h3
        simp only [item_alloc, Nat.zero_add, hc, ne_eq, not_true_eq_false, or_false]
        have : ¬ k = s.ess_desc.kevents_num := by omega
        simp [this]) (by omega)
    rw [show i + 1 + (j - (i + 1)) = j by omega] at hskip
    have hstep := alloc_before_succ s.ess_desc.kevents_num s.ess_desc.need_header s.ess_items 0
      i a ha
    have halloc : item_alloc s.ess_desc.kevents_num s.ess_desc.need_header (0 + i) a
        = a.entry.size := by
      simp only [item_alloc, Nat.zero_add, hae, ne_eq, not_false_eq_true, or_true, if_true]
      by_cases hc : i = s.ess_desc.kevents_num ∧ s.ess_desc.need_header = true
      · exfalso
        have hkev : kevents_item s = a := by
          unfold kevents_item
          rw [← hc.1]
          simp [ha]
        have := hnh hc.2
        rw [hkev] at this
        exact hae this
      · simp [hc]
    simp only [placed, hskip, hstep, halloc, u64_add_assoc, and_self]
  · intro i a a1 ha hassigned ha1
    rw [remap_items_get s hv hp i a ha] at ha1
    simp only [hassigned, if_true, Option.some.injEq] at ha1
    subst ha1
    refine ⟨rfl, rfl, ?_⟩
    simp only [placed]
    unfold u64_sub u64_add to_u64
    omega
  · intro i a ha hi hae
    rw [remap_items_get s hv hp i a ha]
    simp [hi, hae]

theorem remap_layout_witness :
    (exynos_ss_remap 0 reserved_state).1.ess_items[0]?
      = some ⟨"log_kevents", ⟨SZ_8M, 0xF6000000, 0x46000000, 0, 1, 1⟩, 0xF6000000, 0xF6000000, 0⟩ ∧
    (exynos_ss_remap 0 reserved_state).1.ess_items[1]?
      = some ⟨"log_kernel", ⟨SZ_2M, 0xF6800000, 0x46800000, 0, 1, 1⟩, 0xF6800000, 0xF6800000, 0⟩ ∧
    (0xF6800000 = u64_add 0xF6000000 SZ_8M ∧ 0x46800000 = u64_add 0x46000000 SZ_8M ∧
      SZ_8M = SZ_8M) :=
  ⟨by decide, by decide,
   (remap_layout reserved_state (by decide) (by decide) (by decide) (by decide)).1 0 1
    ⟨"log_kevents", ⟨SZ_8M, 0, 0, 0, 1, 1⟩, 0, 0, 0⟩ ⟨"log_kernel", ⟨SZ_2M, 0, 0, 0, 1, 1⟩, 0, 0, 0⟩
    ⟨"log_kevents", ⟨SZ_8M, 0xF6000000, 0x46000000, 0, 1, 1⟩, 0xF6000000, 0xF6000000, 0⟩
    ⟨"log_kernel", ⟨SZ_2M, 0xF6800000, 0x46800000, 0, 1, 1⟩, 0xF6800000, 0xF6800000, 0⟩
    (by decide) (by decide) (by decide) (by decide) (by decide)
    (fun k c h1 h2 _ => by omega) (by decide) (by decide)⟩

/-! ## The region `exynos_ss_setup` reserves -/

theorem init_desc_loop_need_header :
    ∀ (l : List exynos_ss_item) (i : Nat) (d : exynos_ss_desc),
      (init_desc_loop l i d).need_header = d.need_header := by
  intro l
  induction l with
  | nil => intro i d; rfl
  | cons a t ih =>
    intro i d
    unfold init_desc_loop
    simp only []
    rw [ih]
    split_ifs <;> rfl

theorem init_desc_loop_kevents :
    ∀ (l : List exynos_ss_item) (i : Nat) (d : exynos_ss_desc),
      (init_desc_loop l i d).kevents_num = d.kevents_num ∨
        (i ≤ (init_desc_loop l i d).kevents_num ∧
          (init_desc_loop l i d).kevents_num < i + l.length) := by
  intro l
  induction l with
  | nil => intro i d; left; rfl
  | cons a t ih =>
    intro i d
    have key : ∀ d1 : exynos_ss_desc, (d1.kevents_num = d.kevents_num ∨ d1.kevents_num = i) →
        ((init_desc_loop t (i + 1) d1).kevents_num = d.kevents_num ∨
          (i ≤ (init_desc_loop t (i + 1) d1).kevents_num ∧
            (init_desc_loop t (i + 1) d1).kevents_num < i + (t.length + 1))) := by
      intro d1 hd1
      rcases ih (i + 1) d1 with h | h
      · rcases hd1 with h1 | h1
        · left; rw [h, h1]
        · right; rw [h, h1]; omega
      · right; omega
    unfold init_desc_loop
    try simp only [List.length_cons]
    split_ifs
    all_goals
      apply key
      first
      | (right; rfl)
      | (left; rfl)

theorem setup_size_loop_eq :
    ∀ (l : List exynos_ss_item) (size : Nat), size + enabled_capacity l < 2 ^ 64 →
      setup_size_loop l size = size + enabled_capacity l := by
  intro l
  induction l with
  | nil => intro size _; rfl
  | cons a t ih =>
    intro size h
    unfold setup_size_loop
    unfold enabled_capacity at h ⊢
    by_cases he : a.entry.enabled_init = 0
    · simp only [he, ne_eq, not_true_eq_false, if_false, Nat.zero_add] at h ⊢
      exact ih _ h
    · simp only [he, ne_eq, not_false_eq_true, if_true] at h ⊢
      have : u64_add size a.entry.size = size + a.entry.size := by
        unfold u64_add; omega
      rw [this, ih _ (by omega)]
      omega

theorem remap_loop_length (kn : Nat) (nh : Bool) :
    ∀ (l : List exynos_ss_item) (i pv pp c : Nat),
      (remap_loop kn nh l i pv pp c).1.length = l.length := by
  intro l
  induction l with
  | nil => intro i pv pp c; rfl
  | cons a t ih =>
    intro i pv pp c
    unfold remap_loop
    split_ifs <;> simp [ih]

theorem alloc_total (kn : Nat) (nh : Bool) :
    ∀ (l : List exynos_ss_item) (i : Nat),
      (∀ k it, l[k]? = some it → i + k = kn → (nh = true ↔ it.entry.enabled_init = 0)) →
      alloc_before kn nh l i l.length
        = enabled_capacity l
          + (if nh = true ∧ i ≤ kn ∧ kn < i + l.length then ESS_HEADER_ALLOC_SZ else 0) := by
  intro l
  induction l with
  | nil =>
    intro i _
    have : ¬ (nh = true ∧ i ≤ kn ∧ kn < i) := fun ⟨_, h2, h3⟩ => by omega
    simp [alloc_before, enabled_capacity, this]
  | cons a t ih =>
    intro i h
    have iht := ih (i + 1) (fun k it hk hik => h (k + 1) it (by simpa using hk) (by omega))
    have ha := h 0 a (by simp)
    simp only [List.length_cons, alloc_before, enabled_capacity, iht, item_alloc]
    by_cases hik : i = kn
    · have ha1 := ha (by omega)
      have c2 : ¬ (nh = true ∧ i + 1 ≤ kn ∧ kn < i + 1 + t.length) :=
        fun ⟨_, h2, _⟩ => by omega
      rw [if_neg c2, if_pos (Or.inl hik)]
      by_cases hnh : nh = true
      · have hz := ha1.1 hnh
        have c1 : nh = true ∧ i ≤ kn ∧ kn < i + (t.length + 1) := ⟨hnh, by omega, by omega⟩
        rw [if_pos c1, if_pos ⟨hik, hnh⟩, if_neg (fun hne => hne hz)]
        omega
      · have hz : a.entry.enabled_init ≠ 0 := fun h0 => hnh (ha1.2 h0)
        rw [if_neg (fun hc => hnh hc.2), if_pos hz, if_neg (fun hc => hnh hc.1)]
        omega
    · have c : (nh = true ∧ i ≤ kn ∧ kn < i + (t.length + 1))
          ↔ (nh = true ∧ i + 1 ≤ kn ∧ kn < i + 1 + t.length) := by
        constructor
        · rintro ⟨h1, h2, h3⟩; exact ⟨h1, by omega, by omega⟩
        · rintro ⟨h1, h2, h3⟩; exact ⟨h1, by omega, by omega⟩
      rw [if_congr c rfl rfl]
      by_cases he : a.entry.enabled_init ≠ 0
      · rw [if_pos (Or.inr he), if_neg (fun hc => hik hc.1), if_pos he]
        omega
      · rw [if_neg (fun hc => hc.elim hik he), if_neg he]
        omega

theorem init_desc_facts (cfg : Platform) (s : State) :
    (exynos_ss_init_desc cfg s).ess_items = s.ess_items ∧
    (exynos_ss_init_desc cfg s).ess_base = s.ess_base ∧
    ((exynos_ss_init_desc cfg s).ess_desc.need_header = true ↔
      (kevents_item (exynos_ss_init_desc cfg s)).entry.enabled_init = 0) ∧
    ((exynos_ss_init_desc cfg s).ess_desc.kevents_num < s.ess_items.length ∨
      s.ess_items = []) := by
  refine ⟨rfl, rfl, ?_, ?_⟩
  · unfold kevents_item exynos_ss_init_desc
    simp only []
    split_ifs with h
    · simp only [true_iff]
      exact h
    · simp only [init_desc_loop_need_header, Bool.false_eq_true, false_iff]
      exact h
  · unfold exynos_ss_init_desc
    simp only []
    have hk := init_desc_loop_kevents s.ess_items 0
      { kevents_num := 0, log_kernel_num := 0, log_platform_num := 0, log_sfr_num := 0,
        log_pstore_num := 0, log_etm_num := 0, need_header := false, callstack := cfg.CALLSTACK,
        hardlockup := 0, no_wdt_dev := 0, vm_phys_addr := 0, vm_addr := 0, vm_size := 0 }
    simp only [Nat.zero_add] at hk
    cases hl : s.ess_items with
    | nil => right; rfl
    | cons a t =>
      left
      rw [hl] at hk
      split_ifs
      all_goals
        simp only [List.length_cons] at hk ⊢
        omega

theorem setup_success (cfg : Platform) (s s1 : State) (base : Nat)
    (reserve : Nat → Nat → Bool)
    (h : exynos_ss_setup cfg false (some base) reserve s = (s1, 0)) :
    s1.ess_items = s.ess_items ∧
    s1.ess_desc.kevents_num = (exynos_ss_init_desc cfg s).ess_desc.kevents_num ∧
    s1.ess_desc.need_header = (exynos_ss_init_desc cfg s).ess_desc.need_header ∧
    s1.ess_base.paddr = base ∧ s1.ess_base.vaddr = ESS_FIXED_VIRT_BASE cfg ∧
    s1.ess_base.size =
      (if (exynos_ss_init_desc cfg s).ess_desc.need_header = true then
        u64_add (setup_size_loop s.ess_items 0) ESS_HEADER_ALLOC_SZ
      else setup_size_loop s.ess_items 0) := by
  unfold exynos_ss_setup at h
  simp only [Bool.false_eq_true, if_false] at h
  cases hn : (exynos_ss_init_desc cfg s).ess_desc.need_header with
  | true =>
    rw [hn] at h
    simp only [if_true] at h ⊢
    split_ifs at h with hr
    · have h1 := (Prod.mk.inj h).1
      subst h1
      exact ⟨rfl, rfl, rfl, rfl, rfl, rfl⟩
    · have := (Prod.mk.inj h).2
      simp at this
  | false =>
    rw [hn] at h
    simp only [Bool.false_eq_true, if_false] at h ⊢
    split_ifs at h with hr
    · have h1 := (Prod.mk.inj h).1
      subst h1
      exact ⟨rfl, rfl, rfl, rfl, rfl, rfl⟩
    · have := (Prod.mk.inj h).2
      simp at this

theorem remap_items_length (s : State) :
    (exynos_ss_remap 0 s).1.ess_items.length = s.ess_items.length := by
  simp [exynos_ss_remap, remap_loop_length]

theorem remap_items_result (s : State) (hv : s.ess_base.vaddr < 2 ^ 64)
    (hp : s.ess_base.paddr < 2 ^ 64) (k : Nat) (a1 : exynos_ss_item)
    (hk : (exynos_ss_remap 0 s).1.ess_items[k]? = some a1) :
    ∃ it, s.ess_items[k]? = some it ∧
      a1 = (if k = s.ess_desc.kevents_num ∨ it.entry.enabled_init ≠ 0 then
        placed it s.ess_base.vaddr s.ess_base.paddr
          (alloc_before s.ess_desc.kevents_num s.ess_desc.need_header s.ess_items 0 k)
      else it) := by
  have hlt : k < s.ess_items.length := by
    rw [← remap_items_length s]
    exact (List.getElem?_eq_some.1 hk).1
  have hget : s.ess_items[k]? = some s.ess_items[k] := List.getElem?_eq_getElem hlt
  refine ⟨s.ess_items[k], hget, ?_⟩
  rw [remap_items_get s hv hp k _ hget] at hk
  exact (Option.some.inj hk).symm

theorem placed_or_kept (it : exynos_ss_item) (c : Prop) [Decidable c] (pv pp off : Nat) :
    (if c then placed it pv pp off else it).entry.enabled_init = it.entry.enabled_init ∧
    (if c then placed it pv pp off else it).entry.size = it.entry.size ∧
    (if c then placed it pv pp off else it).name = it.name ∧
    (if c then placed it pv pp off else it).entry.persist = it.entry.persist := by
  split_ifs <;> exact ⟨rfl, rfl, rfl, rfl⟩

theorem item_alloc_enabled (kn : Nat) (nh : Bool) (i : Nat) (it : exynos_ss_item)
    (he : it.entry.enabled_init ≠ 0)
    (hc : i = kn → (nh = true ↔ it.entry.enabled_init = 0)) :
    item_alloc kn nh i it = it.entry.size := by
  unfold item_alloc
  rw [if_pos (Or.inr he), if_neg]
  rintro ⟨h1, h2⟩
  exact he ((hc h1).1 h2)

theorem alloc_before_le_total (kn : Nat) (nh : Bool) (l : List exynos_ss_item) (i0 k : Nat)
    (hk : k ≤ l.length) :
    alloc_before kn nh l i0 k ≤ alloc_before kn nh l i0 l.length := by
  have := alloc_before_mono kn nh l i0 k (l.length - k) (by omega)
  rwa [show k + (l.length - k) = l.length by omega] at this

theorem remap_assigned (s : State) (hv : s.ess_base.vaddr < 2 ^ 64)
    (hp : s.ess_base.paddr < 2 ^ 64) (i : Nat) (a1 : exynos_ss_item)
    (hi : (exynos_ss_remap 0 s).1.ess_items[i]? = some a1)
    (ha : i = s.ess_desc.kevents_num ∨ a1.entry.enabled_init ≠ 0) :
    a1.entry.paddr = u64_add s.ess_base.paddr
      (alloc_before s.ess_desc.kevents_num s.ess_desc.need_header s.ess_items 0 i) ∧
    a1.entry.vaddr = u64_add s.ess_base.vaddr
      (alloc_before s.ess_desc.kevents_num s.ess_desc.need_header s.ess_items 0 i) ∧
    a1.head_ptr = a1.entry.vaddr ∧ a1.curr_ptr = a1.entry.vaddr ∧
    alloc_before s.ess_desc.kevents_num s.ess_desc.need_header s.ess_items 0 (i + 1)
      = alloc_before s.ess_desc.kevents_num s.ess_desc.need_header s.ess_items 0 i
        + item_alloc s.ess_desc.kevents_num s.ess_desc.need_header i a1 ∧
    i + 1 ≤ s.ess_items.length := by
  obtain ⟨it, hit, ha1⟩ := remap_items_result s hv hp i a1 hi
  have hf := placed_or_kept it (i = s.ess_desc.kevents_num ∨ it.entry.enabled_init ≠ 0)
    s.ess_base.vaddr s.ess_base.paddr
    (alloc_before s.ess_desc.kevents_num s.ess_desc.need_header s.ess_items 0 i)
  rw [← ha1] at hf
  have hassigned : i = s.ess_desc.kevents_num ∨ it.entry.enabled_init ≠ 0 := by
    rcases ha with h | h
    · exact Or.inl h
    · exact Or.inr (by rw [← hf.1]; exact h)
  rw [if_pos hassigned] at ha1
  have hstep := alloc_before_succ s.ess_desc.kevents_num s.ess_desc.need_header s.ess_items 0
    i it hit
  have hlt : i < s.ess_items.length := (List.getElem?_eq_some.1 hit).1
  have halloc : item_alloc s.ess_desc.kevents_num s.ess_desc.need_header i a1
      = item_alloc s.ess_desc.kevents_num s.ess_desc.need_header i it := by
    unfold item_alloc
    rw [hf.1, hf.2.1]
  rw [Nat.zero_add] at hstep
  rw [halloc, ha1]
  exact ⟨rfl, rfl, rfl, rfl, hstep, hlt⟩

theorem remap_unassigned (s : State) (hv : s.ess_base.vaddr < 2 ^ 64)
    (hp : s.ess_base.paddr < 2 ^ 64) (i : Nat) (a1 : exynos_ss_item)
    (hi : (exynos_ss_remap 0 s).1.ess_items[i]? = some a1)
    (ha : i ≠ s.ess_desc.kevents_num ∧ a1.entry.enabled_init = 0) :
    s.ess_items[i]? = some a1 := by
  obtain ⟨it, hit, ha1⟩ := remap_items_result s hv hp i a1 hi
  have hf := placed_or_kept it (i = s.ess_desc.kevents_num ∨ it.entry.enabled_init ≠ 0)
    s.ess_base.vaddr s.ess_base.paddr
    (alloc_before s.ess_desc.kevents_num s.ess_desc.need_header s.ess_items 0 i)
  rw [← ha1] at hf
  rw [if_neg (by rw [← hf.1]; intro h; rcases h with h | h; exact ha.1 h; exact h ha.2)] at ha1
  rw [ha1]
  exact hit

/-- C12: for every table of categories, when `exynos_ss_setup` succeeds for
the physical base `base` (the region fitting below `2 ^ 64`) and
`exynos_ss_remap` runs: `ess_base.size` is the sum of the capacities of the
categories enabled at init, plus `ESS_HEADER_ALLOC_SZ` exactly when the
log_kevents entry is not enabled at init; the physical range
`[paddr, paddr + size)` of every category enabled at init lies inside
`[ess_base.paddr, ess_base.paddr + ess_base.size)`; the ranges of two such
categories do not overlap (the earlier one ends before the later one starts);
and the range of the last entry that is assigned ends at the end of the
region. -/
theorem setup_remap_ranges (cfg : Platform) (s s1 : State) (base : Nat)
    (reserve : Nat → Nat → Bool)
    (hsetup : exynos_ss_setup cfg false (some base) reserve s = (s1, 0))
    (hfit : base + enabled_capacity s.ess_items + ESS_HEADER_ALLOC_SZ < 2 ^ 64) :
    (s1.ess_base.paddr = base ∧ (exynos_ss_remap 0 s1).1.ess_base = s1.ess_base ∧
      s1.ess_base.size = enabled_capacity s.ess_items
        + (if (kevents_item s1).entry.enabled_init = 0 then ESS_HEADER_ALLOC_SZ else 0)) ∧
    (∀ (i : Nat) (a1 : exynos_ss_item),
      (exynos_ss_remap 0 s1).1.ess_items[i]? = some a1 → a1.entry.enabled_init ≠ 0 →
      base ≤ a1.entry.paddr ∧ a1.entry.paddr + a1.entry.size ≤ base + s1.ess_base.size) ∧
    (∀ (i j : Nat) (a1 b1 : exynos_ss_item), i < j →
      (exynos_ss_remap 0 s1).1.ess_items[i]? = some a1 →
      (exynos_ss_remap 0 s1).1.ess_items[j]? = some b1 →
      a1.entry.enabled_init ≠ 0 → b1.entry.enabled_init ≠ 0 →
      a1.entry.paddr + a1.entry.size ≤ b1.entry.paddr) ∧
    (∀ (j : Nat) (a1 : exynos_ss_item),
      (exynos_ss_remap 0 s1).1.ess_items[j]? = some a1 →
      (j = s1.ess_desc.kevents_num ∨ a1.entry.enabled_init ≠ 0) →
      (∀ k c, j < k → (exynos_ss_remap 0 s1).1.ess_items[k]? = some c →
        k ≠ s1.ess_desc.kevents_num ∧ c.entry.enabled_init = 0) →
      a1.entry.paddr + item_alloc s1.ess_desc.kevents_num s1.ess_desc.need_header j a1
        = base + s1.ess_base.size) := by
  obtain ⟨hitems, hkn, hnh, hpaddr, hvaddr, hsize⟩ := setup_success cfg s s1 base reserve hsetup
  obtain ⟨_, _, hF3, hF4⟩ := init_desc_facts cfg s
  have h2M : ESS_HEADER_ALLOC_SZ = 2097152 := rfl
  have hkev : kevents_item s1 = kevents_item (exynos_ss_init_desc cfg s) := by
    unfold kevents_item
    rw [hitems, hkn]
    rfl
  rw [← hnh, ← hkev] at hF3
  rw [← hkn, ← hitems] at hF4
  have hcap : setup_size_loop s.ess_items 0 = enabled_capacity s.ess_items := by
    rw [setup_size_loop_eq _ _ (by omega)]; omega
  have hsz : s1.ess_base.size = enabled_capacity s.ess_items
      + (if s1.ess_desc.need_header = true then ESS_HEADER_ALLOC_SZ else 0) := by
    rw [hsize, hcap, ← hnh]
    split_ifs
    · unfold u64_add; omega
    · rfl
  have hv : s1.ess_base.vaddr < 2 ^ 64 := by
    rw [hvaddr]; exact u64_add_lt _ _
  have hp : s1.ess_base.paddr < 2 ^ 64 := by omega
  have hcons : ∀ k it, s1.ess_items[k]? = some it → 0 + k = s1.ess_desc.kevents_num →
      (s1.ess_desc.need_header = true ↔ it.entry.enabled_init = 0) := by
    intro k it hk hkk
    have : kevents_item s1 = it := by
      unfold kevents_item
      rw [← hkk, Nat.zero_add]
      simp [hk]
    rw [← this]
    exact hF3
  have htot := alloc_total s1.ess_desc.kevents_num s1.ess_desc.need_header s1.ess_items 0 hcons
  rw [hitems] at htot
  have htle : alloc_before s1.ess_desc.kevents_num s1.ess_desc.need_header s.ess_items 0
      s.ess_items.length ≤ s1.ess_base.size := by
    rw [htot, hsz]
    by_cases hh : s1.ess_desc.need_header = true
    · rw [if_pos hh]
      split_ifs <;> omega
    · rw [if_neg hh, if_neg (fun h => hh h.1)]
  have hnowrap : ∀ k, k ≤ s.ess_items.length →
      u64_add base (alloc_before s1.ess_desc.kevents_num s1.ess_desc.need_header s.ess_items 0 k)
        = base + alloc_before s1.ess_desc.kevents_num s1.ess_desc.need_header s.ess_items 0 k
        := by
    intro k hk
    have h1 := alloc_before_le_total s1.ess_desc.kevents_num s1.ess_desc.need_header
      s.ess_items 0 k hk
    have h3 : s1.ess_base.size ≤ enabled_capacity s.ess_items + ESS_HEADER_ALLOC_SZ := by
      rw [hsz]; split_ifs <;> omega
    unfold u64_add
    exact Nat.mod_eq_of_lt (by omega)
  have hfacts : ∀ (i : Nat) (a1 : exynos_ss_item),
      (exynos_ss_remap 0 s1).1.ess_items[i]? = some a1 →
      (i = s1.ess_desc.kevents_num ∨ a1.entry.enabled_init ≠ 0) →
      a1.entry.paddr = base
        + alloc_before s1.ess_desc.kevents_num s1.ess_desc.need_header s.ess_items 0 i ∧
      alloc_before s1.ess_desc.kevents_num s1.ess_desc.need_header s.ess_items 0 (i + 1)
        = alloc_before s1.ess_desc.kevents_num s1.ess_desc.need_header s.ess_items 0 i
          + item_alloc s1.ess_desc.kevents_num s1.ess_desc.need_header i a1 ∧
      i + 1 ≤ s.ess_items.length := by
    intro i a1 hi ha
    obtain ⟨h1, _, _, _, h5, h6⟩ := remap_assigned s1 hv hp i a1 hi ha
    rw [hitems] at h1 h5 h6
    rw [hpaddr, hnowrap i (by omega)] at h1
    exact ⟨h1, h5, h6⟩
  have hsize_en : ∀ (i : Nat) (a1 : exynos_ss_item),
      (exynos_ss_remap 0 s1).1.ess_items[i]? = some a1 → a1.entry.enabled_init ≠ 0 →
      item_alloc s1.ess_desc.kevents_num s1.ess_desc.need_header i a1 = a1.entry.size := by
    intro i a1 hi he
    apply item_alloc_enabled _ _ _ _ he
    intro hik
    obtain ⟨it, hit, ha1⟩ := remap_items_result s1 hv hp i a1 hi
    have hf := placed_or_kept it (i = s1.ess_desc.kevents_num ∨ it.entry.enabled_init ≠ 0)
      s1.ess_base.vaddr s1.ess_base.paddr
      (alloc_before s1.ess_desc.kevents_num s1.ess_desc.need_header s1.ess_items 0 i)
    rw [← ha1] at hf
    rw [hf.1]
    exact hcons i it hit (by omega)
  refine ⟨⟨hpaddr, rfl, ?_⟩, ?_, ?_, ?_⟩
  · rw [hsz]
    by_cases hh : s1.ess_desc.need_header = true
    · rw [if_pos hh, if_pos (hF3.1 hh)]
    · rw [if_neg hh, if_neg (fun h0 => hh (hF3.2 h0))]
  · intro i a1 hi he
    obtain ⟨h1, h2, h3⟩ := hfacts i a1 hi (Or.inr he)
    rw [hsize_en i a1 hi he] at h2
    have h4 := alloc_before_le_total s1.ess_desc.kevents_num s1.ess_desc.need_header
      s.ess_items 0 (i + 1) h3
    omega
  · intro i j a1 b1 hij hi hj hae hbe
    obtain ⟨h1, h2, h3⟩ := hfacts i a1 hi (Or.inr hae)
    obtain ⟨g1, g2, g3⟩ := hfacts j b1 hj (Or.inr hbe)
    rw [hsize_en i a1 hi hae] at h2
    have hm := alloc_before_mono s1.ess_desc.kevents_num s1.ess_desc.need_header s.ess_items 0
      (i + 1) (j - (i + 1)) (by omega)
    rw [show i + 1 + (j - (i + 1)) = j by omega] at hm
    omega
  · intro j a1 hj ha hlater
    obtain ⟨h1, h2, h3⟩ := hfacts j a1 hj ha
    have hskip := alloc_before_skip s1.ess_desc.kevents_num s1.ess_desc.need_header s.ess_items
      0 (j + 1) (s.ess_items.length - (j + 1)) (by
        intro k c hk1 hk2 hkc
        rw [← hitems] at hkc
        have hklt : k < (exynos_ss_remap 0 s1).1.ess_items.length := by
          rw [remap_items_length]; exact (List.getElem?_eq_some.1 hkc).1
        have hget := List.getElem?_eq_getElem hklt
        obtain ⟨hne, hz⟩ := hlater k _ (by omega) hget
        obtain ⟨it, hit, hc1⟩ := remap_items_result s1 hv hp k _ hget
        rw [hkc] at hit
        cases hit
        have hf := placed_or_kept c (k = s1.ess_desc.kevents_num ∨ c.entry.enabled_init ≠ 0)
          s1.ess_base.vaddr s1.ess_base.paddr
          (alloc_before s1.ess_desc.kevents_num s1.ess_desc.need_header s1.ess_items 0 k)
        rw [← hc1, hz] at hf
        unfold item_alloc
        rw [Nat.zero_add, if_neg]
        rintro (h | h)
        · exact hne h
        · exact h hf.1.symm) (by omega)
    rw [show j + 1 + (s.ess_items.length - (j + 1)) = s.ess_items.length by omega] at hskip
    have hkn_lt : s1.ess_desc.kevents_num < s.ess_items.length := by
      rcases hF4 with h | h
      · rw [hitems] at h; exact h
      · rw [hitems] at h; rw [h] at h3; simp at h3
    have hT : alloc_before s1.ess_desc.kevents_num s1.ess_desc.need_header s.ess_items 0
        s.ess_items.length = s1.ess_base.size := by
      rw [htot, hsz]
      by_cases hh : s1.ess_desc.need_header = true
      · rw [if_pos hh, if_pos ⟨hh, by omega, by omega⟩]
      · rw [if_neg hh, if_neg (fun h => hh h.1)]
    omega

theorem setup_remap_ranges_witness :
    reserved_state.ess_base.size = 0x1a08000 ∧
    (exynos_ss_remap 0 reserved_state).1.ess_items[1]?
      = some ⟨"log_kernel", ⟨SZ_2M, 0xF6800000, 0x46800000, 0, 1, 1⟩, 0xF6800000, 0xF6800000, 0⟩ ∧
    (0x46000000 ≤ 0x46800000 ∧ 0x46800000 + SZ_2M ≤ 0x46000000 + reserved_state.ess_base.size) :=
  ⟨by decide, by decide,
   (setup_remap_ranges platform8 State.initial reserved_state 0x46000000 (fun _ _ => true)
      (Prod.ext rfl (by decide)) (by decide)).2.1 1
      ⟨"log_kernel", ⟨SZ_2M, 0xF6800000, 0x46800000, 0, 1, 1⟩, 0xF6800000, 0xF6800000, 0⟩
      (by decide) (by decide)⟩

/-! ## Boot-time classification in `exynos_ss_fixmap` -/

theorem memset_outside (mem : Nat → Nat) (dst c n a : Nat) (h : a < dst ∨ dst + n ≤ a) :
    memset mem dst c n a = mem a := by
  unfold memset
  rw [if_neg]
  omega

theorem memset_inside (mem : Nat → Nat) (dst c n a : Nat) (h1 : dst ≤ a) (h2 : a < dst + n) :
    memset mem dst c n a = c := by
  unfold memset
  rw [if_pos ⟨h1, h2⟩]

theorem memcpy_outside (mem : Nat → Nat) (dst : Nat) (src : Nat → Nat) (n a : Nat)
    (h : a < dst ∨ dst + n ≤ a) : memcpy mem dst src n a = mem a := by
  unfold memcpy
  rw [if_neg]
  omega

theorem raw_readl_congr (mem mem1 : Nat → Nat) (addr : Nat)
    (h : ∀ a, addr ≤ a → a < addr + 4 → mem a = mem1 a) :
    raw_readl mem addr = raw_readl mem1 addr := by
  unfold raw_readl
  rw [h addr (by omega) (by omega), h (addr + 1) (by omega) (by omega),
    h (addr + 2) (by omega) (by omega), h (addr + 3) (by omega) (by omega)]

theorem fixmap_item_frame (bv : Nat) (mem : Nat → Nat) (it : exynos_ss_item) (a : Nat)
    (h : a < it.entry.vaddr ∨ it.entry.vaddr + it.entry.size ≤ a) :
    (fixmap_item bv mem it).2 a = mem a := by
  unfold fixmap_item
  simp only []
  split_ifs <;> first | rfl | exact memset_outside _ _ _ _ _ h

theorem fixmap_item_congr (bv : Nat) (mem mem1 : Nat → Nat) (it : exynos_ss_item)
    (h : ∀ a, bv + ESS_OFFSET_LAST_LOGBUF ≤ a → a < bv + ESS_OFFSET_LAST_LOGBUF + 4 →
      mem a = mem1 a) :
    (fixmap_item bv mem it).1 = (fixmap_item bv mem1 it).1 ∧
    ∀ a, mem a = mem1 a → (fixmap_item bv mem it).2 a = (fixmap_item bv mem1 it).2 a := by
  have hr := raw_readl_congr mem mem1 _ h
  unfold fixmap_item
  simp only [hr]
  split_ifs
  · exact ⟨rfl, fun a ha => ha⟩
  · refine ⟨rfl, fun a ha => ?_⟩
    show memset mem _ _ _ a = memset mem1 _ _ _ a
    unfold memset
    simp only [ha]
  · refine ⟨rfl, fun a ha => ?_⟩
    show memset mem _ _ _ a = memset mem1 _ _ _ a
    unfold memset
    simp only [ha]
  · exact ⟨rfl, fun a ha => ha⟩

theorem fixmap_loop_frame (bv : Nat) :
    ∀ (l : List exynos_ss_item) (i : Nat) (mem : Nat → Nat) (info : Nat → exynos_ss_item)
      (a : Nat),
      (∀ it ∈ l, it.entry.enabled_init ≠ 0 →
        a < it.entry.vaddr ∨ it.entry.vaddr + it.entry.size ≤ a) →
      (fixmap_loop bv l i mem info).mem a = mem a := by
  intro l
  induction l with
  | nil => intro i mem info a _; rfl
  | cons x t ih =>
    intro i mem info a h
    have ht : ∀ it ∈ t, it.entry.enabled_init ≠ 0 →
        a < it.entry.vaddr ∨ it.entry.vaddr + it.entry.size ≤ a :=
      fun it hit => h it (List.mem_cons_of_mem _ hit)
    unfold fixmap_loop
    by_cases hx : x.entry.enabled_init = 0
    · simp only [hx, if_true]
      exact ih _ _ _ _ ht
    · simp only [hx, if_false]
      rw [ih _ _ _ _ ht]
      exact fixmap_item_frame bv mem x a (h x (List.mem_cons_self _ _) hx)

theorem fixmap_loop_target (bv : Nat) :
    ∀ (l : List exynos_ss_item) (i : Nat) (mem : Nat → Nat) (info : Nat → exynos_ss_item)
      (k : Nat) (tgt : exynos_ss_item),
      l[k]? = some tgt → tgt.entry.enabled_init ≠ 0 →
      (l.filter (fun it => decide (it.entry.enabled_init ≠ 0))).Pairwise
        (fun a b => a.entry.vaddr + a.entry.size ≤ b.entry.vaddr) →
      (∀ it ∈ l, it.entry.enabled_init ≠ 0 →
        bv + ESS_OFFSET_LAST_LOGBUF + 4 ≤ it.entry.vaddr) →
      (fixmap_loop bv l i mem info).items[k]? = some (fixmap_item bv mem tgt).1 ∧
      ∀ a, tgt.entry.vaddr ≤ a → a < tgt.entry.vaddr + tgt.entry.size →
        (fixmap_loop bv l i mem info).mem a = (fixmap_item bv mem tgt).2 a := by
  intro l
  induction l with
  | nil => intro i mem info k tgt h; simp at h
  | cons x t ih =>
    intro i mem info k tgt hk he hp hhdr
    have hhdr_t : ∀ it ∈ t, it.entry.enabled_init ≠ 0 →
        bv + ESS_OFFSET_LAST_LOGBUF + 4 ≤ it.entry.vaddr :=
      fun it hit => hhdr it (List.mem_cons_of_mem _ hit)
    by_cases hx : x.entry.enabled_init = 0
    · have hfilter : (x :: t).filter (fun it => decide (it.entry.enabled_init ≠ 0))
          = t.filter (fun it => decide (it.entry.enabled_init ≠ 0)) := by
        simp [List.filter_cons, hx]
      rw [hfilter] at hp
      cases k with
      | zero =>
        simp only [List.getElem?_cons_zero, Option.some.injEq] at hk
        subst hk
        exact absurd hx he
      | succ k =>
        simp only [List.getElem?_cons_succ] at hk
        unfold fixmap_loop
        simp only [hx, if_true, List.getElem?_cons_succ]
        exact ih _ _ _ k tgt hk he hp hhdr_t
    · have hfilter : (x :: t).filter (fun it => decide (it.entry.enabled_init ≠ 0))
          = x :: t.filter (fun it => decide (it.entry.enabled_init ≠ 0)) := by
        simp [List.filter_cons, hx]
      rw [hfilter, List.pairwise_cons] at hp
      have hafter : ∀ b ∈ t, b.entry.enabled_init ≠ 0 →
          x.entry.vaddr + x.entry.size ≤ b.entry.vaddr := by
        intro b hb hbe
        exact hp.1 b (List.mem_filter.2 ⟨hb, by simpa using hbe⟩)
      cases k with
      | zero =>
        simp only [List.getElem?_cons_zero, Option.some.injEq] at hk
        subst hk
        unfold fixmap_loop
        simp only [hx, if_false, List.getElem?_cons_zero, true_and]
        intro a ha1 ha2
        apply fixmap_loop_frame
        intro b hb hbe
        left
        have := hafter b hb hbe
        omega
      | succ k =>
        simp only [List.getElem?_cons_succ] at hk
        have htgt : tgt ∈ t := List.getElem?_mem hk
        have hsep := hafter tgt htgt he
        have hxhdr := hhdr x (List.mem_cons_self _ _) hx
        unfold fixmap_loop
        simp only [hx, if_false, List.getElem?_cons_succ]
        obtain ⟨h1, h2⟩ := ih (i + 1) (fixmap_item bv mem x).2
          (upd info (i - 1)
            { info (i - 1) with
              name := x.name, head_ptr := x.entry.vaddr, curr_ptr := 0,
              entry := { (info (i - 1)).entry with size := x.entry.size } })
          k tgt hk he hp.2 hhdr_t
        have hc := fixmap_item_congr bv (fixmap_item bv mem x).2 mem tgt (by
          intro a ha1 ha2
          exact fixmap_item_frame bv mem x a (Or.inl (by omega)))
        refine ⟨by rw [h1, hc.1], ?_⟩
        intro a ha1 ha2
        rw [h2 a ha1 ha2]
        exact hc.2 a (fixmap_item_frame bv mem x a (Or.inr (by omega)))

theorem fixmap_header_mem_eq (cfg : Platform) (s : State) :
    (exynos_ss_fixmap_header cfg s).mem =
      if exynos_ss_get_enable s "log_kevents" true = 0 then
        memcpy s.mem (kevents_item s).entry.vaddr (exynos_ss_base_bytes s.ess_base)
          sizeof_exynos_ss_base
      else
        memset
          (memcpy s.mem (kevents_item s).entry.vaddr (exynos_ss_base_bytes s.ess_base)
            sizeof_exynos_ss_base)
          (u64_add (kevents_item s).entry.vaddr ESS_KEEP_HEADER_SZ) 0
          (u64_sub (kevents_item s).entry.size ESS_KEEP_HEADER_SZ) := by
  show (if exynos_ss_get_enable s "log_kevents" true = 0 then _ else _ : State).mem = _
  by_cases h : exynos_ss_get_enable s "log_kevents" true = 0
  · rw [if_pos h, if_pos h]
  · rw [if_neg h, if_neg h]

theorem fixmap_header_keeps (cfg : Platform) (s : State) :
    (exynos_ss_fixmap_header cfg s).ess_items = s.ess_items ∧
    (exynos_ss_fixmap_header cfg s).ess_base = s.ess_base ∧
    (exynos_ss_fixmap_header cfg s).ess_desc = s.ess_desc := by
  show (if exynos_ss_get_enable s "log_kevents" true = 0 then _ else _ : State).ess_items = _ ∧
    (if exynos_ss_get_enable s "log_kevents" true = 0 then _ else _ : State).ess_base = _ ∧
    (if exynos_ss_get_enable s "log_kevents" true = 0 then _ else _ : State).ess_desc = _
  by_cases h : exynos_ss_get_enable s "log_kevents" true = 0
  · simp only [if_pos h]; exact ⟨trivial, trivial, trivial⟩
  · simp only [if_neg h]; exact ⟨trivial, trivial, trivial⟩

theorem fixmap_header_frame (cfg : Platform) (s : State) (hl : boot_layout s) (a : Nat)
    (ha : (s.ess_base.vaddr + sizeof_exynos_ss_base ≤ a ∧
        a < s.ess_base.vaddr + ESS_KEEP_HEADER_SZ) ∨ header_end s ≤ a) :
    (exynos_ss_fixmap_header cfg s).mem a = s.mem a := by
  obtain ⟨hv, hb, hsz, -, -⟩ := hl
  rw [fixmap_header_mem_eq, hv]
  unfold header_end at ha
  have hK : ESS_KEEP_HEADER_SZ = 768 := by decide
  have hS : sizeof_exynos_ss_base = 40 := rfl
  by_cases hen : exynos_ss_get_enable s "log_kevents" true = 0
  · rw [if_pos hen] at ha ⊢
    apply memcpy_outside
    omega
  · rw [if_neg hen] at ha ⊢
    have h1 := hsz hen
    have h2 : u64_add s.ess_base.vaddr ESS_KEEP_HEADER_SZ = s.ess_base.vaddr + 768 := by
      unfold u64_add; omega
    have h3 : u64_sub (kevents_item s).entry.size ESS_KEEP_HEADER_SZ
        ≤ (kevents_item s).entry.size - 768 := by
      unfold u64_sub to_u64; omega
    rw [memset_outside _ _ _ _ _ (by omega)]
    apply memcpy_outside
    omega

theorem header_end_ge (s : State) (hl : boot_layout s) :
    s.ess_base.vaddr + ESS_KEEP_HEADER_SZ ≤ header_end s := by
  obtain ⟨-, -, hsz, -, -⟩ := hl
  unfold header_end
  by_cases hen : exynos_ss_get_enable s "log_kevents" true = 0
  · rw [if_pos hen]
  · rw [if_neg hen]
    have := hsz hen
    omega

/-- What `exynos_ss_fixmap` does to an entry after the first that is enabled at
init, under `boot_layout`: the entry and the bytes of its range afterwards are
those the loop body gives on the memory before the call. -/
theorem fixmap_target (cfg : Platform) (s : State) (k : Nat) (tgt : exynos_ss_item)
    (hl : boot_layout s) (hk : s.ess_items[k + 1]? = some tgt)
    (he : tgt.entry.enabled_init ≠ 0) :
    (exynos_ss_fixmap cfg s).1.ess_items[k + 1]?
        = some (fixmap_item s.ess_base.vaddr s.mem tgt).1 ∧
    ∀ a, tgt.entry.vaddr ≤ a → a < tgt.entry.vaddr + tgt.entry.size →
      (exynos_ss_fixmap cfg s).1.mem a = (fixmap_item s.ess_base.vaddr s.mem tgt).2 a := by
  have hge := header_end_ge s hl
  have hK : ESS_KEEP_HEADER_SZ = 768 := by decide
  have hL : ESS_OFFSET_LAST_LOGBUF = 512 := rfl
  have hS : sizeof_exynos_ss_base = 40 := rfl
  obtain ⟨hi, hb, hd⟩ := fixmap_header_keeps cfg s
  have hk1 : (s.ess_items.drop 1)[k]? = some tgt := by
    rw [List.getElem?_drop, Nat.add_comm]; exact hk
  have hmem : tgt ∈ s.ess_items.drop 1 := List.getElem?_mem hk1
  have htv : header_end s ≤ tgt.entry.vaddr := hl.2.2.2.1 tgt hmem he
  obtain ⟨h1, h2⟩ := fixmap_loop_target s.ess_base.vaddr (s.ess_items.drop 1) 1
    (exynos_ss_fixmap_header cfg s).mem (exynos_ss_fixmap_header cfg s).info_log k tgt hk1 he
    hl.2.2.2.2 (fun it hit hie => by
      have := hl.2.2.2.1 it hit hie
      omega)
  have hc := fixmap_item_congr s.ess_base.vaddr (exynos_ss_fixmap_header cfg s).mem s.mem tgt
    (fun a ha1 ha2 => fixmap_header_frame cfg s hl a (Or.inl (by omega)))
  have hlen : (s.ess_items.take 1).length = 1 := by
    rw [List.length_take]
    have : k + 1 < s.ess_items.length := by
      by_contra hcon
      rw [List.getElem?_eq_none (by omega)] at hk
      exact Option.noConfusion hk
    omega
  unfold exynos_ss_fixmap exynos_ss_get_base_vaddr
  simp only [hi, hb]
  refine ⟨?_, ?_⟩
  · rw [List.getElem?_append_right (by omega), hlen, Nat.add_sub_cancel, h1, hc.1]
  · intro a ha1 ha2
    rw [h2 a ha1 ha2]
    exact hc.2 a (fixmap_header_frame cfg s hl a (Or.inr (by omega)))

theorem raw_readl_lt (mem : Nat → Nat) (addr : Nat) : raw_readl mem addr < 2 ^ 32 := by
  unfold raw_readl
  omega

theorem fixmap_item_resume (bv : Nat) (mem : Nat → Nat) (tgt : exynos_ss_item)
    (hname : tgt.name = "log_kernel")
    (hfit : tgt.entry.paddr + tgt.entry.size < 2 ^ 64)
    (hvfit : tgt.entry.vaddr + tgt.entry.size < 2 ^ 64)
    (hlo : tgt.entry.paddr ≤ raw_readl mem (bv + ESS_OFFSET_LAST_LOGBUF))
    (hhi : raw_readl mem (bv + ESS_OFFSET_LAST_LOGBUF) ≤ tgt.entry.paddr + tgt.entry.size) :
    fixmap_item bv mem tgt =
      ({ tgt with
         curr_ptr := tgt.entry.vaddr +
           (raw_readl mem (bv + ESS_OFFSET_LAST_LOGBUF) - tgt.entry.paddr) }, mem) := by
  have hn : strncmp tgt.name "log_kernel" (strlen tgt.name) = 0 := by rw [hname]; decide
  have h1 : u64_add tgt.entry.paddr tgt.entry.size = tgt.entry.paddr + tgt.entry.size := by
    unfold u64_add; omega
  have hlt := raw_readl_lt mem (bv + ESS_OFFSET_LAST_LOGBUF)
  have h2 : u64_add tgt.entry.vaddr
      (u64_sub (raw_readl mem (bv + ESS_OFFSET_LAST_LOGBUF)) tgt.entry.paddr)
      = tgt.entry.vaddr + (raw_readl mem (bv + ESS_OFFSET_LAST_LOGBUF) - tgt.entry.paddr) := by
    unfold u64_add u64_sub to_u64; omega
  unfold fixmap_item
  simp only [hn, if_true, h1, h2]
  rw [if_pos ⟨hlo, hhi⟩]

theorem fixmap_item_cold (bv : Nat) (mem : Nat → Nat) (tgt : exynos_ss_item)
    (hname : tgt.name = "log_kernel")
    (hfit : tgt.entry.paddr + tgt.entry.size < 2 ^ 64)
    (hout : raw_readl mem (bv + ESS_OFFSET_LAST_LOGBUF) < tgt.entry.paddr ∨
      tgt.entry.paddr + tgt.entry.size < raw_readl mem (bv + ESS_OFFSET_LAST_LOGBUF)) :
    fixmap_item bv mem tgt =
      ({ tgt with curr_ptr := tgt.entry.vaddr },
       memset mem tgt.entry.vaddr 0 tgt.entry.size) := by
  have hn : strncmp tgt.name "log_kernel" (strlen tgt.name) = 0 := by rw [hname]; decide
  have h1 : u64_add tgt.entry.paddr tgt.entry.size = tgt.entry.paddr + tgt.entry.size := by
    unfold u64_add; omega
  unfold fixmap_item
  simp only [hn, if_true, h1]
  rw [if_neg (by omega)]

theorem fixmap_item_other (bv : Nat) (mem : Nat → Nat) (it : exynos_ss_item)
    (hname : strncmp it.name "log_kernel" (strlen it.name) ≠ 0) :
    fixmap_item bv mem it =
      (it, if it.entry.persist = 0 then memset mem it.entry.vaddr 0 it.entry.size else mem) := by
  unfold fixmap_item
  simp only [hname, if_false]
  split_ifs <;> rfl

theorem fixmap_kevents_tail (cfg : Platform) (s : State) (hl : boot_layout s)
    (hen : exynos_ss_get_enable s "log_kevents" true ≠ 0)
    (hsz : (kevents_item s).entry.size < 2 ^ 64) (a : Nat)
    (ha1 : s.ess_base.vaddr + ESS_KEEP_HEADER_SZ ≤ a)
    (ha2 : a < s.ess_base.vaddr + (kevents_item s).entry.size) :
    (exynos_ss_fixmap cfg s).1.mem a = 0 := by
  have hK : ESS_KEEP_HEADER_SZ = 768 := by decide
  obtain ⟨hi, hb, hd⟩ := fixmap_header_keeps cfg s
  have hend : header_end s = s.ess_base.vaddr + (kevents_item s).entry.size := by
    unfold header_end; rw [if_neg hen]
  have hfr := fixmap_loop_frame s.ess_base.vaddr (s.ess_items.drop 1) 1
    (exynos_ss_fixmap_header cfg s).mem (exynos_ss_fixmap_header cfg s).info_log a
    (fun it hit hie => by
      have := hl.2.2.2.1 it hit hie
      left; omega)
  have hmem : (exynos_ss_fixmap cfg s).1.mem a = (exynos_ss_fixmap_header cfg s).mem a := by
    unfold exynos_ss_fixmap exynos_ss_get_base_vaddr
    simp only [hi, hb]
    exact hfr
  obtain ⟨hv, hbnd, hks, -, -⟩ := hl
  have hks1 := hks hen
  rw [hmem, fixmap_header_mem_eq, if_neg hen, hv]
  have h2 : u64_add s.ess_base.vaddr ESS_KEEP_HEADER_SZ = s.ess_base.vaddr + 768 := by
    unfold u64_add; omega
  have h3 : u64_sub (kevents_item s).entry.size ESS_KEEP_HEADER_SZ
      = (kevents_item s).entry.size - 768 := by
    unfold u64_sub to_u64; omega
  rw [h2, h3]
  exact memset_inside _ _ _ _ _ (by omega) (by omega)

theorem with_signature_last_logbuf (s : State) (sig reason : Nat) :
    raw_readl (with_signature s sig reason).mem (s.ess_base.vaddr + ESS_OFFSET_LAST_LOGBUF)
      = raw_readl s.mem (s.ess_base.vaddr + ESS_OFFSET_LAST_LOGBUF) := by
  have hL : ESS_OFFSET_LAST_LOGBUF = 512 := rfl
  have hS : ESS_OFFSET_SCRATCH = 256 := rfl
  have hR : ESS_OFFSET_EMERGENCY_REASON = 768 := rfl
  apply raw_readl_congr
  intro a ha1 ha2
  show raw_writel (raw_writel s.mem sig _) reason _ a = s.mem a
  unfold raw_writel
  rw [memcpy_outside _ _ _ _ _ (by omega), memcpy_outside _ _ _ _ _ (by omega)]

/-! ### C13 -/

/-- C13: at boot (`exynos_ss_fixmap` on a state laid out as `exynos_ss_remap`
leaves it), when the 32-bit last-write pointer `L` read from the header at
`ESS_OFFSET_LAST_LOGBUF` lies in log_kernel's physical range
(`paddr <= L <= paddr + size`, the range not wrapping the address space), the
log_kernel entry afterwards differs from the one before only in its write
cursor, which is `vaddr + (L - paddr)`, and every byte of
`[vaddr, vaddr + size)` has the value it had before. -/
theorem fixmap_resumes_log_kernel (cfg : Platform) (s : State) (k : Nat)
    (tgt : exynos_ss_item) (hl : boot_layout s) (hk : s.ess_items[k + 1]? = some tgt)
    (he : tgt.entry.enabled_init ≠ 0) (hname : tgt.name = "log_kernel")
    (hfit : tgt.entry.paddr + tgt.entry.size < 2 ^ 64)
    (hvfit : tgt.entry.vaddr + tgt.entry.size < 2 ^ 64)
    (hlo : tgt.entry.paddr ≤ raw_readl s.mem (s.ess_base.vaddr + ESS_OFFSET_LAST_LOGBUF))
    (hhi : raw_readl s.mem (s.ess_base.vaddr + ESS_OFFSET_LAST_LOGBUF)
      ≤ tgt.entry.paddr + tgt.entry.size) :
    (exynos_ss_fixmap cfg s).1.ess_items[k + 1]? =
      some { tgt with
        curr_ptr := tgt.entry.vaddr +
          (raw_readl s.mem (s.ess_base.vaddr + ESS_OFFSET_LAST_LOGBUF) - tgt.entry.paddr) } ∧
    ∀ a, tgt.entry.vaddr ≤ a → a < tgt.entry.vaddr + tgt.entry.size →
      (exynos_ss_fixmap cfg s).1.mem a = s.mem a := by
  obtain ⟨h1, h2⟩ := fixmap_target cfg s k tgt hl hk he
  rw [fixmap_item_resume _ _ tgt hname hfit hvfit hlo hhi] at h1 h2
  exact ⟨h1, h2⟩

theorem fixmap_resumes_log_kernel_witness :
    boot_layout resumed_state ∧
    raw_readl resumed_state.mem (resumed_state.ess_base.vaddr + ESS_OFFSET_LAST_LOGBUF)
      = 0x46800010 ∧
    (exynos_ss_fixmap platform8 resumed_state).1.ess_items[1]? =
      some ⟨"log_kernel", ⟨SZ_2M, 0xF6800000, 0x46800000, 0, 1, 1⟩, 0xF6800000, 0xF6800010, 0⟩ ∧
    resumed_state.mem 0xF6800000 = 0x41 ∧
    (exynos_ss_fixmap platform8 resumed_state).1.mem 0xF6800000 = 0x41 :=
  have h := fixmap_resumes_log_kernel platform8 resumed_state 0
    ⟨"log_kernel", ⟨SZ_2M, 0xF6800000, 0x46800000, 0, 1, 1⟩, 0xF6800000, 0xF6800000, 0⟩
    (by decide) (by decide) (by decide) (by decide) (by decide) (by decide) (by decide)
    (by decide)
  ⟨by decide, by decide, h.1.trans (by decide), by decide,
   (h.2 0xF6800000 (by decide) (by decide)).trans (by decide)⟩

/-! ### C14 -/

/-- C14, the claim as written fails: in `cold_state` the last-write pointer is
0, outside log_kernel's physical range, and log_kevents is enabled at init with
`persist == false`, yet after `exynos_ss_fixmap` the byte at offset 1 of the
log_kevents area is `0x80`: the area starts with the copy of `ess_base` and
only the bytes from `ESS_KEEP_HEADER_SZ` on are cleared. -/
theorem fixmap_keeps_kevents_header :
    raw_readl cold_state.mem (cold_state.ess_base.vaddr + ESS_OFFSET_LAST_LOGBUF) = 0 ∧
    cold_state.ess_items[1]? =
      some ⟨"log_kernel", ⟨SZ_2M, 0xF6800000, 0x46800000, 0, 1, 1⟩, 0xF6800000, 0xF6800000, 0⟩ ∧
    cold_state.ess_items[0]? =
      some ⟨"log_kevents", ⟨SZ_8M, 0xF6000000, 0x46000000, 0, 1, 1⟩, 0xF6000000, 0xF6000000, 0⟩ ∧
    (exynos_ss_fixmap platform8 cold_state).1.mem (0xF6000000 + 1) = 0x80 := by
  decide

/-- C14 (amended): at boot, when the last-write pointer `L` read from the
header is outside log_kernel's physical range (`L < paddr` or
`L > paddr + size`), log_kernel's write cursor is its head pointer (the start
of its area, as `exynos_ss_remap` sets it) and every byte of its area is zero
afterwards; every entry after the first that is enabled at init with
`persist == false` and whose name the loop's comparison with "log_kernel"
rejects is zero over its whole area; and log_kevents, when enabled at init, is
zero from byte `ESS_KEEP_HEADER_SZ` of its area on. -/
theorem fixmap_cold_start (cfg : Platform) (s : State) (k : Nat) (tgt : exynos_ss_item)
    (hl : boot_layout s) (hk : s.ess_items[k + 1]? = some tgt)
    (he : tgt.entry.enabled_init ≠ 0) (hname : tgt.name = "log_kernel")
    (hhead : tgt.head_ptr = tgt.entry.vaddr)
    (hfit : tgt.entry.paddr + tgt.entry.size < 2 ^ 64)
    (hout : raw_readl s.mem (s.ess_base.vaddr + ESS_OFFSET_LAST_LOGBUF) < tgt.entry.paddr ∨
      tgt.entry.paddr + tgt.entry.size
        < raw_readl s.mem (s.ess_base.vaddr + ESS_OFFSET_LAST_LOGBUF)) :
    (exynos_ss_fixmap cfg s).1.ess_items[k + 1]? = some { tgt with curr_ptr := tgt.head_ptr } ∧
    (∀ a, tgt.entry.vaddr ≤ a → a < tgt.entry.vaddr + tgt.entry.size →
      (exynos_ss_fixmap cfg s).1.mem a = 0) ∧
    (∀ j it, s.ess_items[j + 1]? = some it → it.entry.enabled_init ≠ 0 →
      it.entry.persist = 0 → strncmp it.name "log_kernel" (strlen it.name) ≠ 0 →
      ∀ a, it.entry.vaddr ≤ a → a < it.entry.vaddr + it.entry.size →
        (exynos_ss_fixmap cfg s).1.mem a = 0) ∧
    (exynos_ss_get_enable s "log_kevents" true ≠ 0 → (kevents_item s).entry.size < 2 ^ 64 →
      ∀ a, s.ess_base.vaddr + ESS_KEEP_HEADER_SZ ≤ a →
        a < s.ess_base.vaddr + (kevents_item s).entry.size →
        (exynos_ss_fixmap cfg s).1.mem a = 0) := by
  refine ⟨?_, ?_, ?_, ?_⟩
  · have h1 := (fixmap_target cfg s k tgt hl hk he).1
    rw [fixmap_item_cold _ _ tgt hname hfit hout] at h1
    rw [h1, hhead]
  · intro a ha1 ha2
    have h2 := (fixmap_target cfg s k tgt hl hk he).2 a ha1 ha2
    rw [fixmap_item_cold _ _ tgt hname hfit hout] at h2
    rw [h2]
    exact memset_inside _ _ _ _ _ ha1 ha2
  · intro j it hj hie hip hin a ha1 ha2
    have h2 := (fixmap_target cfg s j it hl hj hie).2 a ha1 ha2
    rw [fixmap_item_other _ _ it hin] at h2
    rw [h2]
    simp only [hip, if_true]
    exact memset_inside _ _ _ _ _ ha1 ha2
  · intro hen hsz a ha1 ha2
    exact fixmap_kevents_tail cfg s hl hen hsz a ha1 ha2

theorem fixmap_cold_start_witness :
    boot_layout cold_state ∧
    (exynos_ss_fixmap platform8 cold_state).1.ess_items[1]? =
      some ⟨"log_kernel", ⟨SZ_2M, 0xF6800000, 0x46800000, 0, 1, 1⟩, 0xF6800000, 0xF6800000, 0⟩ ∧
    (exynos_ss_fixmap platform8 cold_state).1.mem 0xF6800000 = 0 :=
  have h := fixmap_cold_start platform8 cold_state 0
    ⟨"log_kernel", ⟨SZ_2M, 0xF6800000, 0x46800000, 0, 1, 1⟩, 0xF6800000, 0xF6800000, 0⟩
    (by decide) (by decide) (by decide) (by decide) (by decide) (by decide) (by decide)
  ⟨by decide, h.1.trans (by decide), h.2.1 0xF6800000 (by decide) (by decide)⟩

/-! ### C15 -/

/-- C15, the claim as written fails: in `resumed_state` the words at the
scratch and reason offsets of the header, where the signatures are kept, are 0
(no signature), and the last-write pointer `0x46800010` lies in log_kernel's
physical range; after `exynos_ss_fixmap` log_kernel's write cursor is
`0xF6800010`, not its head pointer `0xF6800000`, and the byte `0x41` at the
start of its buffer is still there. -/
theorem fixmap_ignores_signature :
    raw_readl resumed_state.mem (resumed_state.ess_base.vaddr + ESS_OFFSET_SCRATCH) = 0 ∧
    raw_readl resumed_state.mem (resumed_state.ess_base.vaddr + ESS_OFFSET_EMERGENCY_REASON)
      = 0 ∧
    raw_readl resumed_state.mem (resumed_state.ess_base.vaddr + ESS_OFFSET_LAST_LOGBUF)
      = 0x46800010 ∧
    resumed_state.ess_items[1]? =
      some ⟨"log_kernel", ⟨SZ_2M, 0xF6800000, 0x46800000, 0, 1, 1⟩, 0xF6800000, 0xF6800000, 0⟩ ∧
    (exynos_ss_fixmap platform8 resumed_state).1.ess_items[1]? =
      some ⟨"log_kernel", ⟨SZ_2M, 0xF6800000, 0x46800000, 0, 1, 1⟩, 0xF6800000, 0xF6800010, 0⟩ ∧
    (exynos_ss_fixmap platform8 resumed_state).1.mem 0xF6800000 = 0x41 := by
  decide

/-- C15 (amended): the boot classification does not read the signature words
of the header.  Whatever values `sig` and `reason` the words at
`ESS_OFFSET_SCRATCH` and `ESS_OFFSET_EMERGENCY_REASON` hold, when the
last-write pointer `L` lies in log_kernel's physical range, after
`exynos_ss_fixmap` log_kernel's write cursor is `vaddr + (L - paddr)` and no
byte of its buffer has changed. -/
theorem fixmap_signature_not_read (cfg : Platform) (s : State) (sig reason : Nat) (k : Nat)
    (tgt : exynos_ss_item) (hl : boot_layout s) (hk : s.ess_items[k + 1]? = some tgt)
    (he : tgt.entry.enabled_init ≠ 0) (hname : tgt.name = "log_kernel")
    (hfit : tgt.entry.paddr + tgt.entry.size < 2 ^ 64)
    (hvfit : tgt.entry.vaddr + tgt.entry.size < 2 ^ 64)
    (hlo : tgt.entry.paddr ≤ raw_readl s.mem (s.ess_base.vaddr + ESS_OFFSET_LAST_LOGBUF))
    (hhi : raw_readl s.mem (s.ess_base.vaddr + ESS_OFFSET_LAST_LOGBUF)
      ≤ tgt.entry.paddr + tgt.entry.size) :
    (exynos_ss_fixmap cfg (with_signature s sig reason)).1.ess_items[k + 1]? =
      some { tgt with
        curr_ptr := tgt.entry.vaddr +
          (raw_readl s.mem (s.ess_base.vaddr + ESS_OFFSET_LAST_LOGBUF) - tgt.entry.paddr) } ∧
    ∀ a, tgt.entry.vaddr ≤ a → a < tgt.entry.vaddr + tgt.entry.size →
      (exynos_ss_fixmap cfg (with_signature s sig reason)).1.mem a
        = (with_signature s sig reason).mem a := by
  have hl1 : boot_layout (with_signature s sig reason) := hl
  have hk1 : (with_signature s sig reason).ess_items[k + 1]? = some tgt := hk
  have hr := with_signature_last_logbuf s sig reason
  obtain ⟨h1, h2⟩ := fixmap_target cfg (with_signature s sig reason) k tgt hl1 hk1 he
  have hb : (with_signature s sig reason).ess_base.vaddr = s.ess_base.vaddr := rfl
  rw [hb] at h1 h2
  rw [fixmap_item_resume _ _ tgt hname hfit hvfit (by rw [hr]; exact hlo)
    (by rw [hr]; exact hhi), hr] at h1
  rw [fixmap_item_resume _ _ tgt hname hfit hvfit (by rw [hr]; exact hlo)
    (by rw [hr]; exact hhi)] at h2
  exact ⟨h1, h2⟩

theorem fixmap_signature_not_read_witness :
    boot_layout resumed_state ∧
    raw_readl (with_signature resumed_state 0xD 0xCAFE).mem
      (resumed_state.ess_base.vaddr + ESS_OFFSET_SCRATCH) = 0xD ∧
    (exynos_ss_fixmap platform8 (with_signature resumed_state 0xD 0xCAFE)).1.ess_items[1]? =
      some ⟨"log_kernel", ⟨SZ_2M, 0xF6800000, 0x46800000, 0, 1, 1⟩, 0xF6800000, 0xF6800010, 0⟩ :=
  have h := fixmap_signature_not_read platform8 resumed_state 0xD 0xCAFE 0
    ⟨"log_kernel", ⟨SZ_2M, 0xF6800000, 0x46800000, 0, 1, 1⟩, 0xF6800000, 0xF6800000, 0⟩
    (by decide) (by decide) (by decide) (by decide) (by decide) (by decide) (by decide)
    (by decide)
  ⟨by decide, by decide, h.1.trans (by decide)⟩

/-! ### C16 -/

/-- C16: boot initialisation leaves persistent categories untouched.  For an
entry after the first that is enabled at init (so that `exynos_ss_remap` gave
it an area of the region), has its persist flag set and whose name the loop's
comparison with "log_kernel" rejects (log_etm and log_pstore in the table),
`exynos_ss_fixmap` (which starts with `exynos_ss_fixmap_header`) leaves the
entry as it was and every byte of `[vaddr, vaddr + size)` with the value it had
before, whatever the memory and the last-write pointer held. -/
theorem fixmap_keeps_persistent (cfg : Platform) (s : State) (k : Nat) (tgt : exynos_ss_item)
    (hl : boot_layout s) (hk : s.ess_items[k + 1]? = some tgt)
    (he : tgt.entry.enabled_init ≠ 0) (hp : tgt.entry.persist ≠ 0)
    (hname : strncmp tgt.name "log_kernel" (strlen tgt.name) ≠ 0) :
    (exynos_ss_fixmap cfg s).1.ess_items[k + 1]? = some tgt ∧
    ∀ a, tgt.entry.vaddr ≤ a → a < tgt.entry.vaddr + tgt.entry.size →
      (exynos_ss_fixmap cfg s).1.mem a = s.mem a := by
  obtain ⟨h1, h2⟩ := fixmap_target cfg s k tgt hl hk he
  rw [fixmap_item_other _ _ tgt hname] at h1 h2
  simp only [hp, if_false] at h2
  exact ⟨h1, h2⟩

theorem fixmap_keeps_persistent_witness :
    boot_layout resumed_state ∧
    resumed_state.ess_items[4]? =
      some ⟨"log_etm", ⟨SZ_8M, 0xF7200000, 0x47200000, 1, 1, 1⟩, 0xF7200000, 0xF7200000, 0⟩ ∧
    resumed_state.mem 0xF7200000 = 0x42 ∧
    (exynos_ss_fixmap platform8 resumed_state).1.mem 0xF7200000 = 0x42 :=
  have h := fixmap_keeps_persistent platform8 resumed_state 3
    ⟨"log_etm", ⟨SZ_8M, 0xF7200000, 0x47200000, 1, 1, 1⟩, 0xF7200000, 0xF7200000, 0⟩
    (by decide) (by decide) (by decide) (by decide) (by decide)
  ⟨by decide, by decide, by decide,
   (h.2 0xF7200000 (by decide) (by decide)).trans (by decide)⟩

/-! ## The header words, the boot sequence and the reboot handler -/

theorem raw_readl_raw_writel (mem : Nat → Nat) (v addr : Nat) :
    raw_readl (raw_writel mem v addr) addr = v % 2 ^ 32 := by
  unfold raw_readl raw_writel memcpy le_byte
  have h0 : addr ≤ addr ∧ addr < addr + 4 := ⟨by omega, by omega⟩
  have h1 : addr ≤ addr + 1 ∧ addr + 1 < addr + 4 := ⟨by omega, by omega⟩
  have h2 : addr ≤ addr + 2 ∧ addr + 2 < addr + 4 := ⟨by omega, by omega⟩
  have h3 : addr ≤ addr + 3 ∧ addr + 3 < addr + 4 := ⟨by omega, by omega⟩
  simp only [h0, h1, h2, h3, and_self, if_true, Nat.sub_self, Nat.add_sub_cancel_left]
  norm_num
  omega

/-- C17, the header words after `exynos_ss_fixmap_header` on `cold_state`,
where `ess_base` holds size `0x1a08000`, vaddr `0xF6000000` and paddr
`0x46000000`: the first machine word at the region's virtual base is the size,
not the virtual base; the second is the virtual base and the third the physical
base, the member order of `struct exynos_ss_base`. -/
theorem fixmap_header_word_order :
    cold_state.ess_base = ⟨0x1a08000, 0xF6000000, 0x46000000, 0, 0, 0⟩ ∧
    read_u64 (exynos_ss_fixmap_header platform8 cold_state).mem 0xF6000000 = 0x1a08000 ∧
    read_u64 (exynos_ss_fixmap_header platform8 cold_state).mem (0xF6000000 + 8) = 0xF6000000 ∧
    read_u64 (exynos_ss_fixmap_header platform8 cold_state).mem (0xF6000000 + 16)
      = 0x46000000 := by
  decide

/-! ### C18 -/

/-- C18, a boot whose `map_vm_area` fails with `-ENOMEM`: `exynos_ss_remap`
returns `(size_t)-ENOMEM`, `exynos_ss_init` goes on all the same and returns 0
with `ess_base.enabled` set to 1, and the recording functions' gate
(`kevents_off`) is open. -/
theorem init_ignores_map_failure :
    (exynos_ss_remap (-12) reserved_state).2 = to_u64 (-12) ∧
    (exynos_ss_init platform8 (env_at 0 0) (-12) reserved_state).1.ess_base.enabled = 1 ∧
    ¬ kevents_off (exynos_ss_init platform8 (env_at 0 0) (-12) reserved_state).1 ∧
    (exynos_ss_init platform8 (env_at 0 0) (-12) reserved_state).2 = 0 := by
  decide

/-! ### C19 -/

/-- C20, a threshold whose product with 1000 does not fit 32 bits: with the
threshold 4294968 microseconds, all gates on, irq 5 (not in the denylist),
`start_time` 0 and the clock at 1000 ns, the latency 1000 does not exceed the
exact product 4294968000, yet `exynos_ss_irq_exit` records the event: the
per-cpu counter goes from 0 to 1 and slot 1 is written.  The code compares
with the `unsigned int` product, which is 704. -/
theorem irq_exit_threshold_wraps :
    ¬ kevents_off wide_threshold_state ∧
    wide_threshold_state.ess_irqexit_exlist = [-1] ∧
    ¬ (u64_sub 1000 0 > wide_threshold_state.ess_irqexit_threshold * 1000) ∧
    (wide_threshold_state.ess_irqexit_threshold * 1000) % 2 ^ 32 = 704 ∧
    wide_threshold_state.ess_idx.irq_exit_log_idx 0 = 0 ∧
    (exynos_ss_irq_exit (env_at 0 1000) wide_threshold_state 5 0).ess_idx.irq_exit_log_idx 0
      = 1 ∧
    (exynos_ss_irq_exit (env_at 0 1000) wide_threshold_state 5 0).ess_log.irq_exit 0 1
      = ⟨0, 1000, 1000, 5⟩ := by
  decide

/-! ## The pmsg decoder -/

theorem find_tag_name_eq (id : Int) :
    (find_tag_name_from_id id).getD none = linear_tag_lookup event_tags id := by
  unfold find_tag_name_from_id
  rw [find_tag_loop_eq event_tags id event_tags_pairwise _ _ _
    (le_refl 0) (by omega) (by omega) (by push_cast; omega)
    (by intro i _ hi; omega) (by intro i h hi; omega)]
  rfl

theorem decimal_digits_loop_length :
    ∀ (fuel n : Nat) (acc : List Nat),
      (decimal_digits_loop fuel n acc).length ≤ acc.length + fuel := by
  intro fuel
  induction fuel with
  | zero => intro n acc; simp [decimal_digits_loop]
  | succ f ih =>
    intro n acc
    unfold decimal_digits_loop
    split_ifs
    · simp only [List.length_cons]; omega
    · have := ih (n / 10) ((48 + n % 10) :: acc)
      simp only [List.length_cons] at this
      omega

theorem decimal_text_length (v : Int) : (decimal_text v).length ≤ 21 := by
  unfold decimal_text
  split_ifs
  · have := decimal_digits_loop_length 20 v.natAbs []
    simp only [List.length_cons, List.length_nil] at this ⊢
    omega
  · have := decimal_digits_loop_length 20 v.toNat []
    simp only [List.length_nil] at this
    omega

theorem snprintf_stored_fits (size : Nat) (text : List Nat) (h : text.length < size) :
    snprintf_stored size text = text := by
  unfold snprintf_stored
  exact List.take_of_length_le (by omega)

set_option maxRecDepth 100000 in
theorem event_tags_name_length : ∀ e ∈ event_tags, (cstr e.event_msg).length ≤ 60 := by
  decide

/-- What `exynos_ss_hook_pmsg` does with a record that is neither a header nor
a single byte: the text level of `exynos_ss_combine_pmsg`, with 0 returned. -/
theorem hook_pmsg_text (fmt : ess_logger → List Nat) (l : ess_logger) (s : State)
    (buffer : Nat → Nat) (count : Nat) (hbuf : l.buffer ≠ 0) (h7 : count ≠ 7)
    (h11 : count ≠ 11) (h1 : count ≠ 1) :
    exynos_ss_hook_pmsg fmt l s buffer count =
      ((exynos_ss_combine_pmsg fmt l s buffer count ESS_LOGGER_LEVEL_TEXT).1,
       (exynos_ss_combine_pmsg fmt l s buffer count ESS_LOGGER_LEVEL_TEXT).2.1, 0) := by
  unfold exynos_ss_hook_pmsg
  rw [if_neg hbuf, if_neg h7, if_neg h11, if_neg h1]

/-- The text level of `exynos_ss_combine_pmsg` on the event stream. -/
theorem combine_pmsg_event (fmt : ess_logger → List Nat) (l : ess_logger) (s : State)
    (buffer : Nat → Nat) (count : Nat) (hbuf : l.buffer ≠ 0) (hid : l.id = ESS_LOG_ID_EVENTS) :
    exynos_ss_combine_pmsg fmt l s buffer count ESS_LOGGER_LEVEL_TEXT =
      match (if count = 4 then linear_tag_lookup event_tags (read_int buffer 0) else none) with
      | some tag_name =>
        (l, exynos_ss_hook_logger s "log_platform"
              (char_buf (snprintf_stored 64 ([35, 32] ++ cstr tag_name ++ [32])))
              ([35, 32] ++ cstr tag_name ++ [32]).length, 0)
      | none =>
        (logger_set_msg0 l 0xff,
         if logger_msg0 l = EVENT_TYPE_LONG ∨ logger_msg0 l = EVENT_TYPE_INT ∨
             logger_msg0 l = EVENT_TYPE_FLOAT then
           (parse_buffer s buffer 0 (logger_msg0 l)).1
         else if count > 6 then
           if buffer 0 % 256 = EVENT_TYPE_LIST then
             exynos_ss_hook_logger
               (parse_list buffer (buffer 1 % 256)
                 (exynos_ss_hook_logger s "log_platform" (char_buf [91]) 1) 2).1
               "log_platform" (char_buf [93]) 1
           else if buffer 0 % 256 = EVENT_TYPE_STRING then
             (parse_buffer s buffer 1 EVENT_TYPE_STRING).1
           else s
         else s, 0) := by
  unfold exynos_ss_combine_pmsg
  have hH : ESS_LOGGER_LEVEL_TEXT ≠ ESS_LOGGER_LEVEL_HEADER := by decide
  have hP : ESS_LOGGER_LEVEL_TEXT ≠ ESS_LOGGER_LEVEL_PREFIX := by decide
  simp only [hbuf, hH, hP, hid, if_true, if_false, find_tag_name_eq]

/-! ### C21 -/

set_option maxRecDepth 100000 in
/-- C21, the claim as written fails at its own example: on the event stream
with the pending type byte `EVENT_TYPE_INT` (the logger two records lead to: an
11-byte header with id 2, then the byte 0), the 4-byte record holding 42 is
taken for the tag 42: the nine bytes "# answer " are appended to log_platform
(the cursor moves from `0xF6A00000` to `0xF6A00009`), not the two bytes of the
decimal text "42". -/
theorem pmsg_int_42_taken_for_tag :
    (exynos_ss_hook_pmsg sample_header
      (exynos_ss_hook_pmsg sample_header text_logger running_state
        (fun k => if k = 0 then 2 else 0) 11).1
      (exynos_ss_hook_pmsg sample_header text_logger running_state
        (fun k => if k = 0 then 2 else 0) 11).2.1
      (fun _ => 0) 1).1 = event_logger ∧
    event_logger.id = ESS_LOG_ID_EVENTS ∧ logger_msg0 event_logger = EVENT_TYPE_INT ∧
    read_int (int_record 42) 0 = 42 ∧ decimal_text 42 = cstr "42" ∧
    running_state.ess_items[2]? =
      some ⟨"log_platform", ⟨SZ_4M, 0xF6A00000, 0x46A00000, 0, 1, 1⟩, 0xF6A00000, 0xF6A00000, 0⟩ ∧
    (exynos_ss_hook_pmsg sample_header event_logger running_state
        (int_record 42) 4).2.1.ess_items[2]? =
      some ⟨"log_platform", ⟨SZ_4M, 0xF6A00000, 0x46A00000, 0, 1, 1⟩, 0xF6A00000, 0xF6A00009, 0⟩ ∧
    (List.range 9).map (fun k =>
        (exynos_ss_hook_pmsg sample_header event_logger running_state
          (int_record 42) 4).2.1.mem (0xF6A00000 + k)) = cstr "# answer " := by
  decide

/-! ### C23 -/

/-- C23, the claim as written fails for a 4-byte record: off the event stream,
with the decode buffer allocated, the free-text record "abcd" (count 4, last
byte not NUL) is skipped: log_platform's cursor stays at `0xF6A00000` and the
byte there stays 0, where an append of the first three bytes would have moved
the cursor to `0xF6A00003`. -/
theorem pmsg_skips_four_byte_text :
    text_logger.id ≠ ESS_LOG_ID_EVENTS ∧ text_logger.buffer ≠ 0 ∧
    (exynos_ss_hook_pmsg sample_header text_logger running_state
        (char_buf (cstr "abcd")) 4).2.1.ess_items[2]? =
      some ⟨"log_platform", ⟨SZ_4M, 0xF6A00000, 0x46A00000, 0, 1, 1⟩, 0xF6A00000, 0xF6A00000, 0⟩ ∧
    (exynos_ss_hook_pmsg sample_header text_logger running_state
        (char_buf (cstr "abcd")) 4).2.1.mem 0xF6A00000 = 0 ∧
    (exynos_ss_hook_logger running_state "log_platform"
        (char_buf (cstr "abcd")) 3).ess_items[2]? =
      some ⟨"log_platform", ⟨SZ_4M, 0xF6A00000, 0x46A00000, 0, 1, 1⟩, 0xF6A00000, 0xF6A00003, 0⟩ := by
  decide

/-! ## Slot indices, the irq exclusion list and the irqs-disabled ring -/

theorem iterate_inc_return (k : Nat) :
    ∀ c : Int, ∃ m : Int, Nat.iterate atomic_inc_return k c = c + k + 4294967296 * m := by
  induction k with
  | zero => intro c; exact ⟨0, by simp⟩
  | succ n ih =>
    intro c
    obtain ⟨m, hm⟩ := ih (atomic_inc_return c)
    rw [Function.iterate_succ_apply, hm]
    unfold atomic_inc_return int32_wrap
    refine ⟨m - (c + 1 + 2 ^ 31) / 2 ^ 32, ?_⟩
    push_cast
    omega

theorem ring_index_API (x : Int) : ring_index x ESS_API_MAX_NUM = (x % 2048).toNat := by
  unfold ring_index ESS_API_MAX_NUM SZ_2K
  have h : (0x800 - 1 : Nat) = 2 ^ 11 - 1 := by norm_num
  rw [h, Nat.and_pow_two_sub_one_eq_mod]
  unfold to_u64
  omega

theorem ring_index_32 (x : Int) : ring_index x SZ_32 = (x % 32).toNat := by
  unfold ring_index SZ_32
  have h : (0x20 - 1 : Nat) = 2 ^ 5 - 1 := by norm_num
  rw [h, Nat.and_pow_two_sub_one_eq_mod]
  unfold to_u64
  omega

/-! ### C25 -/

/-- C25: for each ring capacity of the file (`ESS_LOG_MAX_NUM` = 1024,
`ESS_LOG_MAX_NUM * 2` = 2048 for irq, `ESS_API_MAX_NUM` = 2048 for printk and
printkl, `SZ_32` for irqs_disabled) and every counter value `c`, negative ones
included: the slot index `c & (capacity - 1)` is below the capacity and equals
`c mod capacity`; the forms that go through `unsigned` (`index & (capacity - 1)`
in `exynos_ss_spinlock`, `index % capacity` in `exynos_ss_irqs_disabled`) give
the same index; and the counter reached after `k` increments (with 32-bit
wrap-around), `0 < k < capacity`, has a different slot index. -/
theorem ring_slot_index (c : Int) (cap : Nat)
    (hcap : cap ∈ [ESS_LOG_MAX_NUM, ESS_LOG_MAX_NUM * 2, ESS_API_MAX_NUM, SZ_32]) :
    ring_index c cap < cap ∧ (ring_index c cap : Int) = c % (cap : Int) ∧
    to_u32 c &&& (cap - 1) = ring_index c cap ∧ to_u32 c % cap = ring_index c cap ∧
    ∀ k : Nat, 0 < k → k < cap →
      ring_index (Nat.iterate atomic_inc_return k c) cap ≠ ring_index c cap := by
  have h1K : ESS_LOG_MAX_NUM = 1024 := by decide
  have h2K : ESS_LOG_MAX_NUM * 2 = 2048 := by decide
  have hAPI : ESS_API_MAX_NUM = 2048 := by decide
  have h32 : SZ_32 = 32 := by decide
  have e10 : (1024 - 1 : Nat) = 2 ^ 10 - 1 := by norm_num
  have e11 : (2048 - 1 : Nat) = 2 ^ 11 - 1 := by norm_num
  have e5 : (32 - 1 : Nat) = 2 ^ 5 - 1 := by norm_num
  simp only [List.mem_cons, List.mem_singleton, List.not_mem_nil, or_false] at hcap
  rcases hcap with h | h | h | h
  · subst h
    refine ⟨?_, ?_, ?_, ?_, ?_⟩
    · rw [ring_index_1K, h1K]; omega
    · rw [ring_index_1K, h1K]; omega
    · rw [ring_index_1K, h1K, e10, Nat.and_pow_two_sub_one_eq_mod]; unfold to_u32; omega
    · rw [ring_index_1K, h1K]; unfold to_u32; omega
    · intro k hk0 hk
      obtain ⟨m, hm⟩ := iterate_inc_return k c
      rw [hm, ring_index_1K, ring_index_1K]
      rw [h1K] at hk
      omega
  · subst h
    refine ⟨?_, ?_, ?_, ?_, ?_⟩
    · rw [ring_index_2K, h2K]; omega
    · rw [ring_index_2K, h2K]; omega
    · rw [ring_index_2K, h2K, e11, Nat.and_pow_two_sub_one_eq_mod]; unfold to_u32; omega
    · rw [ring_index_2K, h2K]; unfold to_u32; omega
    · intro k hk0 hk
      obtain ⟨m, hm⟩ := iterate_inc_return k c
      rw [hm, ring_index_2K, ring_index_2K]
      rw [h2K] at hk
      omega
  · subst h
    refine ⟨?_, ?_, ?_, ?_, ?_⟩
    · rw [ring_index_API, hAPI]; omega
    · rw [ring_index_API, hAPI]; omega
    · rw [ring_index_API, hAPI, e11, Nat.and_pow_two_sub_one_eq_mod]; unfold to_u32; omega
    · rw [ring_index_API, hAPI]; unfold to_u32; omega
    · intro k hk0 hk
      obtain ⟨m, hm⟩ := iterate_inc_return k c
      rw [hm, ring_index_API, ring_index_API]
      rw [hAPI] at hk
      omega
  · subst h
    refine ⟨?_, ?_, ?_, ?_, ?_⟩
    · rw [ring_index_32, h32]; omega
    · rw [ring_index_32, h32]; omega
    · rw [ring_index_32, h32, e5, Nat.and_pow_two_sub_one_eq_mod]; unfold to_u32; omega
    · rw [ring_index_32, h32]; unfold to_u32; omega
    · intro k hk0 hk
      obtain ⟨m, hm⟩ := iterate_inc_return k c
      rw [hm, ring_index_32, ring_index_32]
      rw [h32] at hk
      omega

theorem ring_slot_index_witness :
    Nat.iterate atomic_inc_return 2 2147483646 = -2147483648 ∧
    ring_index 2147483646 ESS_LOG_MAX_NUM = 1022 ∧
    ring_index (-2147483648) ESS_LOG_MAX_NUM = 0 ∧
    ring_index (Nat.iterate atomic_inc_return 2 2147483646) ESS_LOG_MAX_NUM
      ≠ ring_index 2147483646 ESS_LOG_MAX_NUM :=
  ⟨by decide, by decide, by decide,
   (ring_slot_index 2147483646 ESS_LOG_MAX_NUM (by decide)).2.2.2.2 2 (by decide) (by decide)⟩

/-! ### C26 -/

/-- C26, the store on the initial exclusion list: the list is `{-1}`, it has no
entry 0, so `ess_irqlog_exlist_store` given the irq number 152 finds the list
full and leaves it as it was; a later `exynos_ss_irq(152, ...)` with all gates
on is recorded (the counter of cpu 0 goes from 0 to 1 and slot 1 holds the
irq). -/
theorem irqlog_exlist_store_full :
    engine_on_state.ess_irqlog_exlist = [-1] ∧
    exlist_scan engine_on_state.ess_irqlog_exlist 0 = 1 ∧
    (ess_irqlog_exlist_store engine_on_state 152 4).1.ess_irqlog_exlist = [-1] ∧
    ¬ kevents_off (ess_irqlog_exlist_store engine_on_state 152 4).1 ∧
    engine_on_state.ess_idx.irq_log_idx 0 = 0 ∧
    (exynos_ss_irq (env_at 0 10) (ess_irqlog_exlist_store engine_on_state 152 4).1
      152 0 0 0).ess_idx.irq_log_idx 0 = 1 ∧
    (exynos_ss_irq (env_at 0 10) (ess_irqlog_exlist_store engine_on_state 152 4).1
      152 0 0 0).ess_log.irq 0 1 = ⟨10, 152, 0, 0, 0, 0⟩ := by
  decide

/-! ### C27 -/

/-- C27, a call `exynos_ss_irqs_disabled(0)` with all gates on, the counter of
cpu 0 at 0 and `jiffies_64` at 7777: the call claims slot 1 (its `index` field
becomes 1), but the time field of slot 1 keeps its old value 0 and the
timestamp 7777 is written to the time field of slot 0. -/
theorem irqs_disabled_time_in_slot_zero :
    ¬ kevents_off engine_on_state ∧
    engine_on_state.ess_idx.irqs_disabled_log_idx 0 = 0 ∧
    (exynos_ss_irqs_disabled jiffies_env engine_on_state 0).ess_idx.irqs_disabled_log_idx 0
      = 1 ∧
    ((exynos_ss_irqs_disabled jiffies_env engine_on_state 0).ess_log.irqs_disabled 0 1).index
      = 1 ∧
    (engine_on_state.ess_log.irqs_disabled 0 1).time = 0 ∧
    ((exynos_ss_irqs_disabled jiffies_env engine_on_state 0).ess_log.irqs_disabled 0 1).time
      = 0 ∧
    (engine_on_state.ess_log.irqs_disabled 0 0).time = 0 ∧
    ((exynos_ss_irqs_disabled jiffies_env engine_on_state 0).ess_log.irqs_disabled 0 0).time
      = 7777 := by
  decide

/-! ## The bytes an append writes -/

theorem memcpy_inside (mem : Nat → Nat) (dst : Nat) (src : Nat → Nat) (n a : Nat)
    (h1 : dst ≤ a) (h2 : a < dst + n) : memcpy mem dst src n a = src (a - dst) := by
  unfold memcpy
  rw [if_pos ⟨h1, h2⟩]

theorem append_start_eq (it : exynos_ss_item) (size : Nat) (hinv : cursor_within it)
    (hsize : size ≤ it.entry.size) (hfit : it.head_ptr + it.entry.size + size < 2 ^ 64) :
    (if exynos_ss_check_eob it size ≠ 0 then it.head_ptr else it.curr_ptr)
      = append_start it size ∧
    u64_add (append_start it size) size = append_start it size + size ∧
    it.head_ptr ≤ append_start it size ∧
    append_start it size + size ≤ it.head_ptr + it.entry.size := by
  unfold cursor_within at hinv
  unfold exynos_ss_check_eob append_start u64_add
  have h1 : (it.head_ptr + it.entry.size) % 2 ^ 64 = it.head_ptr + it.entry.size :=
    Nat.mod_eq_of_lt (by omega)
  have h2 : (it.curr_ptr + size) % 2 ^ 64 = it.curr_ptr + size :=
    Nat.mod_eq_of_lt (by omega)
  rw [h1, h2]
  by_cases hle : it.curr_ptr + size ≤ it.head_ptr + it.entry.size
  · have hgt : ¬ it.curr_ptr + size > it.head_ptr + it.entry.size := by omega
    rw [if_pos hle]
    refine ⟨?_, Nat.mod_eq_of_lt (by omega), hinv.1, hle⟩
    simp only [hgt, if_false, ne_eq, not_true_eq_false]
  · have hgt : it.curr_ptr + size > it.head_ptr + it.entry.size := by omega
    rw [if_neg hle]
    refine ⟨?_, Nat.mod_eq_of_lt (by omega), le_refl _, by omega⟩
    simp only [hgt, if_true, ne_eq, Int.reduceNeg, neg_eq_zero, one_ne_zero,
      not_false_eq_true]

theorem hook_logger_fields (s : State) (name : String) (buf : Nat → Nat) (size i : Nat)
    (it : exynos_ss_item)
    (hfind : find_item s.ess_items name s.ess_desc.log_platform_num = some (i, it))
    (hon : s.ess_base.enabled = 1 ∧ it.entry.enabled = 1) (hinv : cursor_within it)
    (hsize : size ≤ it.entry.size) (hfit : it.head_ptr + it.entry.size + size < 2 ^ 64) :
    (exynos_ss_hook_logger s name buf size).mem = memcpy s.mem (append_start it size) buf size ∧
    (exynos_ss_hook_logger s name buf size).ess_items =
      s.ess_items.set i { it with curr_ptr := append_start it size + size } := by
  obtain ⟨h1, h2, -, -⟩ := append_start_eq it size hinv hsize hfit
  unfold exynos_ss_hook_logger
  rw [hfind]
  simp only [hon, and_self, if_true, h1, h2]

theorem hook_logbuf_fields (cfg : Platform) (s : State) (buf : Nat → Nat) (size : Nat)
    (it : exynos_ss_item) (hk : s.ess_items[s.ess_desc.log_kernel_num]? = some it)
    (hon : s.ess_base.enabled = 1 ∧ it.entry.enabled = 1) (hinv : cursor_within it)
    (hsize : size ≤ it.entry.size) (hfit : it.head_ptr + it.entry.size + size < 2 ^ 64) :
    (exynos_ss_hook_logbuf cfg s buf size).mem =
      raw_writel
        (memcpy
          (if exynos_ss_check_eob it size ≠ 0 then
            write_u64 s.mem cfg.SEC_LKMSG_MAGICKEY
              (u64_sub (u64_add it.head_ptr it.entry.size) 0x08)
           else s.mem)
          (append_start it size) buf size)
        (u64_add it.entry.paddr (u64_sub (append_start it size + size) it.entry.vaddr))
        (s.ess_base.vaddr + ESS_OFFSET_LAST_LOGBUF) ∧
    (exynos_ss_hook_logbuf cfg s buf size).ess_items =
      s.ess_items.set s.ess_desc.log_kernel_num
        { it with curr_ptr := append_start it size + size } := by
  obtain ⟨h1, h2, -, -⟩ := append_start_eq it size hinv hsize hfit
  unfold exynos_ss_hook_logbuf exynos_ss_get_base_vaddr
  rw [hk]
  simp only [hon, and_self, if_true, h1, h2]

/-! ### C28 -/

/-- C28: byte appends stay inside the category's buffer.  For an entry `it`
with the engine and the entry enabled, `head_ptr <= curr_ptr <= head_ptr +
size`, a record of `size <= entry.size` bytes and addresses below `2 ^ 64`, let
`p = append_start it size` (the old cursor when the record fits before the end,
the head otherwise).  Then `[p, p + size)` lies in `[head_ptr, head_ptr +
entry.size)`; after `exynos_ss_hook_logger` on the category the name selects,
the cursor is `p + size`, the bytes at `[p, p + size)` are the record and every
other byte of memory is unchanged; after `exynos_ss_hook_logbuf` on log_kernel
(a buffer of at least 8 bytes) the cursor is `p + size` and every byte outside
`[p, p + size)`, outside the last 8 bytes of the buffer (the magic key) and
outside the header word at `ESS_OFFSET_LAST_LOGBUF` is unchanged. -/
theorem append_stays_in_buffer (cfg : Platform) (s : State) (buf : Nat → Nat) (size : Nat)
    (it : exynos_ss_item) (hon : s.ess_base.enabled = 1 ∧ it.entry.enabled = 1)
    (hinv : cursor_within it) (hsize : size ≤ it.entry.size)
    (hfit : it.head_ptr + it.entry.size + size < 2 ^ 64) :
    (it.head_ptr ≤ append_start it size ∧
      append_start it size + size ≤ it.head_ptr + it.entry.size) ∧
    (∀ (name : String) (i : Nat),
      find_item s.ess_items name s.ess_desc.log_platform_num = some (i, it) →
      (exynos_ss_hook_logger s name buf size).ess_items[i]?
        = some { it with curr_ptr := append_start it size + size } ∧
      (∀ k, k < size →
        (exynos_ss_hook_logger s name buf size).mem (append_start it size + k) = buf k) ∧
      (∀ a, a < append_start it size ∨ append_start it size + size ≤ a →
        (exynos_ss_hook_logger s name buf size).mem a = s.mem a)) ∧
    (s.ess_items[s.ess_desc.log_kernel_num]? = some it → 8 ≤ it.entry.size →
      (exynos_ss_hook_logbuf cfg s buf size).ess_items[s.ess_desc.log_kernel_num]?
        = some { it with curr_ptr := append_start it size + size } ∧
      (∀ a, a < append_start it size ∨ append_start it size + size ≤ a →
        a < it.head_ptr + it.entry.size - 8 ∨ it.head_ptr + it.entry.size ≤ a →
        a < s.ess_base.vaddr + ESS_OFFSET_LAST_LOGBUF ∨
          s.ess_base.vaddr + ESS_OFFSET_LAST_LOGBUF + 4 ≤ a →
        (exynos_ss_hook_logbuf cfg s buf size).mem a = s.mem a)) := by
  obtain ⟨-, -, h3, h4⟩ := append_start_eq it size hinv hsize hfit
  refine ⟨⟨h3, h4⟩, ?_, ?_⟩
  · intro name i hfind
    obtain ⟨hm, hi⟩ := hook_logger_fields s name buf size i it hfind hon hinv hsize hfit
    rw [hm, hi]
    refine ⟨getElem?_set_some _ _ _ _ (find_item_some _ _ _ _ _ hfind), ?_, ?_⟩
    · intro k hk
      rw [memcpy_inside _ _ _ _ _ (by omega) (by omega), Nat.add_sub_cancel_left]
    · intro a ha
      exact memcpy_outside _ _ _ _ _ ha
  · intro hk h8
    obtain ⟨hm, hi⟩ := hook_logbuf_fields cfg s buf size it hk hon hinv hsize hfit
    rw [hm, hi]
    refine ⟨getElem?_set_some _ _ _ _ hk, ?_⟩
    intro a ha hkey hhdr
    have hkeyaddr : u64_sub (u64_add it.head_ptr it.entry.size) 0x08
        = it.head_ptr + it.entry.size - 8 := by
      unfold u64_sub u64_add to_u64; omega
    unfold raw_writel
    rw [memcpy_outside _ _ _ _ _ hhdr, memcpy_outside _ _ _ _ _ ha]
    split_ifs
    · unfold write_u64
      rw [hkeyaddr, memcpy_outside _ _ _ _ _ (by omega)]
    · rfl

theorem append_stays_in_buffer_witness :
    append_start ⟨"log_platform", ⟨0x400000, 0xffffff80f6a00000, 0x46a00000, 0, 1, 1⟩,
      0xffffff80f6a00000, 0xffffff80f6a00000, 0⟩ 3 = 0xffffff80f6a00000 ∧
    (exynos_ss_hook_logger stream_state "log_platform" (fun k => 65 + k) 3).mem
      (0xffffff80f6a00000 + 2) = 67 ∧
    (exynos_ss_hook_logger stream_state "log_platform" (fun k => 65 + k) 3).mem
      (0xffffff80f6a00000 + 3) = stream_state.mem (0xffffff80f6a00000 + 3) :=
  have h := (append_stays_in_buffer platform8 stream_state (fun k => 65 + k) 3
    ⟨"log_platform", ⟨0x400000, 0xffffff80f6a00000, 0x46a00000, 0, 1, 1⟩,
      0xffffff80f6a00000, 0xffffff80f6a00000, 0⟩
    (by decide) (by decide) (by decide) (by decide)).2.1 "log_platform" 2 (by decide)
  ⟨by decide, h.2.1 2 (by decide), h.2.2 (0xffffff80f6a00000 + 3) (Or.inr (by decide))⟩

/-! ### C29 -/

/-- C29: persist-then-resume round trip for log_kernel.  For a log_kernel entry
`it` (engine and entry enabled, `head_ptr = vaddr`, `head_ptr <= curr_ptr <=
head_ptr + size`, `paddr + size < 2 ^ 32`) and a record no longer than the
capacity, after `exynos_ss_hook_logbuf` the 32-bit word at header offset
`ESS_OFFSET_LAST_LOGBUF` is `paddr + (new curr_ptr - vaddr)`; this value passes
the range test of the boot-time check, and the loop body of `exynos_ss_fixmap`
run on the memory after the append, for the same entry with any cursor `c0`,
restores exactly the new `curr_ptr` and leaves the memory as it is. -/
theorem logbuf_round_trip (cfg : Platform) (s : State) (buf : Nat → Nat) (size : Nat)
    (it : exynos_ss_item) (hk : s.ess_items[s.ess_desc.log_kernel_num]? = some it)
    (hon : s.ess_base.enabled = 1 ∧ it.entry.enabled = 1) (hname : it.name = "log_kernel")
    (hhead : it.head_ptr = it.entry.vaddr) (hinv : cursor_within it)
    (hsize : size ≤ it.entry.size) (hp32 : it.entry.paddr + it.entry.size < 2 ^ 32)
    (hfit : it.head_ptr + it.entry.size + size < 2 ^ 64) :
    ∃ it1, (exynos_ss_hook_logbuf cfg s buf size).ess_items[s.ess_desc.log_kernel_num]?
        = some it1 ∧
      raw_readl (exynos_ss_hook_logbuf cfg s buf size).mem
          (s.ess_base.vaddr + ESS_OFFSET_LAST_LOGBUF)
        = it.entry.paddr + (it1.curr_ptr - it.entry.vaddr) ∧
      it.entry.paddr ≤ it.entry.paddr + (it1.curr_ptr - it.entry.vaddr) ∧
      it.entry.paddr + (it1.curr_ptr - it.entry.vaddr) ≤ it.entry.paddr + it.entry.size ∧
      ∀ c0, fixmap_item s.ess_base.vaddr (exynos_ss_hook_logbuf cfg s buf size).mem
          { it with curr_ptr := c0 } = (it1, (exynos_ss_hook_logbuf cfg s buf size).mem) := by
  obtain ⟨-, -, h3, h4⟩ := append_start_eq it size hinv hsize hfit
  obtain ⟨hm, hi⟩ := hook_logbuf_fields cfg s buf size it hk hon hinv hsize hfit
  have hval : u64_add it.entry.paddr (u64_sub (append_start it size + size) it.entry.vaddr)
      = it.entry.paddr + (append_start it size + size - it.entry.vaddr) := by
    unfold u64_add u64_sub to_u64; omega
  have hread : raw_readl (exynos_ss_hook_logbuf cfg s buf size).mem
      (s.ess_base.vaddr + ESS_OFFSET_LAST_LOGBUF)
      = it.entry.paddr + (append_start it size + size - it.entry.vaddr) := by
    rw [hm, raw_readl_raw_writel, hval]
    exact Nat.mod_eq_of_lt (by omega)
  refine ⟨{ it with curr_ptr := append_start it size + size }, ?_, hread, by omega,
    by simp only []; omega, ?_⟩
  · rw [hi]
    exact getElem?_set_some _ _ _ _ hk
  · intro c0
    rw [fixmap_item_resume s.ess_base.vaddr _ { it with curr_ptr := c0 } hname
      (by simp only []; omega) (by simp only []; omega)
      (by rw [hread]; simp only []; omega) (by rw [hread]; simp only []; omega), hread]
    have : it.entry.vaddr + (it.entry.paddr + (append_start it size + size - it.entry.vaddr)
        - it.entry.paddr) = append_start it size + size := by omega
    simp only [this]

theorem logbuf_round_trip_witness :
    ∃ it1, (exynos_ss_hook_logbuf platform8 running_state (fun k => 65 + k) 3).ess_items[1]?
        = some it1 ∧
      raw_readl (exynos_ss_hook_logbuf platform8 running_state (fun k => 65 + k) 3).mem
          (0xF6000000 + ESS_OFFSET_LAST_LOGBUF)
        = 0x46800000 + (it1.curr_ptr - 0xF6800000) ∧
      fixmap_item 0xF6000000 (exynos_ss_hook_logbuf platform8 running_state (fun k => 65 + k) 3).mem
          ⟨"log_kernel", ⟨SZ_2M, 0xF6800000, 0x46800000, 0, 1, 1⟩, 0xF6800000, 0, 0⟩
        = (it1, (exynos_ss_hook_logbuf platform8 running_state (fun k => 65 + k) 3).mem) :=
  have h := logbuf_round_trip platform8 running_state (fun k => 65 + k) 3
    ⟨"log_kernel", ⟨SZ_2M, 0xF6800000, 0x46800000, 0, 1, 1⟩, 0xF6800000, 0xF6800000, 0⟩
    (by decide) (by decide) (by decide) (by decide) (by decide) (by decide) (by decide)
    (by decide)
  h.elim (fun it1 h1 => ⟨it1, h1.1, h1.2.1, h1.2.2.2.2 0⟩)

/-! ### C30 -/

/-- C30: header initialisation keeps the persisted words it must still read.
When log_kevents is enabled at init, starts at the region's virtual base and
holds at least `ESS_KEEP_HEADER_SZ` bytes (its area not wrapping the address
space), after `exynos_ss_fixmap_header` the first `sizeof(struct
exynos_ss_base)` bytes of the region hold the copy of `ess_base`, every other
byte below offset `ESS_KEEP_HEADER_SZ` is unchanged, so the scratch word at
offset `0x100` and the last-write pointer at offset `0x200` read as before, and
every byte from offset `ESS_KEEP_HEADER_SZ` to the end of log_kevents' area,
is zero, the reason word at `ESS_OFFSET_EMERGENCY_REASON` included when the
area holds it. -/
theorem fixmap_header_keeps_words (cfg : Platform) (s : State)
    (hen : exynos_ss_get_enable s "log_kevents" true ≠ 0)
    (hv : (kevents_item s).entry.vaddr = s.ess_base.vaddr)
    (hsz : ESS_KEEP_HEADER_SZ ≤ (kevents_item s).entry.size)
    (hfit : s.ess_base.vaddr + (kevents_item s).entry.size < 2 ^ 64) :
    (∀ k, k < sizeof_exynos_ss_base →
      (exynos_ss_fixmap_header cfg s).mem (s.ess_base.vaddr + k)
        = exynos_ss_base_bytes s.ess_base k) ∧
    (∀ a, s.ess_base.vaddr + sizeof_exynos_ss_base ≤ a →
      a < s.ess_base.vaddr + ESS_KEEP_HEADER_SZ →
      (exynos_ss_fixmap_header cfg s).mem a = s.mem a) ∧
    raw_readl (exynos_ss_fixmap_header cfg s).mem (s.ess_base.vaddr + ESS_OFFSET_SCRATCH)
      = raw_readl s.mem (s.ess_base.vaddr + ESS_OFFSET_SCRATCH) ∧
    raw_readl (exynos_ss_fixmap_header cfg s).mem (s.ess_base.vaddr + ESS_OFFSET_LAST_LOGBUF)
      = raw_readl s.mem (s.ess_base.vaddr + ESS_OFFSET_LAST_LOGBUF) ∧
    (∀ a, s.ess_base.vaddr + ESS_KEEP_HEADER_SZ ≤ a →
      a < s.ess_base.vaddr + (kevents_item s).entry.size →
      (exynos_ss_fixmap_header cfg s).mem a = 0) ∧
    (ESS_OFFSET_EMERGENCY_REASON + 4 ≤ (kevents_item s).entry.size →
      raw_readl (exynos_ss_fixmap_header cfg s).mem
        (s.ess_base.vaddr + ESS_OFFSET_EMERGENCY_REASON) = 0) := by
  have hK : ESS_KEEP_HEADER_SZ = 768 := by decide
  have hS : sizeof_exynos_ss_base = 40 := rfl
  have hSc : ESS_OFFSET_SCRATCH = 256 := rfl
  have hL : ESS_OFFSET_LAST_LOGBUF = 512 := rfl
  have hR : ESS_OFFSET_EMERGENCY_REASON = 768 := rfl
  have h2 : u64_add s.ess_base.vaddr ESS_KEEP_HEADER_SZ = s.ess_base.vaddr + 768 := by
    unfold u64_add; omega
  have h3 : u64_sub (kevents_item s).entry.size ESS_KEEP_HEADER_SZ
      = (kevents_item s).entry.size - 768 := by
    unfold u64_sub to_u64; omega
  have hmem := fixmap_header_mem_eq cfg s
  rw [if_neg hen, hv, h2, h3] at hmem
  have hkeep : ∀ a, s.ess_base.vaddr + 40 ≤ a → a < s.ess_base.vaddr + 768 →
      (exynos_ss_fixmap_header cfg s).mem a = s.mem a := by
    intro a ha1 ha2
    rw [hmem, memset_outside _ _ _ _ _ (by omega), memcpy_outside _ _ _ _ _ (by omega)]
  have hzero : ∀ a, s.ess_base.vaddr + 768 ≤ a →
      a < s.ess_base.vaddr + (kevents_item s).entry.size →
      (exynos_ss_fixmap_header cfg s).mem a = 0 := by
    intro a ha1 ha2
    rw [hmem]
    exact memset_inside _ _ _ _ _ (by omega) (by omega)
  rw [hK, hS, hSc, hL, hR]
  refine ⟨?_, hkeep, ?_, ?_, hzero, ?_⟩
  · intro k hk
    rw [hmem, memset_outside _ _ _ _ _ (by omega), memcpy_inside _ _ _ _ _ (by omega) (by omega),
      Nat.add_sub_cancel_left]
  · exact raw_readl_congr _ _ _ (fun a h1 h2 => hkeep a (by omega) (by omega))
  · exact raw_readl_congr _ _ _ (fun a h1 h2 => hkeep a (by omega) (by omega))
  · intro h4
    unfold raw_readl
    rw [hzero (s.ess_base.vaddr + 768) (by omega) (by omega),
      hzero (s.ess_base.vaddr + 768 + 1) (by omega) (by omega),
      hzero (s.ess_base.vaddr + 768 + 2) (by omega) (by omega),
      hzero (s.ess_base.vaddr + 768 + 3) (by omega) (by omega)]

theorem fixmap_header_keeps_words_witness :
    raw_readl (with_signature resumed_state 0xD 0xCAFE).mem (0xF6000000 + 0x300) = 0xCAFE ∧
    raw_readl (exynos_ss_fixmap_header platform8 (with_signature resumed_state 0xD 0xCAFE)).mem
      (0xF6000000 + ESS_OFFSET_SCRATCH) = 0xD ∧
    raw_readl (exynos_ss_fixmap_header platform8 (with_signature resumed_state 0xD 0xCAFE)).mem
      (0xF6000000 + ESS_OFFSET_LAST_LOGBUF) = 0x46800010 ∧
    raw_readl (exynos_ss_fixmap_header platform8 (with_signature resumed_state 0xD 0xCAFE)).mem
      (0xF6000000 + ESS_OFFSET_EMERGENCY_REASON) = 0 :=
  have h := fixmap_header_keeps_words platform8 (with_signature resumed_state 0xD 0xCAFE)
    (by decide) (by decide) (by decide) (by decide)
  ⟨by decide, h.2.2.1.trans (by decide), h.2.2.2.1.trans (by decide),
   h.2.2.2.2.2 (by decide)⟩

/-! ## The text the pmsg decoder appends to log_platform -/

theorem range_map_char_buf (text : List Nat) :
    (List.range text.length).map (char_buf text) = text := by
  apply List.ext_getElem
  · simp
  · intro n h1 h2
    simp [char_buf, List.getD_eq_getElem?_getD, List.getElem?_eq_getElem h2]

theorem appended_of_fields (s s1 : State) (i : Nat) (it : exynos_ss_item) (buf : Nat → Nat)
    (size : Nat) (hi0 : s.ess_items[i]? = some it)
    (hm : s1.mem = memcpy s.mem (append_start it size) buf size)
    (hi : s1.ess_items =
      s.ess_items.set i { it with curr_ptr := append_start it size + size }) :
    appended s s1 i it ((List.range size).map buf) := by
  have hlen : ((List.range size).map buf).length = size := by simp
  unfold appended
  rw [hlen, hm, hi]
  refine ⟨getElem?_set_some _ _ _ _ hi0, ?_, ?_, ?_⟩
  · intro j hj
    exact List.getElem?_set_ne (Ne.symm hj)
  · apply List.map_congr_left
    intro k hk
    have hk1 : k < size := List.mem_range.1 hk
    rw [memcpy_inside _ _ _ _ _ (by omega) (by omega), Nat.add_sub_cancel_left]
  · intro a ha
    exact memcpy_outside _ _ _ _ _ ha

theorem hook_pmsg_int_eq (fmt : ess_logger → List Nat) (l : ess_logger) (s : State)
    (buffer : Nat → Nat) (v : Int) (hbuf : l.buffer ≠ 0) (hid : l.id = ESS_LOG_ID_EVENTS)
    (htype : logger_msg0 l = EVENT_TYPE_INT) (hv : read_int buffer 0 = v)
    (hnot : ∀ e ∈ event_tags, e.nTagNum ≠ v) :
    exynos_ss_hook_pmsg fmt l s buffer 4 =
      (logger_set_msg0 l 0xff,
       exynos_ss_hook_logger s "log_platform" (char_buf (decimal_text v))
         (decimal_text v).length, 0) := by
  rw [hook_pmsg_text fmt l s buffer 4 hbuf (by decide) (by decide) (by decide),
    combine_pmsg_event fmt l s buffer 4 hbuf hid, hv,
    linear_tag_lookup_of_not_mem event_tags v hnot]
  have hfit := snprintf_stored_fits 64 (decimal_text v)
    (by have := decimal_text_length v; omega)
  simp only [if_true, htype, or_true, true_or]
  unfold parse_buffer
  simp only [if_true, hv, hfit]

theorem hook_pmsg_tag_eq (fmt : ess_logger → List Nat) (l : ess_logger) (s : State)
    (buffer : Nat → Nat) (e : event_log_tag_t) (he : e ∈ event_tags) (hbuf : l.buffer ≠ 0)
    (hid : l.id = ESS_LOG_ID_EVENTS) (hv : read_int buffer 0 = e.nTagNum) :
    exynos_ss_hook_pmsg fmt l s buffer 4 =
      (l, exynos_ss_hook_logger s "log_platform"
            (char_buf ([35, 32] ++ cstr e.event_msg ++ [32]))
            ([35, 32] ++ cstr e.event_msg ++ [32]).length, 0) := by
  rw [hook_pmsg_text fmt l s buffer 4 hbuf (by decide) (by decide) (by decide),
    combine_pmsg_event fmt l s buffer 4 hbuf hid, hv,
    linear_tag_lookup_of_mem event_tags _ event_tags_pairwise e he rfl]
  have hlen := event_tags_name_length e he
  have hfit := snprintf_stored_fits 64 ([35, 32] ++ cstr e.event_msg ++ [32])
    (by simp only [List.length_append, List.length_cons, List.length_nil]; omega)
  simp only [if_true, hfit]

theorem hook_pmsg_free_text_eq (fmt : ess_logger → List Nat) (l : ess_logger) (s : State)
    (buffer : Nat → Nat) (count : Nat) (hbuf : l.buffer ≠ 0)
    (hid : l.id ≠ ESS_LOG_ID_EVENTS) (h2 : 2 ≤ count) (hmax : count < 2 ^ 64)
    (h7 : count ≠ 7) (h11 : count ≠ 11) :
    exynos_ss_hook_pmsg fmt l s buffer count =
      if count = 4 ∧ buffer 3 % 256 ≠ 0 then (l, s, 0)
      else (l, exynos_ss_hook_logger s "log_platform" buffer (count - 1), 0) := by
  have hsub : u64_sub count 1 = count - 1 := by unfold u64_sub to_u64; omega
  have hH : ESS_LOGGER_LEVEL_TEXT ≠ ESS_LOGGER_LEVEL_HEADER := by decide
  have hP : ESS_LOGGER_LEVEL_TEXT ≠ ESS_LOGGER_LEVEL_PREFIX := by decide
  have hS : ESS_LOGGER_SKIP_COUNT = 4 := rfl
  have hD : ESS_LOGGER_STRING_PAD = 1 := rfl
  rw [hook_pmsg_text fmt l s buffer count hbuf h7 h11 (by omega)]
  unfold exynos_ss_combine_pmsg
  simp only [hbuf, hH, hP, hid, if_true, if_false, hS, hD, hsub]
  by_cases hskip : count = 4 ∧ buffer 3 % 256 ≠ 0
  · obtain ⟨h4, hb⟩ := hskip
    subst h4
    rw [if_pos ⟨rfl, hb⟩]
  · have hno1 : ¬ (count = 4 ∧ buffer (count - 1) % 256 ≠ 0) := by
      rintro ⟨h4, hb⟩
      subst h4
      exact hskip ⟨rfl, hb⟩
    rw [if_neg hno1, if_neg hskip]

theorem parse_buffer_string_eq (s : State) (buffer : Nat → Nat) (pos : Nat) :
    parse_buffer s buffer pos EVENT_TYPE_STRING =
      (exynos_ss_hook_logger s "log_platform"
         (fun k => if k < min (raw_readl buffer pos) 63 then buffer (pos + 4 + k) else 0)
         (min (raw_readl buffer pos) 63),
       pos + 4 + raw_readl buffer pos) := by
  have hmin : (if raw_readl buffer pos ≥ 64 then 63 else raw_readl buffer pos)
      = min (raw_readl buffer pos) 63 := by
    split_ifs <;> omega
  unfold parse_buffer
  have h0 : EVENT_TYPE_STRING ≠ EVENT_TYPE_INT := by decide
  have h1 : EVENT_TYPE_STRING ≠ EVENT_TYPE_LONG := by decide
  have h4 : EVENT_TYPE_STRING ≠ EVENT_TYPE_FLOAT := by decide
  simp only [h0, h1, h4, if_false, if_true, hmin]

/-! ### C21 (amended) -/

/-- C21 (amended): on the event stream, with the pending type byte
`EVENT_TYPE_INT` and the decode buffer allocated, for every 32-bit signed value
`v` that is not the number of an entry of `event_tags`, the 4-byte record
holding `v` makes `exynos_ss_hook_pmsg` call the logger hook once, for
log_platform with the decimal text of `v`, set the pending type byte to `0xff`
and return 0.  When log_platform is the entry `it` at index `i`, enabled with
the engine, its cursor within the buffer and the text no longer than the
capacity, the text is appended (`appended`): afterwards the bytes at the start
`p` of the append are exactly the decimal text of `v`, the cursor is `p` plus
the length of the text, and no other entry and no other byte of memory has
changed. -/
theorem pmsg_int_record (fmt : ess_logger → List Nat) (l : ess_logger) (s : State)
    (buffer : Nat → Nat) (v : Int) (hbuf : l.buffer ≠ 0) (hid : l.id = ESS_LOG_ID_EVENTS)
    (htype : logger_msg0 l = EVENT_TYPE_INT) (hv : read_int buffer 0 = v)
    (hnot : ∀ e ∈ event_tags, e.nTagNum ≠ v) :
    (exynos_ss_hook_pmsg fmt l s buffer 4).1 = logger_set_msg0 l 0xff ∧
    (exynos_ss_hook_pmsg fmt l s buffer 4).2.2 = 0 ∧
    (exynos_ss_hook_pmsg fmt l s buffer 4).2.1 =
      exynos_ss_hook_logger s "log_platform" (char_buf (decimal_text v))
        (decimal_text v).length ∧
    ∀ (i : Nat) (it : exynos_ss_item),
      find_item s.ess_items "log_platform" s.ess_desc.log_platform_num = some (i, it) →
      s.ess_base.enabled = 1 ∧ it.entry.enabled = 1 → cursor_within it →
      (decimal_text v).length ≤ it.entry.size →
      it.head_ptr + it.entry.size + (decimal_text v).length < 2 ^ 64 →
      appended s (exynos_ss_hook_pmsg fmt l s buffer 4).2.1 i it (decimal_text v) := by
  rw [hook_pmsg_int_eq fmt l s buffer v hbuf hid htype hv hnot]
  refine ⟨rfl, rfl, rfl, ?_⟩
  intro i it hfind hon hinv hsize hfit
  have hf : ∀ (buf : Nat → Nat) (n : Nat), n ≤ it.entry.size →
      it.head_ptr + it.entry.size + n < 2 ^ 64 →
      (exynos_ss_hook_logger s "log_platform" buf n).mem
        = memcpy s.mem (append_start it n) buf n ∧
      (exynos_ss_hook_logger s "log_platform" buf n).ess_items
        = s.ess_items.set i { it with curr_ptr := append_start it n + n } := by
    intro buf n hn hw
    obtain ⟨h1, h2, -, -⟩ := append_start_eq it n hinv hn hw
    unfold exynos_ss_hook_logger
    rw [hfind]
    simp only [hon, and_self, if_true, h1, h2]
  have h := appended_of_fields s _ i it (char_buf (decimal_text v)) (decimal_text v).length
    (find_item_some _ _ _ _ _ hfind) (hf _ _ hsize hfit).1 (hf _ _ hsize hfit).2
  rw [range_map_char_buf] at h
  exact h

set_option maxRecDepth 100000 in
theorem pmsg_int_record_witness :
    decimal_text 43 = cstr "43" ∧
    (exynos_ss_hook_pmsg sample_header event_logger running_state
        (int_record 43) 4).2.1.ess_items[2]? =
      some ⟨"log_platform", ⟨SZ_4M, 0xF6A00000, 0x46A00000, 0, 1, 1⟩, 0xF6A00000, 0xF6A00002, 0⟩ ∧
    (List.range 2).map (fun k =>
        (exynos_ss_hook_pmsg sample_header event_logger running_state
          (int_record 43) 4).2.1.mem (0xF6A00000 + k)) = cstr "43" :=
  have h := (pmsg_int_record sample_header event_logger running_state (int_record 43) 43
    (by decide) (by decide) (by decide) (by decide) (by decide)).2.2.2 2
    ⟨"log_platform", ⟨SZ_4M, 0xF6A00000, 0x46A00000, 0, 1, 1⟩, 0xF6A00000, 0xF6A00000, 0⟩
    (by decide) (by decide) (by decide) (by decide) (by decide)
  ⟨by decide, h.1.trans (by decide), h.2.2.1.trans (by decide)⟩

/-! ### C22 -/

/-- C22: on the event stream with the decode buffer allocated, for every entry
`e` of `event_tags` and whatever type byte is pending, the 4-byte record whose
content is the 32-bit value `e.nTagNum` makes `exynos_ss_hook_pmsg` call the
logger hook once, for log_platform with the text "# " followed by the name
followed by one space, leave the logger as it was and return 0.  When
log_platform is the entry `it` at index `i`, enabled with the engine, its
cursor within the buffer and the text no longer than the capacity, the text is
appended (`appended`): afterwards the bytes at the start `p` of the append are
exactly "# ", the name and a space, the cursor is `p` plus the length of the
text, and no other entry and no other byte of memory has changed. -/
theorem pmsg_tag_record (fmt : ess_logger → List Nat) (l : ess_logger) (s : State)
    (buffer : Nat → Nat) (e : event_log_tag_t) (he : e ∈ event_tags) (hbuf : l.buffer ≠ 0)
    (hid : l.id = ESS_LOG_ID_EVENTS) (hv : read_int buffer 0 = e.nTagNum) :
    (exynos_ss_hook_pmsg fmt l s buffer 4).1 = l ∧
    (exynos_ss_hook_pmsg fmt l s buffer 4).2.2 = 0 ∧
    (exynos_ss_hook_pmsg fmt l s buffer 4).2.1 =
      exynos_ss_hook_logger s "log_platform"
        (char_buf ([35, 32] ++ cstr e.event_msg ++ [32]))
        ([35, 32] ++ cstr e.event_msg ++ [32]).length ∧
    ∀ (i : Nat) (it : exynos_ss_item),
      find_item s.ess_items "log_platform" s.ess_desc.log_platform_num = some (i, it) →
      s.ess_base.enabled = 1 ∧ it.entry.enabled = 1 → cursor_within it →
      ([35, 32] ++ cstr e.event_msg ++ [32]).length ≤ it.entry.size →
      it.head_ptr + it.entry.size + ([35, 32] ++ cstr e.event_msg ++ [32]).length < 2 ^ 64 →
      appended s (exynos_ss_hook_pmsg fmt l s buffer 4).2.1 i it
        ([35, 32] ++ cstr e.event_msg ++ [32]) := by
  rw [hook_pmsg_tag_eq fmt l s buffer e he hbuf hid hv]
  refine ⟨rfl, rfl, rfl, ?_⟩
  intro i it hfind hon hinv hsize hfit
  have hf : ∀ (buf : Nat → Nat) (n : Nat), n ≤ it.entry.size →
      it.head_ptr + it.entry.size + n < 2 ^ 64 →
      (exynos_ss_hook_logger s "log_platform" buf n).mem
        = memcpy s.mem (append_start it n) buf n ∧
      (exynos_ss_hook_logger s "log_platform" buf n).ess_items
        = s.ess_items.set i { it with curr_ptr := append_start it n + n } := by
    intro buf n hn hw
    obtain ⟨h1, h2, -, -⟩ := append_start_eq it n hinv hn hw
    unfold exynos_ss_hook_logger
    rw [hfind]
    simp only [hon, and_self, if_true, h1, h2]
  have h := appended_of_fields s _ i it (char_buf ([35, 32] ++ cstr e.event_msg ++ [32]))
    ([35, 32] ++ cstr e.event_msg ++ [32]).length (find_item_some _ _ _ _ _ hfind)
    (hf _ _ hsize hfit).1 (hf _ _ hsize hfit).2
  rw [range_map_char_buf] at h
  exact h

set_option maxRecDepth 100000 in
theorem pmsg_tag_record_witness :
    [35, 32] ++ cstr "pi" ++ [32] = cstr "# pi " ∧
    (exynos_ss_hook_pmsg sample_header event_logger running_state
        (int_record 314) 4).2.1.ess_items[2]? =
      some ⟨"log_platform", ⟨SZ_4M, 0xF6A00000, 0x46A00000, 0, 1, 1⟩, 0xF6A00000, 0xF6A00005, 0⟩ ∧
    (List.range 5).map (fun k =>
        (exynos_ss_hook_pmsg sample_header event_logger running_state
          (int_record 314) 4).2.1.mem (0xF6A00000 + k)) = cstr "# pi " :=
  have h := (pmsg_tag_record sample_header event_logger running_state (int_record 314)
    (event_log_tag_t.mk 314 "pi") (by decide) (by decide) (by decide) (by decide)).2.2.2 2
    ⟨"log_platform", ⟨SZ_4M, 0xF6A00000, 0x46A00000, 0, 1, 1⟩, 0xF6A00000, 0xF6A00000, 0⟩
    (by decide) (by decide) (by decide) (by decide) (by decide)
  ⟨by decide, h.1.trans (by decide), h.2.2.1.trans (by decide)⟩

/-! ### C23 (amended) -/

/-- C23 (amended): off the event stream, with the decode buffer allocated, for
every record of `count >= 2` bytes with `count` not 7 or 11 and every content.
Unless `count` is 4 and the record's last byte is not NUL,
`exynos_ss_hook_pmsg(buffer, count)` calls the logger hook once, for
log_platform with `buffer` and the length `count - 1`; when log_platform is the
entry `it` at index `i`, enabled with the engine, its cursor within the buffer
and `count - 1` no more than the capacity, the first `count - 1` bytes of
`buffer` are appended (`appended`): afterwards they stand, verbatim and in
order, at the start `p` of the append, the cursor is `p + (count - 1)`, and no
other entry and no other byte of memory has changed.  A 4-byte record whose
last byte is not NUL is skipped, the state staying as it was.  The logger is
unchanged and 0 is returned in both cases. -/
theorem pmsg_free_text (fmt : ess_logger → List Nat) (l : ess_logger) (s : State)
    (buffer : Nat → Nat) (count : Nat) (hbuf : l.buffer ≠ 0)
    (hid : l.id ≠ ESS_LOG_ID_EVENTS) (h2 : 2 ≤ count) (hmax : count < 2 ^ 64)
    (h7 : count ≠ 7) (h11 : count ≠ 11) :
    (exynos_ss_hook_pmsg fmt l s buffer count).1 = l ∧
    (exynos_ss_hook_pmsg fmt l s buffer count).2.2 = 0 ∧
    (¬ (count = 4 ∧ buffer 3 % 256 ≠ 0) →
      (exynos_ss_hook_pmsg fmt l s buffer count).2.1 =
        exynos_ss_hook_logger s "log_platform" buffer (count - 1) ∧
      ∀ (i : Nat) (it : exynos_ss_item),
        find_item s.ess_items "log_platform" s.ess_desc.log_platform_num = some (i, it) →
        s.ess_base.enabled = 1 ∧ it.entry.enabled = 1 → cursor_within it →
        count - 1 ≤ it.entry.size → it.head_ptr + it.entry.size + (count - 1) < 2 ^ 64 →
        appended s (exynos_ss_hook_pmsg fmt l s buffer count).2.1 i it
          ((List.range (count - 1)).map buffer)) ∧
    (count = 4 ∧ buffer 3 % 256 ≠ 0 → (exynos_ss_hook_pmsg fmt l s buffer count).2.1 = s) := by
  rw [hook_pmsg_free_text_eq fmt l s buffer count hbuf hid h2 hmax h7 h11]
  by_cases hskip : count = 4 ∧ buffer 3 % 256 ≠ 0
  · rw [if_pos hskip]
    exact ⟨rfl, rfl, fun hno => absurd hskip hno, fun _ => rfl⟩
  · rw [if_neg hskip]
    refine ⟨rfl, rfl, fun _ => ⟨rfl, ?_⟩, fun h => absurd h hskip⟩
    intro i it hfind hon hinv hsize hfit
    have hf : ∀ (buf : Nat → Nat) (n : Nat), n ≤ it.entry.size →
        it.head_ptr + it.entry.size + n < 2 ^ 64 →
        (exynos_ss_hook_logger s "log_platform" buf n).mem
          = memcpy s.mem (append_start it n) buf n ∧
        (exynos_ss_hook_logger s "log_platform" buf n).ess_items
          = s.ess_items.set i { it with curr_ptr := append_start it n + n } := by
      intro buf n hn hw
      obtain ⟨h1, h2, -, -⟩ := append_start_eq it n hinv hn hw
      unfold exynos_ss_hook_logger
      rw [hfind]
      simp only [hon, and_self, if_true, h1, h2]
    exact appended_of_fields s _ i it buffer (count - 1) (find_item_some _ _ _ _ _ hfind)
      (hf _ _ hsize hfit).1 (hf _ _ hsize hfit).2

theorem pmsg_free_text_witness :
    (exynos_ss_hook_pmsg sample_header text_logger running_state
        (char_buf (cstr "boot")) 5).2.1.ess_items[2]? =
      some ⟨"log_platform", ⟨SZ_4M, 0xF6A00000, 0x46A00000, 0, 1, 1⟩, 0xF6A00000, 0xF6A00004, 0⟩ ∧
    (List.range 4).map (fun k =>
        (exynos_ss_hook_pmsg sample_header text_logger running_state
          (char_buf (cstr "boot")) 5).2.1.mem (0xF6A00000 + k)) = cstr "boot" ∧
    (exynos_ss_hook_pmsg sample_header text_logger running_state
        (char_buf (cstr "abcd")) 4).2.1.ess_items = running_state.ess_items :=
  have h := ((pmsg_free_text sample_header text_logger running_state
    (char_buf (cstr "boot")) 5 (by decide) (by decide) (by decide) (by decide) (by decide)
    (by decide)).2.2.1 (by decide)).2 2
    ⟨"log_platform", ⟨SZ_4M, 0xF6A00000, 0x46A00000, 0, 1, 1⟩, 0xF6A00000, 0xF6A00000, 0⟩
    (by decide) (by decide) (by decide) (by decide) (by decide)
  ⟨h.1.trans (by decide), h.2.2.1.trans (by decide),
   congrArg (fun t => t.ess_items)
     ((pmsg_free_text sample_header text_logger running_state (char_buf (cstr "abcd")) 4
       (by decide) (by decide) (by decide) (by decide) (by decide) (by decide)).2.2.2
       ⟨rfl, by decide⟩)⟩

/-! ### C24 -/

/-- C24: for a string value whose 32-bit length field, read as unsigned, is
`len`, `parse_buffer(buffer, EVENT_TYPE_STRING)` returns the cursor advanced by
`4 + len`, past the whole string, and calls the logger hook once, for
log_platform with `min len 63` bytes, fewer than the 64 bytes of the decode
array.  When log_platform is the entry `it` at index `i`, enabled with the
engine, its cursor within the buffer and `min len 63` no more than the
capacity, the first `min len 63` bytes of the string body are appended
(`appended`): afterwards they stand, in order, at the start `p` of the append,
the cursor is `p + min len 63`, and no other entry and no other byte of memory
has changed. -/
theorem parse_buffer_string (s : State) (buffer : Nat → Nat) (pos : Nat) :
    (parse_buffer s buffer pos EVENT_TYPE_STRING).2 = pos + 4 + raw_readl buffer pos ∧
    min (raw_readl buffer pos) 63 < 64 ∧
    ∀ (i : Nat) (it : exynos_ss_item),
      find_item s.ess_items "log_platform" s.ess_desc.log_platform_num = some (i, it) →
      s.ess_base.enabled = 1 ∧ it.entry.enabled = 1 → cursor_within it →
      min (raw_readl buffer pos) 63 ≤ it.entry.size →
      it.head_ptr + it.entry.size + min (raw_readl buffer pos) 63 < 2 ^ 64 →
      appended s (parse_buffer s buffer pos EVENT_TYPE_STRING).1 i it
        ((List.range (min (raw_readl buffer pos) 63)).map (fun k => buffer (pos + 4 + k))) := by
  rw [parse_buffer_string_eq]
  refine ⟨rfl, by omega, ?_⟩
  intro i it hfind hon hinv hsize hfit
  have hf : ∀ (buf : Nat → Nat) (n : Nat), n ≤ it.entry.size →
      it.head_ptr + it.entry.size + n < 2 ^ 64 →
      (exynos_ss_hook_logger s "log_platform" buf n).mem
        = memcpy s.mem (append_start it n) buf n ∧
      (exynos_ss_hook_logger s "log_platform" buf n).ess_items
        = s.ess_items.set i { it with curr_ptr := append_start it n + n } := by
    intro buf n hn hw
    obtain ⟨h1, h2, -, -⟩ := append_start_eq it n hinv hn hw
    unfold exynos_ss_hook_logger
    rw [hfind]
    simp only [hon, and_self, if_true, h1, h2]
  have h := appended_of_fields s _ i it
    (fun k => if k < min (raw_readl buffer pos) 63 then buffer (pos + 4 + k) else 0)
    (min (raw_readl buffer pos) 63) (find_item_some _ _ _ _ _ hfind)
    (hf _ _ hsize hfit).1 (hf _ _ hsize hfit).2
  have hmap : (List.range (min (raw_readl buffer pos) 63)).map
      (fun k => if k < min (raw_readl buffer pos) 63 then buffer (pos + 4 + k) else 0)
      = (List.range (min (raw_readl buffer pos) 63)).map (fun k => buffer (pos + 4 + k)) := by
    apply List.map_congr_left
    intro k hk
    rw [if_pos (List.mem_range.1 hk)]
  rw [hmap] at h
  exact h

theorem parse_buffer_string_witness :
    raw_readl long_string_record 0 = 70 ∧
    (parse_buffer running_state long_string_record 0 EVENT_TYPE_STRING).2 = 74 ∧
    (parse_buffer running_state long_string_record 0 EVENT_TYPE_STRING).1.ess_items[2]? =
      some ⟨"log_platform", ⟨SZ_4M, 0xF6A00000, 0x46A00000, 0, 1, 1⟩, 0xF6A00000,
        0xF6A00000 + 63, 0⟩ ∧
    (List.range 63).map (fun k =>
        (parse_buffer running_state long_string_record 0 EVENT_TYPE_STRING).1.mem
          (0xF6A00000 + k)) = (List.range 63).map (fun k => 97 + k % 26) ∧
    (parse_buffer running_state long_string_record 0 EVENT_TYPE_STRING).1.mem
      (0xF6A00000 + 63) = running_state.mem (0xF6A00000 + 63) :=
  have h := parse_buffer_string running_state long_string_record 0
  have h1 := h.2.2 2
    ⟨"log_platform", ⟨SZ_4M, 0xF6A00000, 0x46A00000, 0, 1, 1⟩, 0xF6A00000, 0xF6A00000, 0⟩
    (by decide) (by decide) (by decide) (by decide) (by decide)
  ⟨by decide, h.1.trans (by decide), h1.1.trans (by decide), h1.2.2.1.trans (by decide),
   h1.2.2.2 (0xF6A00000 + 63) (Or.inr (by decide))⟩

end ExynosSS
